import Mathlib

/-! USB Power Delivery: the TCPCI port-manager driver and its helpers.

A shallow embedding of `driver/tcpm/stm32f0.c` (the TCPCI driver), of the I2C
wrappers of `driver/tcpm/tcpm.h`, of the header layout of
`driver/tcpm/it83xx_pd.h` and of the message-ID helpers of `test/usb_pd.c`.

C `int` values are `Int`.  The driver talks to the transceiver through I2C
transactions and to the rest of the firmware through calls (`msleep`,
`task_set_event`, `pd_transmit_complete`, ...).  Both are external to the
driver: every such call is appended to a trace, and the outcome of the n-th
I2C transaction still to come is read from a tape of results, so a theorem
quantified over the tape holds for every behaviour of the bus.
-/

namespace UsbPd

/-! ## Constants of headers that the driver includes -/

/-- Modelled from the spec: `common.h` is not among the sources; `EC_SUCCESS`
is the zero status, the one every `if (rv)` of the driver takes as success. -/
def EC_SUCCESS : Int := 0

/-- Modelled from the spec: `tcpci.h` is not among the sources; offset of the
ALERT register in the TCPC register map. -/
def TCPC_REG_ALERT : Int := 0x10

/-- Modelled from the spec: `tcpci.h` is not among the sources; ALERT bit,
CC status changed. -/
def TCPC_REG_ALERT_CC_STATUS : Int := 1 <<< (0 : Int)

/-- Modelled from the spec: `tcpci.h` is not among the sources; ALERT bit,
power status changed. -/
def TCPC_REG_ALERT_POWER_STATUS : Int := 1 <<< (1 : Int)

/-- Modelled from the spec: `tcpci.h` is not among the sources; ALERT bit,
a message was received. -/
def TCPC_REG_ALERT_RX_STATUS : Int := 1 <<< (2 : Int)

/-- Modelled from the spec: `tcpci.h` is not among the sources; ALERT bit,
a hard reset was received. -/
def TCPC_REG_ALERT_RX_HARD_RST : Int := 1 <<< (3 : Int)

/-- Modelled from the spec: `tcpci.h` is not among the sources; ALERT bit,
transmission failed. -/
def TCPC_REG_ALERT_TX_FAILED : Int := 1 <<< (4 : Int)

/-- Modelled from the spec: `tcpci.h` is not among the sources; ALERT bit,
transmission discarded. -/
def TCPC_REG_ALERT_TX_DISCARDED : Int := 1 <<< (5 : Int)

/-- Modelled from the spec: `tcpci.h` is not among the sources; ALERT bit,
transmission succeeded. -/
def TCPC_REG_ALERT_TX_SUCCESS : Int := 1 <<< (6 : Int)

/-- Modelled from the spec: `tcpci.h` is not among the sources; the three
transmit-outcome bits of ALERT together (success, discarded, failed). -/
def TCPC_REG_ALERT_TX_COMPLETE : Int :=
  Int.lor (Int.lor TCPC_REG_ALERT_TX_SUCCESS TCPC_REG_ALERT_TX_DISCARDED)
    TCPC_REG_ALERT_TX_FAILED

/-- Modelled from the spec: `tcpci.h` is not among the sources; offset of the
ALERT_MASK register. -/
def TCPC_REG_ALERT_MASK : Int := 0x12

/-- Modelled from the spec: `tcpci.h` is not among the sources; offset of the
POWER_STATUS_MASK register. -/
def TCPC_REG_POWER_STATUS_MASK : Int := 0x14

/-- Modelled from the spec: `tcpci.h` is not among the sources; offset of the
TCPC_CONTROL register. -/
def TCPC_REG_TCPC_CTRL : Int := 0x19

/-- Modelled from the spec: `tcpci.h` is not among the sources; offset of the
ROLE_CONTROL register. -/
def TCPC_REG_ROLE_CTRL : Int := 0x1a

/-- Modelled from the spec: `tcpci.h` is not among the sources; offset of the
POWER_CONTROL register. -/
def TCPC_REG_POWER_CTRL : Int := 0x1c

/-- Modelled from the spec: `tcpci.h` is not among the sources; offset of the
CC_STATUS register. -/
def TCPC_REG_CC_STATUS : Int := 0x1d

/-- Modelled from the spec: `tcpci.h` is not among the sources; the
termination bit (bit 4) of a CC_STATUS value, as 0 or 1. -/
def TCPC_REG_CC_STATUS_TERM (reg : Int) : Int := (Int.land reg 0x10) >>> (4 : Int)

/-- Modelled from the spec: `tcpci.h` is not among the sources; the 2-bit
state of line CC2 (bits 2-3) of a CC_STATUS value. -/
def TCPC_REG_CC_STATUS_CC2 (reg : Int) : Int := (Int.land reg 0xc) >>> (2 : Int)

/-- Modelled from the spec: `tcpci.h` is not among the sources; the 2-bit
state of line CC1 (bits 0-1) of a CC_STATUS value. -/
def TCPC_REG_CC_STATUS_CC1 (reg : Int) : Int := Int.land reg 0x3

/-- Modelled from the spec: `tcpci.h` is not among the sources; offset of the
POWER_STATUS register. -/
def TCPC_REG_POWER_STATUS : Int := 0x1e

/-- Modelled from the spec: `tcpci.h` is not among the sources; reset value
of the power-status mask. -/
def TCPC_REG_POWER_STATUS_MASK_ALL : Int := 0xff

/-- Modelled from the spec: `tcpci.h` is not among the sources; POWER_STATUS
bit, the TCPC is still initialising. -/
def TCPC_REG_POWER_STATUS_UNINIT : Int := 1 <<< (6 : Int)

/-- Modelled from the spec: `tcpci.h` is not among the sources; POWER_STATUS
bit, VBUS present. -/
def TCPC_REG_POWER_STATUS_VBUS_PRES : Int := 1 <<< (2 : Int)

/-- Modelled from the spec: `tcpci.h` is not among the sources; offset of the
RX_BYTE_CNT register. -/
def TCPC_REG_RX_BYTE_CNT : Int := 0x30

/-- Modelled from the spec: `tcpci.h` is not among the sources; offset of the
RX_HDR register. -/
def TCPC_REG_RX_HDR : Int := 0x32

/-- Modelled from the spec: `tcpci.h` is not among the sources; offset of the
RX_DATA buffer. -/
def TCPC_REG_RX_DATA : Int := 0x34

/-- Modelled from the spec: `tcpci.h` is not among the sources; offset of the
TRANSMIT register. -/
def TCPC_REG_TRANSMIT : Int := 0x50

/-- Modelled from the spec: `tcpci.h` is not among the sources; offset of the
TX_BYTE_CNT register. -/
def TCPC_REG_TX_BYTE_CNT : Int := 0x51

/-- Modelled from the spec: `tcpci.h` is not among the sources; offset of the
TX_HDR register. -/
def TCPC_REG_TX_HDR : Int := 0x52

/-- Modelled from the spec: `tcpci.h` is not among the sources; offset of the
TX_DATA buffer. -/
def TCPC_REG_TX_DATA : Int := 0x54

/-- Default retry count for transmitting (`usb_pd_tcpm.h`). -/
def PD_RETRY_COUNT : Int := 3

/-- Modelled from the spec: `tcpci.h` is not among the sources; the value
written to TRANSMIT, the retry count above the transmit type. -/
def TCPC_REG_TRANSMIT_SET (type : Int) : Int :=
  Int.lor (PD_RETRY_COUNT <<< (4 : Int)) type

/-- Modelled from the spec: `usb_pd.h` is not among the sources; the 3-bit
data-object count, bits 12-14 of a message header. -/
def PD_HEADER_CNT (header : Nat) : Nat := (header >>> 12) &&& 7

/-! ## Enumerations of `usb_pd_tcpm.h` -/

/-- The `enum tcpc_cc_voltage_status` value OPEN. -/
def TYPEC_CC_VOLT_OPEN : Int := 0
/-- The `enum tcpc_cc_voltage_status` value RA. -/
def TYPEC_CC_VOLT_RA : Int := 1
/-- The `enum tcpc_cc_voltage_status` value RD. -/
def TYPEC_CC_VOLT_RD : Int := 2
/-- The `enum tcpc_cc_voltage_status` value SNK_DEF. -/
def TYPEC_CC_VOLT_SNK_DEF : Int := 5
/-- The `enum tcpc_cc_voltage_status` value SNK_1_5. -/
def TYPEC_CC_VOLT_SNK_1_5 : Int := 6
/-- The `enum tcpc_cc_voltage_status` value SNK_3_0. -/
def TYPEC_CC_VOLT_SNK_3_0 : Int := 7

/-- Membership in `enum tcpc_cc_voltage_status`. -/
def is_tcpc_cc_voltage_status (v : Int) : Prop :=
  v = TYPEC_CC_VOLT_OPEN ∨ v = TYPEC_CC_VOLT_RA ∨ v = TYPEC_CC_VOLT_RD ∨
  v = TYPEC_CC_VOLT_SNK_DEF ∨ v = TYPEC_CC_VOLT_SNK_1_5 ∨ v = TYPEC_CC_VOLT_SNK_3_0

instance (v : Int) : Decidable (is_tcpc_cc_voltage_status v) := by
  unfold is_tcpc_cc_voltage_status; infer_instance

/-- The `enum tcpc_transmit_complete` value for success. -/
def TCPC_TX_COMPLETE_SUCCESS : Int := 0
/-- The `enum tcpc_transmit_complete` value for a discarded transmission. -/
def TCPC_TX_COMPLETE_DISCARDED : Int := 1
/-- The `enum tcpc_transmit_complete` value for a failed transmission. -/
def TCPC_TX_COMPLETE_FAILED : Int := 2

/-- The `enum tcpc_alert_polarity` of `usb_pd_tcpm.h`. -/
inductive tcpc_alert_polarity where
  | TCPC_ALERT_ACTIVE_LOW
  | TCPC_ALERT_ACTIVE_HIGH
deriving DecidableEq, Repr

/-- The addressing members of `struct tcpc_config_t` (`usb_pd_tcpm.h`). -/
structure tcpc_config_t where
  i2c_host_port : Int
  i2c_slave_addr : Int
  pol : tcpc_alert_polarity
deriving DecidableEq, Repr

/-! ## The world outside the driver -/

/-- Flags of an `i2c_xfer` call (`i2c.h`, used by name only). -/
inductive I2cXferFlags where
  | I2C_XFER_START
  | I2C_XFER_STOP
  | I2C_XFER_SINGLE
deriving DecidableEq, Repr

/-- Task events raised by the driver (`usb_pd.h`, used by name only). -/
inductive PdEvent where
  | PD_EVENT_RX
  | PD_EVENT_CC
  | PD_EVENT_TCPC_RESET
deriving DecidableEq, Repr

/-- One call made by the driver to code outside it, with its arguments. -/
inductive Event where
  | i2c_read8 (i2c_port slave_addr offset : Int)
  | i2c_read16 (i2c_port slave_addr offset : Int)
  | i2c_write8 (i2c_port slave_addr offset data : Int)
  | i2c_write16 (i2c_port slave_addr offset data : Int)
  | i2c_xfer (i2c_port slave_addr : Int) (out : List Int) (in_size : Int)
      (flags : I2cXferFlags)
  | i2c_lock (i2c_port lock : Int)
  | msleep (ms : Int)
  | task_set_event (task : Int) (event : PdEvent) (wait : Int)
  | task_wake (task : Int)
  | pd_execute_hard_reset (port : Nat)
  | pd_transmit_complete (port : Nat) (status : Int)
  | usb_charger_vbus_change (port : Nat) (vbus_level : Int)
deriving DecidableEq, Repr

/-- Outcome of one I2C transaction: the status returned, the value left in
the destination of a register read, and the bytes left in the input buffer of
a transfer. -/
structure I2cResult where
  rv : Int
  val : Int
  data : Nat → Int

/-- What a build fixes: the board table `tcpc_config[]`, the two
configuration options the driver tests, and the task of each port. -/
structure Board where
  tcpc_config : Nat → tcpc_config_t
  CONFIG_USB_PD_VBUS_DETECT_TCPC : Bool
  CONFIG_USB_CHARGER : Bool
  PD_PORT_TO_TASK_ID : Nat → Int

/-- State threaded through the driver: the results of the I2C transactions
still to come (next first), the calls made so far (oldest first) and the
driver's static array `tcpc_vbus[]`. -/
structure World where
  i2c : Nat → I2cResult
  trace : List Event
  tcpc_vbus : Nat → Int

/-- Record a call that returns nothing the driver uses. -/
def World.emit (w : World) (e : Event) : World :=
  { w with trace := w.trace ++ [e] }

/-- Perform one I2C transaction: record it and take its outcome off the tape. -/
def World.transact (w : World) (e : Event) : I2cResult × World :=
  (w.i2c 0, { w with i2c := fun n => w.i2c (n + 1), trace := w.trace ++ [e] })

/-! ## I2C wrappers of `tcpm.h` -/

/-- The `tcpc_write` wrapper of `tcpm.h`. -/
def tcpc_write (b : Board) (port : Nat) (reg val : Int) (w : World) : Int × World :=
  let r := w.transact (Event.i2c_write8 (b.tcpc_config port).i2c_host_port
    (b.tcpc_config port).i2c_slave_addr reg val)
  (r.1.rv, r.2)

/-- The `tcpc_write16` wrapper of `tcpm.h`. -/
def tcpc_write16 (b : Board) (port : Nat) (reg val : Int) (w : World) : Int × World :=
  let r := w.transact (Event.i2c_write16 (b.tcpc_config port).i2c_host_port
    (b.tcpc_config port).i2c_slave_addr reg val)
  (r.1.rv, r.2)

/-- The `tcpc_read` wrapper of `tcpm.h`: status, value left in `*val`, world. -/
def tcpc_read (b : Board) (port : Nat) (reg : Int) (w : World) : Int × Int × World :=
  let r := w.transact (Event.i2c_read8 (b.tcpc_config port).i2c_host_port
    (b.tcpc_config port).i2c_slave_addr reg)
  (r.1.rv, r.1.val, r.2)

/-- The `tcpc_read16` wrapper of `tcpm.h`: status, value left in `*val`, world. -/
def tcpc_read16 (b : Board) (port : Nat) (reg : Int) (w : World) : Int × Int × World :=
  let r := w.transact (Event.i2c_read16 (b.tcpc_config port).i2c_host_port
    (b.tcpc_config port).i2c_slave_addr reg)
  (r.1.rv, r.1.val, r.2)

/-- The `tcpc_xfer` wrapper of `tcpm.h`: status, bytes left in `in`, world. -/
def tcpc_xfer (b : Board) (port : Nat) (out : List Int) (in_size : Int)
    (flags : I2cXferFlags) (w : World) : Int × (Nat → Int) × World :=
  let r := w.transact (Event.i2c_xfer (b.tcpc_config port).i2c_host_port
    (b.tcpc_config port).i2c_slave_addr out in_size flags)
  (r.1.rv, r.1.data, r.2)

/-- The `tcpc_lock` wrapper of `tcpm.h`. -/
def tcpc_lock (b : Board) (port : Nat) (lock : Int) (w : World) : World :=
  w.emit (Event.i2c_lock (b.tcpc_config port).i2c_host_port lock)

/-- The call `msleep(ms)`. -/
def msleep (ms : Int) (w : World) : World := w.emit (Event.msleep ms)

/-! ## `stm32f0.c`: initialisation -/

/-- The function `init_alert_mask`. -/
def init_alert_mask (b : Board) (port : Nat) (w : World) : Int × World :=
  let mask0 :=
    Int.lor (Int.lor (Int.lor (Int.lor (Int.lor TCPC_REG_ALERT_TX_SUCCESS
      TCPC_REG_ALERT_TX_FAILED) TCPC_REG_ALERT_TX_DISCARDED) TCPC_REG_ALERT_RX_STATUS)
      TCPC_REG_ALERT_RX_HARD_RST) TCPC_REG_ALERT_CC_STATUS
  let mask :=
    if b.CONFIG_USB_PD_VBUS_DETECT_TCPC then Int.lor mask0 TCPC_REG_ALERT_POWER_STATUS
    else mask0
  tcpc_write16 b port TCPC_REG_ALERT_MASK mask w

/-- The function `init_power_status_mask`. -/
def init_power_status_mask (b : Board) (port : Nat) (w : World) : Int × World :=
  let mask :=
    if b.CONFIG_USB_PD_VBUS_DETECT_TCPC then TCPC_REG_POWER_STATUS_VBUS_PRES else 0
  tcpc_write b port TCPC_REG_POWER_STATUS_MASK mask w

/-- Number of tries of `tcpci_tcpm_init` on I2C failure. -/
def TCPM_INIT_TRIES : Int := 30

/-- The `while (1)` loop of `tcpci_tcpm_init`, one iteration per unit of
fuel; `none` when the fuel runs out before the loop returns.  `tries` is the
local variable of that name at the top of the iteration. -/
def tcpci_tcpm_init_loop (b : Board) (port : Nat) :
    Nat → Int → World → Option (Int × World)
  | 0, _, _ => none
  | fuel + 1, tries, w =>
    let r := tcpc_read b port TCPC_REG_POWER_STATUS w
    let rv := r.1
    let power_status := r.2.1
    let w1 := r.2.2
    if rv = EC_SUCCESS ∧ Int.land power_status TCPC_REG_POWER_STATUS_UNINIT = 0 then
      let w2 := (tcpc_write16 b port TCPC_REG_ALERT 0xffff w1).2
      let w3 := (init_power_status_mask b port w2).2
      let vbus : Int :=
        if Int.land power_status TCPC_REG_POWER_STATUS_VBUS_PRES ≠ 0 then 1 else 0
      let w4 := { w3 with tcpc_vbus := fun p => if p = port then vbus else w3.tcpc_vbus p }
      some (init_alert_mask b port w4)
    else if rv ≠ EC_SUCCESS ∧ tries - 1 = 0 then
      some (rv, w1)
    else
      tcpci_tcpm_init_loop b port fuel (if rv ≠ EC_SUCCESS then tries - 1 else tries)
        (msleep 10 w1)

/-- The function `tcpci_tcpm_init`, run for at most `fuel` loop iterations. -/
def tcpci_tcpm_init (b : Board) (port : Nat) (fuel : Nat) (w : World) :
    Option (Int × World) :=
  tcpci_tcpm_init_loop b port fuel TCPM_INIT_TRIES w

/-- The read of POWER_STATUS that `tcpci_tcpm_init` issues for `port`. -/
def power_status_read (b : Board) (port : Nat) : Event :=
  Event.i2c_read8 (b.tcpc_config port).i2c_host_port
    (b.tcpc_config port).i2c_slave_addr TCPC_REG_POWER_STATUS

/-- A board with two TCPCI ports, on I2C buses 0 and 1. -/
def demo_board : Board where
  tcpc_config := fun port =>
    if port = 0 then ⟨0, 0x50, tcpc_alert_polarity.TCPC_ALERT_ACTIVE_LOW⟩
    else ⟨1, 0x16, tcpc_alert_polarity.TCPC_ALERT_ACTIVE_LOW⟩
  CONFIG_USB_PD_VBUS_DETECT_TCPC := true
  CONFIG_USB_CHARGER := true
  PD_PORT_TO_TASK_ID := fun port => 2 + port

/-- A world whose every I2C transaction returns `r`, with an empty trace. -/
def const_world (r : I2cResult) : World where
  i2c := fun _ => r
  trace := []
  tcpc_vbus := fun _ => 0

/-- A world whose first I2C transactions return the results listed, and `r`
after them. -/
def list_world (rs : List I2cResult) (r : I2cResult) : World where
  i2c := fun n => rs.getD n r
  trace := []
  tcpc_vbus := fun _ => 0

/-- An I2C transaction that fails with status 1. -/
def read_failure : I2cResult := ⟨1, 0, fun _ => 0⟩

/-- A successful read that returns only the UNINIT bit of POWER_STATUS. -/
def read_uninit : I2cResult := ⟨EC_SUCCESS, TCPC_REG_POWER_STATUS_UNINIT, fun _ => 0⟩

/-! ## Message header: `struct usbpd_header` and the header macros -/

/-- The bit fields of `struct usbpd_header` (`it83xx_pd.h`), in declaration
order; their widths are 4, 1, 1, 2, 1, 3, 3 and 1 bits. -/
structure usbpd_header where
  msg_type : Nat
  reserved : Nat
  port_role : Nat
  spec_ver : Nat
  power_role : Nat
  msg_id : Nat
  data_obj_num : Nat
  reserved2 : Nat
deriving DecidableEq, Repr

/-- The 16-bit word holding a `struct usbpd_header`: the fields are laid out
from bit 0 upwards in declaration order, so the type is in bits 0-3, the port
(data) role in bit 5, the revision in bits 6-7, the power role in bit 8, the
message ID in bits 9-11 and the object count in bits 12-14. -/
def usbpd_header.bits (h : usbpd_header) : Nat :=
  h.msg_type ||| (h.reserved <<< 4) ||| (h.port_role <<< 5) ||| (h.spec_ver <<< 6) |||
  (h.power_role <<< 8) ||| (h.msg_id <<< 9) ||| (h.data_obj_num <<< 12) |||
  (h.reserved2 <<< 15)

/-- The fields read back from the 16-bit word of a `struct usbpd_header`. -/
def usbpd_header.ofBits (x : Nat) : usbpd_header where
  msg_type := x &&& 0xf
  reserved := (x >>> 4) &&& 1
  port_role := (x >>> 5) &&& 1
  spec_ver := (x >>> 6) &&& 3
  power_role := (x >>> 8) &&& 1
  msg_id := (x >>> 9) &&& 7
  data_obj_num := (x >>> 12) &&& 7
  reserved2 := (x >>> 15) &&& 1

/-- Modelled from the spec: `usb_pd.h` is not among the sources; the
specification revision that `PD_HEADER` puts in bits 6-7. -/
def PD_REV20 : Nat := 1

/-- Modelled from the spec: `usb_pd.h` is not among the sources; builds a
header from the 4-bit type, the power and data role bits, the 3-bit message ID
and the 3-bit object count (the five arguments of its uses in `test/usb_pd.c`). -/
def PD_HEADER (type prole drole id cnt : Nat) : Nat :=
  type ||| (PD_REV20 <<< 6) ||| (drole <<< 5) ||| (prole <<< 8) ||| (id <<< 9) |||
  (cnt <<< 12)

/-- Modelled from the spec: `usb_pd.h` is not among the sources; the 4-bit
message type, bits 0-3 of a header. -/
def PD_HEADER_TYPE (header : Nat) : Nat := header &&& 0xf

/-- Modelled from the spec: `usb_pd.h` is not among the sources; the 3-bit
message ID, bits 9-11 of a header. -/
def PD_HEADER_ID (header : Nat) : Nat := (header >>> 9) &&& 7

/-! ## `test/usb_pd.c`: the per-port record and its message-ID counters -/

/-- The `struct pd_port_t` of `test/usb_pd.c`. -/
structure pd_port_t where
  host_mode : Int
  has_vbus : Int
  msg_tx_id : Int
  msg_rx_id : Int
  polarity : Int
  partner_role : Int
  partner_polarity : Int
deriving DecidableEq, Repr

/-- The function `inc_tx_id` of `test/usb_pd.c`, on the array `pd_port[]`;
the C operator `%` is `Int.tmod`. -/
def inc_tx_id (port : Nat) (pd_port : Nat → pd_port_t) : Nat → pd_port_t :=
  fun p => if p = port then
    { pd_port port with msg_tx_id := Int.tmod ((pd_port port).msg_tx_id + 1) 7 }
  else pd_port p

/-- The function `inc_rx_id` of `test/usb_pd.c`, on the array `pd_port[]`. -/
def inc_rx_id (port : Nat) (pd_port : Nat → pd_port_t) : Nat → pd_port_t :=
  fun p => if p = port then
    { pd_port port with msg_rx_id := Int.tmod ((pd_port port).msg_rx_id + 1) 7 }
  else pd_port p

/-- An array `pd_port[]` whose ports all have both message IDs at 0. -/
def pd_port_zero : Nat → pd_port_t := fun _ => ⟨0, 0, 0, 0, 0, -1, 0⟩

/-! ## `stm32f0.c`: CC status, receive, transmit and alert -/

/-- The function `tcpci_tcpm_get_cc`; `cc1` and `cc2` are the values of `*cc1`
and `*cc2` before the call, the result holds the status and their values after
it. -/
def tcpci_tcpm_get_cc (b : Board) (port : Nat) (cc1 cc2 : Int) (w : World) :
    Int × Int × Int × World :=
  let r := tcpc_read b port TCPC_REG_CC_STATUS w
  let rv := r.1
  let status := r.2.1
  if rv ≠ 0 then (rv, cc1, cc2, r.2.2)
  else
    let c1 := TCPC_REG_CC_STATUS_CC1 status
    let c2 := TCPC_REG_CC_STATUS_CC2 status
    let c1 := if c1 ≠ TYPEC_CC_VOLT_OPEN then
      Int.lor c1 (TCPC_REG_CC_STATUS_TERM status <<< (2 : Int)) else c1
    let c2 := if c2 ≠ TYPEC_CC_VOLT_OPEN then
      Int.lor c2 (TCPC_REG_CC_STATUS_TERM status <<< (2 : Int)) else c2
    (rv, c1, c2, r.2.2)

/-- The function `tcpci_tcpm_get_power_status`. -/
def tcpci_tcpm_get_power_status (b : Board) (port : Nat) (w : World) : Int × Int × World :=
  tcpc_read b port TCPC_REG_POWER_STATUS w

/-- The function `tcpm_alert_status`. -/
def tcpm_alert_status (b : Board) (port : Nat) (w : World) : Int × Int × World :=
  tcpc_read16 b port TCPC_REG_ALERT w

/-- The function `tcpci_tcpm_get_message`; `payload` is the caller's buffer as
bytes before the call, the result holds the status, the buffer after the call,
the value left in `*head` and the world. -/
def tcpci_tcpm_get_message (b : Board) (port : Nat) (payload : Nat → Int) (w : World) :
    Int × (Nat → Int) × Int × World :=
  let reg := TCPC_REG_RX_DATA
  let r1 := tcpc_read b port TCPC_REG_RX_BYTE_CNT w
  let cnt := r1.2.1
  let r2 := tcpc_read16 b port TCPC_REG_RX_HDR r1.2.2
  let head := r2.2.1
  let rv := Int.lor r1.1 r2.1
  let r3 : Int × (Nat → Int) × World :=
    if rv = EC_SUCCESS ∧ cnt > 0 then
      let w3 := tcpc_lock b port 1 r2.2.2
      let x := tcpc_xfer b port [reg] cnt I2cXferFlags.I2C_XFER_SINGLE w3
      (x.1, fun i => if (i : Int) < cnt then x.2.1 i else payload i,
        tcpc_lock b port 0 x.2.2)
    else (rv, payload, r2.2.2)
  let w6 := (tcpc_write16 b port TCPC_REG_ALERT TCPC_REG_ALERT_RX_STATUS r3.2.2).2
  (r3.1, r3.2.1, head, w6)

/-- The function `tcpci_tcpm_transmit`; `header` is the `uint16_t` header and
`data` the payload as bytes. -/
def tcpci_tcpm_transmit (b : Board) (port : Nat) (type : Int) (header : Nat)
    (data : Nat → Int) (w : World) : Int × World :=
  let reg := TCPC_REG_TX_DATA
  let cnt : Int := 4 * (PD_HEADER_CNT header : Int)
  let r1 := tcpc_write b port TCPC_REG_TX_BYTE_CNT (cnt + 2) w
  let r2 := tcpc_write16 b port TCPC_REG_TX_HDR (header : Int) r1.2
  let rv := Int.lor r1.1 r2.1
  if rv ≠ 0 then (rv, r2.2)
  else
    let r3 : Int × World :=
      if cnt > 0 then
        let w3 := tcpc_lock b port 1 r2.2
        let x1 := tcpc_xfer b port [reg] 0 I2cXferFlags.I2C_XFER_START w3
        let x2 := tcpc_xfer b port ((List.range cnt.toNat).map data) 0
          I2cXferFlags.I2C_XFER_STOP x1.2.2
        (Int.lor x1.1 x2.1, tcpc_lock b port 0 x2.2.2)
      else (rv, r2.2)
    if r3.1 ≠ 0 then r3
    else tcpc_write b port TCPC_REG_TRANSMIT (TCPC_REG_TRANSMIT_SET type) r3.2

/-- The body of `if (status & TCPC_REG_ALERT_POWER_STATUS)` in
`tcpci_tcpc_alert`. -/
def tcpci_tcpc_alert_power_status (b : Board) (port : Nat) (w : World) : World :=
  let r := tcpc_read b port TCPC_REG_POWER_STATUS_MASK w
  let reg := r.2.1
  if reg = TCPC_REG_POWER_STATUS_MASK_ALL then
    r.2.2.emit (Event.task_set_event (b.PD_PORT_TO_TASK_ID port)
      PdEvent.PD_EVENT_TCPC_RESET 0)
  else
    let r2 := tcpci_tcpm_get_power_status b port r.2.2
    let reg := r2.2.1
    let vbus : Int := if Int.land reg TCPC_REG_POWER_STATUS_VBUS_PRES ≠ 0 then 1 else 0
    let w2 := { r2.2.2 with tcpc_vbus := fun p => if p = port then vbus else r2.2.2.tcpc_vbus p }
    if b.CONFIG_USB_PD_VBUS_DETECT_TCPC && b.CONFIG_USB_CHARGER then
      (w2.emit (Event.usb_charger_vbus_change port (w2.tcpc_vbus port))).emit
        (Event.task_wake (b.PD_PORT_TO_TASK_ID port))
    else w2

/-- The function `tcpci_tcpc_alert`. -/
def tcpci_tcpc_alert (b : Board) (port : Nat) (w : World) : World :=
  let r := tcpm_alert_status b port w
  let status := r.2.1
  let w1 := r.2.2
  let w2 :=
    if Int.land status (~~~TCPC_REG_ALERT_RX_STATUS) ≠ 0 then
      (tcpc_write16 b port TCPC_REG_ALERT
        (Int.land status (~~~TCPC_REG_ALERT_RX_STATUS)) w1).2
    else w1
  let w3 :=
    if Int.land status TCPC_REG_ALERT_CC_STATUS ≠ 0 then
      w2.emit (Event.task_set_event (b.PD_PORT_TO_TASK_ID port) PdEvent.PD_EVENT_CC 0)
    else w2
  let w4 :=
    if Int.land status TCPC_REG_ALERT_POWER_STATUS ≠ 0 then
      tcpci_tcpc_alert_power_status b port w3
    else w3
  let w5 :=
    if Int.land status TCPC_REG_ALERT_RX_STATUS ≠ 0 then
      w4.emit (Event.task_set_event (b.PD_PORT_TO_TASK_ID port) PdEvent.PD_EVENT_RX 0)
    else w4
  let w6 :=
    if Int.land status TCPC_REG_ALERT_RX_HARD_RST ≠ 0 then
      (w5.emit (Event.pd_execute_hard_reset port)).emit
        (Event.task_wake (b.PD_PORT_TO_TASK_ID port))
    else w5
  if Int.land status TCPC_REG_ALERT_TX_COMPLETE ≠ 0 then
    w6.emit (Event.pd_transmit_complete port
      (if Int.land status TCPC_REG_ALERT_TX_SUCCESS ≠ 0 then TCPC_TX_COMPLETE_SUCCESS
       else TCPC_TX_COMPLETE_FAILED))
  else w6

/-- A successful register read that leaves `v` in its destination. -/
def read_ok (v : Int) : I2cResult := ⟨EC_SUCCESS, v, fun _ => 0⟩

/-- The calls of `pd_transmit_complete` in a trace, as (port, status) pairs. -/
def transmit_complete_calls : List Event → List (Nat × Int)
  | [] => []
  | Event.pd_transmit_complete port status :: es =>
    (port, status) :: transmit_complete_calls es
  | _ :: es => transmit_complete_calls es

/-- Whether a call is an I2C write (`i2c_write8`, `i2c_write16`) to the
register at `offset`. -/
def Event.writes_reg (offset : Int) : Event → Bool
  | Event.i2c_write8 _ _ o _ => o == offset
  | Event.i2c_write16 _ _ o _ => o == offset
  | _ => false

/-- Whether a call is an `i2c_xfer`. -/
def Event.is_xfer : Event → Bool
  | Event.i2c_xfer _ _ _ _ _ => true
  | _ => false

/-- Whether a call, if it names a port or a task, names `port` or the task
`task`; calls on the I2C bus and `msleep` name neither. -/
def Event.targets (port : Nat) (task : Int) : Event → Prop
  | Event.task_set_event t _ _ => t = task
  | Event.task_wake t => t = task
  | Event.pd_execute_hard_reset p => p = port
  | Event.pd_transmit_complete p _ => p = port
  | Event.usb_charger_vbus_change p _ => p = port
  | _ => True

/-- The calls made between world `w` and a later world `w'`. -/
def World.since (w w' : World) : List Event := w'.trace.drop w.trace.length

/-- A bus on which every transaction succeeds and reads return 0. -/
def ok_world : World := const_world (read_ok 0)

/-- A payload buffer whose byte at offset `i` is `i`. -/
def ramp_payload : Nat → Int := fun i => (i : Int)

/-- Everything `tcpci_tcpm_transmit` does before the TRANSMIT write
succeeded: the TX_BYTE_CNT write (the first transaction), the TX_HDR write (the
second) and, when the header's object count is not zero, the two payload
transfers (the third and fourth). -/
def transmit_preceding_ok (w : World) (header : Nat) : Prop :=
  (w.i2c 0).rv = EC_SUCCESS ∧ (w.i2c 1).rv = EC_SUCCESS ∧
  (0 < PD_HEADER_CNT header → (w.i2c 2).rv = EC_SUCCESS ∧ (w.i2c 3).rv = EC_SUCCESS)

/-- Index, among the transactions of `tcpci_tcpm_transmit`, of the TRANSMIT
write when it is reached. -/
def transmit_write_index (header : Nat) : Nat :=
  if 0 < PD_HEADER_CNT header then 4 else 2

/-- The calls that the power-status branch of `tcpci_tcpc_alert` can make for
`port`, whose task is `task`. -/
def Event.power_status_call (port : Nat) (task : Int) : Event → Prop
  | Event.i2c_read8 _ _ _ => True
  | Event.task_set_event t ev wt => t = task ∧ ev = PdEvent.PD_EVENT_TCPC_RESET ∧ wt = 0
  | Event.usb_charger_vbus_change p _ => p = port
  | Event.task_wake t => t = task
  | _ => False

/-- The read of ALERT that `tcpci_tcpc_alert` issues for `port`. -/
def alert_read (b : Board) (port : Nat) : Event :=
  Event.i2c_read16 (b.tcpc_config port).i2c_host_port
    (b.tcpc_config port).i2c_slave_addr TCPC_REG_ALERT

/-! ## `stm32f0.c`: the remaining driver operations and the driver table -/

/-- Modelled from the spec: `tcpci.h` is not among the sources; the value of
ROLE_CONTROL from the DRP bit, the Rp value and the two CC pulls. -/
def TCPC_REG_ROLE_CTRL_SET (drp rp cc1 cc2 : Int) : Int :=
  Int.lor (Int.lor (Int.lor (drp <<< (6 : Int)) (rp <<< (4 : Int))) (cc2 <<< (2 : Int))) cc1

/-- Modelled from the spec: `tcpci.h` is not among the sources; the value of
TCPC_CONTROL for a polarity. -/
def TCPC_REG_TCPC_CTRL_SET (polarity : Int) : Int := polarity

/-- Modelled from the spec: `tcpci.h` is not among the sources; the
VCONN-enable bit (bit 0) of a POWER_CONTROL value. -/
def TCPC_REG_POWER_CTRL_VCONN (reg : Int) : Int := Int.land reg 0x1

/-- Modelled from the spec: `tcpci.h` is not among the sources; offset of the
MESSAGE_HEADER_INFO register. -/
def TCPC_REG_MSG_HDR_INFO : Int := 0x2e

/-- Modelled from the spec: `tcpci.h` is not among the sources; the value of
MESSAGE_HEADER_INFO from the data role, the revision and the power role. -/
def TCPC_REG_MSG_HDR_INFO_SET (drole prole : Int) : Int :=
  Int.lor (Int.lor (drole <<< (3 : Int)) ((PD_REV20 : Int) <<< (1 : Int))) prole

/-- Modelled from the spec: `tcpci.h` is not among the sources; offset of the
RECEIVE_DETECT register. -/
def TCPC_REG_RX_DETECT : Int := 0x2f

/-- Modelled from the spec: `tcpci.h` is not among the sources; the
RECEIVE_DETECT value that enables SOP messages and hard resets. -/
def TCPC_REG_RX_DETECT_SOP_HRST_MASK : Int := 0x21

/-- The function `tcpci_tcpm_set_cc`. -/
def tcpci_tcpm_set_cc (b : Board) (port : Nat) (pull : Int) (w : World) : Int × World :=
  tcpc_write b port TCPC_REG_ROLE_CTRL (TCPC_REG_ROLE_CTRL_SET 0 0 pull pull) w

/-- The function `tcpci_tcpm_set_polarity`. -/
def tcpci_tcpm_set_polarity (b : Board) (port : Nat) (polarity : Int) (w : World) :
    Int × World :=
  tcpc_write b port TCPC_REG_TCPC_CTRL (TCPC_REG_TCPC_CTRL_SET polarity) w

/-- The function `tcpci_tcpm_set_vconn`. -/
def tcpci_tcpm_set_vconn (b : Board) (port : Nat) (enable : Int) (w : World) :
    Int × World :=
  let r := tcpc_read b port TCPC_REG_POWER_CTRL w
  let rv := r.1
  if rv ≠ 0 then (rv, r.2.2)
  else
    let reg := Int.land r.2.1 (~~~(TCPC_REG_POWER_CTRL_VCONN 1))
    let reg := Int.lor reg (TCPC_REG_POWER_CTRL_VCONN enable)
    tcpc_write b port TCPC_REG_POWER_CTRL reg r.2.2

/-- The function `tcpci_tcpm_set_msg_header`. -/
def tcpci_tcpm_set_msg_header (b : Board) (port : Nat) (power_role data_role : Int)
    (w : World) : Int × World :=
  tcpc_write b port TCPC_REG_MSG_HDR_INFO (TCPC_REG_MSG_HDR_INFO_SET data_role power_role) w

/-- The function `tcpci_tcpm_set_rx_enable`. -/
def tcpci_tcpm_set_rx_enable (b : Board) (port : Nat) (enable : Int) (w : World) :
    Int × World :=
  tcpc_write b port TCPC_REG_RX_DETECT
    (if enable ≠ 0 then TCPC_REG_RX_DETECT_SOP_HRST_MASK else 0) w

/-- The function `tcpci_tcpm_get_vbus_level`, compiled only under
`CONFIG_USB_PD_VBUS_DETECT_TCPC`. -/
def tcpci_tcpm_get_vbus_level (port : Nat) (w : World) : Int := w.tcpc_vbus port

/-- The `struct tcpm_drv` of `usb_pd_tcpm.h`: one function per driver
operation.  `init` takes the fuel of its loop after the port; `get_vbus_level`
is `none` for a driver that leaves the member unset. -/
structure tcpm_drv where
  init : Nat → Nat → World → Option (Int × World)
  get_cc : Nat → Int → Int → World → Int × Int × Int × World
  get_vbus_level : Option (Nat → World → Int)
  set_cc : Nat → Int → World → Int × World
  set_polarity : Nat → Int → World → Int × World
  set_vconn : Nat → Int → World → Int × World
  set_msg_header : Nat → Int → Int → World → Int × World
  set_rx_enable : Nat → Int → World → Int × World
  get_message : Nat → (Nat → Int) → World → Int × (Nat → Int) × Int × World
  transmit : Nat → Int → Nat → (Nat → Int) → World → Int × World
  tcpc_alert : Nat → World → World

/-- The driver table `tcpci_tcpm_drv` of `stm32f0.c`, for a build. -/
def tcpci_tcpm_drv (b : Board) : tcpm_drv where
  init := tcpci_tcpm_init b
  get_cc := tcpci_tcpm_get_cc b
  get_vbus_level :=
    if b.CONFIG_USB_PD_VBUS_DETECT_TCPC then some tcpci_tcpm_get_vbus_level else none
  set_cc := tcpci_tcpm_set_cc b
  set_polarity := tcpci_tcpm_set_polarity b
  set_vconn := tcpci_tcpm_set_vconn b
  set_msg_header := tcpci_tcpm_set_msg_header b
  set_rx_enable := tcpci_tcpm_set_rx_enable b
  get_message := tcpci_tcpm_get_message b
  transmit := tcpci_tcpm_transmit b
  tcpc_alert := tcpci_tcpc_alert b

/-! ## `tcpm.h`: the driver wrappers

In each wrapper `drv port` stands for `tcpc_config[port].drv`, the member of
`struct tcpc_config_t` that `tcpc_config_t` above leaves out. -/

/-- The wrapper `tcpm_init` of `tcpm.h`. -/
def tcpm_init (drv : Nat → tcpm_drv) (port fuel : Nat) (w : World) : Option (Int × World) :=
  (drv port).init port fuel w

/-- The wrapper `tcpm_get_cc` of `tcpm.h`. -/
def tcpm_get_cc (drv : Nat → tcpm_drv) (port : Nat) (cc1 cc2 : Int) (w : World) :
    Int × Int × Int × World :=
  (drv port).get_cc port cc1 cc2 w

/-- The wrapper `tcpm_get_vbus_level` of `tcpm.h`; `none` is the call through
an unset member. -/
def tcpm_get_vbus_level (drv : Nat → tcpm_drv) (port : Nat) (w : World) : Option Int :=
  match (drv port).get_vbus_level with
  | some f => some (f port w)
  | none => none

/-- The wrapper `tcpm_set_cc` of `tcpm.h`. -/
def tcpm_set_cc (drv : Nat → tcpm_drv) (port : Nat) (pull : Int) (w : World) : Int × World :=
  (drv port).set_cc port pull w

/-- The wrapper `tcpm_set_polarity` of `tcpm.h`. -/
def tcpm_set_polarity (drv : Nat → tcpm_drv) (port : Nat) (polarity : Int) (w : World) :
    Int × World :=
  (drv port).set_polarity port polarity w

/-- The wrapper `tcpm_set_vconn` of `tcpm.h`. -/
def tcpm_set_vconn (drv : Nat → tcpm_drv) (port : Nat) (enable : Int) (w : World) :
    Int × World :=
  (drv port).set_vconn port enable w

/-- The wrapper `tcpm_set_msg_header` of `tcpm.h`. -/
def tcpm_set_msg_header (drv : Nat → tcpm_drv) (port : Nat) (power_role data_role : Int)
    (w : World) : Int × World :=
  (drv port).set_msg_header port power_role data_role w

/-- The wrapper `tcpm_set_rx_enable` of `tcpm.h`. -/
def tcpm_set_rx_enable (drv : Nat → tcpm_drv) (port : Nat) (enable : Int) (w : World) :
    Int × World :=
  (drv port).set_rx_enable port enable w

/-- The wrapper `tcpm_get_message` of `tcpm.h`. -/
def tcpm_get_message (drv : Nat → tcpm_drv) (port : Nat) (payload : Nat → Int) (w : World) :
    Int × (Nat → Int) × Int × World :=
  (drv port).get_message port payload w

/-- The wrapper `tcpm_transmit` of `tcpm.h`. -/
def tcpm_transmit (drv : Nat → tcpm_drv) (port : Nat) (type : Int) (header : Nat)
    (data : Nat → Int) (w : World) : Int × World :=
  (drv port).transmit port type header data w

/-- The wrapper `tcpc_alert` of `tcpm.h`. -/
def tcpc_alert (drv : Nat → tcpm_drv) (port : Nat) (w : World) : World :=
  (drv port).tcpc_alert port w

/-! ## `board/reef`: the board table and the alert status -/

/-- The value of `IS_PROTO` in `board/reef/board.h`. -/
def IS_PROTO : Int := 1

/-- Modelled from the spec: the chip's `registers.h` is not among the sources;
the I2C bus of reef's first TCPC. -/
def NPCX_I2C_PORT0_0 : Int := 0

/-- Modelled from the spec: the chip's `registers.h` is not among the sources;
the I2C bus of reef's second TCPC. -/
def NPCX_I2C_PORT0_1 : Int := 1

/-- The addressing and polarity members of reef's `tcpc_config[]`
(`board/reef/board.c`). -/
def reef_tcpc_config_table : List tcpc_config_t :=
  [ if IS_PROTO = 1 then
      ⟨NPCX_I2C_PORT0_0, 0x50, tcpc_alert_polarity.TCPC_ALERT_ACTIVE_HIGH⟩
    else ⟨NPCX_I2C_PORT0_0, 0x50, tcpc_alert_polarity.TCPC_ALERT_ACTIVE_LOW⟩,
    ⟨NPCX_I2C_PORT0_1, 0x16, tcpc_alert_polarity.TCPC_ALERT_ACTIVE_LOW⟩ ]

/-- Reef's `tcpc_config[port]`; an index past the two entries of the array is
given the last entry. -/
def reef_tcpc_config (port : Nat) : tcpc_config_t :=
  reef_tcpc_config_table.getD port ⟨NPCX_I2C_PORT0_1, 0x16,
    tcpc_alert_polarity.TCPC_ALERT_ACTIVE_LOW⟩

/-- The reef build: its board table and its options (`board/reef/board.h`
selects VBUS detection by the charger, not by the TCPC, and has the USB
charger); the task of each port is left open. -/
def reef_board (PD_PORT_TO_TASK_ID : Nat → Int) : Board where
  tcpc_config := reef_tcpc_config
  CONFIG_USB_PD_VBUS_DETECT_TCPC := false
  CONFIG_USB_CHARGER := true
  PD_PORT_TO_TASK_ID := PD_PORT_TO_TASK_ID

/-- The `drv` members of reef's `tcpc_config[]`: `&anx74xx_tcpm_drv` for port 0
and `&tcpci_tcpm_drv` for port 1.  The ANX74xx driver is not among the sources
and is left open; an index past the array is given the last entry. -/
def reef_tcpc_config_drv (anx74xx_tcpm_drv : tcpm_drv) (PD_PORT_TO_TASK_ID : Nat → Int)
    (port : Nat) : tcpm_drv :=
  [anx74xx_tcpm_drv, tcpci_tcpm_drv (reef_board PD_PORT_TO_TASK_ID)].getD port
    (tcpci_tcpm_drv (reef_board PD_PORT_TO_TASK_ID))

/-- The two TCPC interrupt lines that `tcpc_get_alert_status` reads. -/
inductive gpio_signal where
  | GPIO_USB_C0_PD_INT_ODL
  | GPIO_USB_C1_PD_INT_ODL
deriving DecidableEq, Repr

/-- Modelled from the spec: `ec_commands.h` is not among the sources; the
status bit for an alert of TCPC 0. -/
def PD_STATUS_TCPC_ALERT_0 : Nat := 1 <<< 1

/-- Modelled from the spec: `ec_commands.h` is not among the sources; the
status bit for an alert of TCPC 1. -/
def PD_STATUS_TCPC_ALERT_1 : Nat := 1 <<< 2

/-- The function `tcpc_get_alert_status` of `board/reef/board.c`;
`gpio_get_level` gives the level read on each line. -/
def tcpc_get_alert_status (gpio_get_level : gpio_signal → Int) : Nat :=
  let status : Nat := 0
  let status :=
    if IS_PROTO = 0 then
      (if gpio_get_level gpio_signal.GPIO_USB_C0_PD_INT_ODL = 0 then
        status ||| PD_STATUS_TCPC_ALERT_0 else status)
    else
      (if gpio_get_level gpio_signal.GPIO_USB_C0_PD_INT_ODL ≠ 0 then
        status ||| PD_STATUS_TCPC_ALERT_0 else status)
  let status :=
    if gpio_get_level gpio_signal.GPIO_USB_C1_PD_INT_ODL = 0 then
      status ||| PD_STATUS_TCPC_ALERT_1
    else status
  status

/-- Whether a line at `level` is at the active level of an alert polarity:
low (0) for `TCPC_ALERT_ACTIVE_LOW`, high (not 0) for `TCPC_ALERT_ACTIVE_HIGH`. -/
def alert_line_active (pol : tcpc_alert_polarity) (level : Int) : Prop :=
  match pol with
  | tcpc_alert_polarity.TCPC_ALERT_ACTIVE_LOW => level = 0
  | tcpc_alert_polarity.TCPC_ALERT_ACTIVE_HIGH => level ≠ 0

/-- A driver whose every operation succeeds without a call, to stand for the
ANX74xx driver. -/
def idle_tcpm_drv : tcpm_drv where
  init := fun _ _ w => some (EC_SUCCESS, w)
  get_cc := fun _ cc1 cc2 w => (EC_SUCCESS, cc1, cc2, w)
  get_vbus_level := none
  set_cc := fun _ _ w => (EC_SUCCESS, w)
  set_polarity := fun _ _ w => (EC_SUCCESS, w)
  set_vconn := fun _ _ w => (EC_SUCCESS, w)
  set_msg_header := fun _ _ _ w => (EC_SUCCESS, w)
  set_rx_enable := fun _ _ w => (EC_SUCCESS, w)
  get_message := fun _ payload w => (EC_SUCCESS, payload, 0, w)
  transmit := fun _ _ _ _ w => (EC_SUCCESS, w)
  tcpc_alert := fun _ w => w

/-! ## `board/pdeval-stm32f072/usb_pd_policy.c`: swap policy and vendor messages -/

/-- One access of the policy code to the caller's payload buffer, or one call
it makes to code outside the file.  A print is recorded with the values it is
given, not with its text. -/
inductive PolicyEvent where
  | payload_read (index : Int)
  | payload_write (index : Int) (value : Nat)
  | cprintf_version (string_index : Int)
  | cprintf_dev_id (info : Nat)
  | pd_dev_store_rw_hash (port : Nat) (dev_id : Nat) (hash_index : Int)
  | cprintf_price_test
deriving DecidableEq, Repr

/-- State of `usb_pd_policy.c`: its static array `dp_flags[]`, its static
`vbus_present`, and the accesses and calls made so far (oldest first). -/
structure PolicyWorld where
  dp_flags : Nat → Int
  vbus_present : Int
  calls : List PolicyEvent

/-- Record an access or a call. -/
def PolicyWorld.log (w : PolicyWorld) (e : PolicyEvent) : PolicyWorld :=
  { w with calls := w.calls ++ [e] }

/-- The `enum pd_dual_role_states` of `usb_pd.h`, used by name only. -/
inductive pd_dual_role_states where
  | PD_DRP_TOGGLE_ON
  | PD_DRP_TOGGLE_OFF
  | PD_DRP_FORCE_SINK
  | PD_DRP_FORCE_SOURCE
deriving DecidableEq, Repr

/-- The function `pd_check_power_swap`; `pd_get_dual_role` is the value that
the call of that name returns. -/
def pd_check_power_swap (pd_get_dual_role : pd_dual_role_states) (port : Nat) : Int :=
  if pd_get_dual_role = pd_dual_role_states.PD_DRP_TOGGLE_ON then 1 else 0

/-- The function `pd_check_data_swap`. -/
def pd_check_data_swap (port : Nat) (data_role : Int) : Int := 1

/-- The vendor commands that `pd_custom_vdm` switches on.  `usb_pd.h` is not
among the sources, so their values are left open. -/
structure VdoCommands where
  VDO_CMD_VERSION : Int
  VDO_CMD_READ_INFO : Int
  VDO_CMD_SEND_INFO : Int
  VDO_CMD_PRICE_TEST : Int

/-- Modelled from the spec: `usb_pd.h` is not among the sources; the command
field, the low five bits of the first word of a vendor message. -/
def PD_VDO_CMD (vdo : Nat) : Int := ((vdo &&& 0x1f : Nat) : Int)

/-- The function `pd_custom_vdm`.  `payload` is the memory at the caller's
pointer, in words, and `rpayload` the value of `*rpayload`; the result holds
the value returned, both after the call, and the world. -/
def pd_custom_vdm (k : VdoCommands) (port : Nat) (cnt : Int) (payload : Int → Nat)
    (rpayload : Nat) (w : PolicyWorld) : Int × (Int → Nat) × Nat × PolicyWorld :=
  let w0 := w.log (PolicyEvent.payload_read 0)
  let cmd := PD_VDO_CMD (payload 0)
  let dev_id : Nat := 0
  if cnt = 0 then (0, payload, rpayload, w0)
  else if cmd = k.VDO_CMD_VERSION then
    let w1 := w0.log (PolicyEvent.payload_write (cnt - 1) 0)
    let payload1 : Int → Nat := fun i => if i = cnt - 1 then 0 else payload i
    (0, payload1, rpayload, w1.log (PolicyEvent.cprintf_version 1))
  else if cmd = k.VDO_CMD_READ_INFO ∨ cmd = k.VDO_CMD_SEND_INFO then
    if cnt = 7 then
      let w1 := ((w0.log (PolicyEvent.payload_read 6)).log (PolicyEvent.payload_read 6)).log
        (PolicyEvent.payload_read 6)
      (0, payload, rpayload, w1.log (PolicyEvent.cprintf_dev_id (payload 6)))
    else if cnt = 6 then
      (0, payload, rpayload, w0.log (PolicyEvent.pd_dev_store_rw_hash port dev_id 1))
    else (0, payload, rpayload, w0)
  else if cmd = k.VDO_CMD_PRICE_TEST then
    (0, payload, rpayload, w0.log PolicyEvent.cprintf_price_test)
  else (0, payload, rpayload, w0)

/-- Modelled from the spec: `usb_pd.h` is not among the sources; the mode
capability bit of a DisplayPort sink (DFP_D capable device). -/
def MODE_DP_SNK : Nat := 0x1

/-- Modelled from the spec: `usb_pd.h` is not among the sources; the flag of
`dp_flags[]` set once DisplayPort is configured. -/
def DP_FLAGS_DP_ON : Int := 1 <<< (0 : Int)

/-- Modelled from the spec: `usb_pd.h` is not among the sources; the
DisplayPort standard ID. -/
def USB_SID_DISPLAYPORT : Int := 0xff01

/-- Modelled from the spec: `usb_pd.h` is not among the sources; the
DisplayPort status command. -/
def CMD_DP_STATUS : Int := 0x10

/-- Modelled from the spec: `usb_pd.h` is not among the sources; the object
position field (bits 8-10) of a structured vendor header. -/
def VDO_OPOS (x : Int) : Int := (Int.land x 0x7) <<< (8 : Int)

/-- Modelled from the spec: `usb_pd.h` is not among the sources; a vendor
header from the ID, the structured bit and the low 15 bits, as a 32-bit word. -/
def VDO (vid type custom : Int) : Nat :=
  ((Int.lor (Int.lor (vid <<< (16 : Int)) (type <<< (15 : Int))) (Int.land custom 0x7fff))
    % 2 ^ 32).toNat

/-- Modelled from the spec: `usb_pd.h` is not among the sources; the
DisplayPort status word: HPD IRQ in bit 8, HPD level in bit 7, exit request in
bit 6, USB preference in bit 5, multi-function in bit 4, DisplayPort enabled in
bit 3, low power in bit 2 and the connection state in bits 0-1. -/
def VDO_DP_STATUS (irq lvl amode usbc mf en lp conn : Int) : Nat :=
  ((Int.lor (Int.lor (Int.lor (Int.lor (Int.lor (Int.lor (Int.lor
    ((Int.land irq 1) <<< (8 : Int))
    ((Int.land lvl 1) <<< (7 : Int)))
    ((Int.land amode 1) <<< (6 : Int)))
    ((Int.land usbc 1) <<< (5 : Int)))
    ((Int.land mf 1) <<< (4 : Int)))
    ((Int.land en 1) <<< (3 : Int)))
    ((Int.land lp 1) <<< (2 : Int)))
    ((Int.land conn 0x3) <<< (0 : Int))) % 2 ^ 32).toNat

/-- The function `svdm_safe_dp_mode`. -/
def svdm_safe_dp_mode (port : Nat) (w : PolicyWorld) : PolicyWorld :=
  { w with dp_flags := fun p => if p = port then 0 else w.dp_flags p }

/-- The function `svdm_enter_dp_mode`. -/
def svdm_enter_dp_mode (port : Nat) (mode_caps : Nat) (w : PolicyWorld) :
    Int × PolicyWorld :=
  if mode_caps &&& MODE_DP_SNK ≠ 0 then (0, svdm_safe_dp_mode port w)
  else (-1, w)

/-- The function `svdm_dp_status`; `pd_alt_mode` is the value that the call
`pd_alt_mode(port, USB_SID_DISPLAYPORT)` returns.  The result holds the value
returned and the payload after the call. -/
def svdm_dp_status (pd_alt_mode : Int) (port : Nat) (payload : Int → Nat)
    (w : PolicyWorld) : Int × (Int → Nat) :=
  let opos := pd_alt_mode
  let word0 := VDO USB_SID_DISPLAYPORT 1 (Int.lor CMD_DP_STATUS (VDO_OPOS opos))
  let dp_on : Int := if Int.land (w.dp_flags port) DP_FLAGS_DP_ON ≠ 0 then 1 else 0
  let word1 := VDO_DP_STATUS 0 0 0 0 0 dp_on 0 dp_on
  (2, fun i => if i = 1 then word1 else if i = 0 then word0 else payload i)

/-- The function `svdm_dp_post_config`; the test of DP_FLAGS_HPD_HI_PENDING
that ends it selects between two returns and has no effect. -/
def svdm_dp_post_config (port : Nat) (w : PolicyWorld) : PolicyWorld :=
  { w with dp_flags := fun p =>
      if p = port then Int.lor (w.dp_flags port) DP_FLAGS_DP_ON else w.dp_flags p }

/-- The function `svdm_exit_dp_mode`. -/
def svdm_exit_dp_mode (port : Nat) (w : PolicyWorld) : PolicyWorld :=
  svdm_safe_dp_mode port w

/-- Vendor command values 10, 12, 11 and 13, for examples. -/
def demo_vdo_commands : VdoCommands := ⟨10, 12, 11, 13⟩

/-- A policy world with every `dp_flags[]` entry at `flags` and no call made. -/
def policy_world (flags : Int) : PolicyWorld := ⟨fun _ => flags, 0, []⟩

/-- A payload buffer whose every word is `v`. -/
def const_payload (v : Nat) : Int → Nat := fun _ => v

/-! ## `common/spi_nor.c`: status, write enable, wait and erase -/

/-- Modelled from the spec: `common.h` is not among the sources; the generic
error status. -/
def EC_ERROR_UNKNOWN : Int := 1

/-- Modelled from the spec: `common.h` is not among the sources; the status
for a timeout. -/
def EC_ERROR_TIMEOUT : Int := 4

/-- Modelled from the spec: `common.h` is not among the sources; the status
for an invalid argument. -/
def EC_ERROR_INVAL : Int := 5

/-- Modelled from the spec: `spi_nor.h` is not among the sources; the opcode
that reads the first status register. -/
def SPI_NOR_OPCODE_READ_STATUS : Nat := 0x05

/-- Modelled from the spec: `spi_nor.h` is not among the sources; the opcode
that sets the write enable latch. -/
def SPI_NOR_OPCODE_WRITE_ENABLE : Nat := 0x06

/-- Modelled from the spec: `spi_nor.h` is not among the sources; the opcode
of a 4 KiB erase. -/
def SPI_NOR_DRIVER_SPECIFIED_OPCODE_4KIB_ERASE : Nat := 0x20

/-- Modelled from the spec: `spi_nor.h` is not among the sources; the
write-in-progress bit of the status register. -/
def SPI_NOR_STATUS_REGISTER_WIP : Nat := 1 <<< 0

/-- Modelled from the spec: `spi_nor.h` is not among the sources; the
write-enable-latch bit of the status register. -/
def SPI_NOR_STATUS_REGISTER_WEL : Nat := 1 <<< 1

/-- Time to sleep while a serial NOR flash write is in progress. -/
def SPI_NOR_WIP_SLEEP_USEC : Int := 10

/-- The members of `struct spi_nor_device_t` that the driver reads (the
structure is declared in `spi_nor.h`, which is not among the sources; the
`name` member is used for debug prints only and is left out). -/
structure spi_nor_device_t where
  spi_master : Int
  timeout_usec : Nat
  capacity : Nat
  page_size : Nat
  in_4b_addressing_mode : Bool

/-- One call made by the serial NOR driver to code outside it. -/
inductive SpiEvent where
  | mutex_lock
  | mutex_unlock
  | spi_transaction (spi_master : Int) (txdata : List Nat) (rxlen : Nat)
  | watchdog_reload
  | usleep (us : Int)
  | get_time
deriving DecidableEq, Repr

/-- Outcome of one `spi_transaction`: the status returned and the bytes left
in the receive buffer. -/
structure SpiResult where
  rv : Int
  rx : Nat → Nat

/-- State threaded through the serial NOR driver: the results of the SPI
transactions still to come (next first), the values of `get_time().val` still
to come, and the calls made so far (oldest first). -/
structure SpiWorld where
  spi : Nat → SpiResult
  clock : Nat → Nat
  trace : List SpiEvent

/-- Record a call that returns nothing the driver uses. -/
def SpiWorld.emit (w : SpiWorld) (e : SpiEvent) : SpiWorld :=
  { w with trace := w.trace ++ [e] }

/-- The call `spi_transaction(&spi_devices[spi_master], txdata, txlen, rxdata,
rxlen)`: record it and take its outcome off the tape. -/
def spi_transaction (spi_master : Int) (txdata : List Nat) (rxlen : Nat) (w : SpiWorld) :
    SpiResult × SpiWorld :=
  (w.spi 0, { w with spi := fun n => w.spi (n + 1),
                     trace := w.trace ++ [SpiEvent.spi_transaction spi_master txdata rxlen] })

/-- The call `get_time().val`, a 64-bit count of microseconds. -/
def get_time (w : SpiWorld) : Nat × SpiWorld :=
  (w.clock 0 % 2 ^ 64, { w with clock := fun n => w.clock (n + 1),
                                trace := w.trace ++ [SpiEvent.get_time] })

/-- The function `spi_nor_read_status`: status returned, value left in
`*status_register_value` (a byte), world. -/
def spi_nor_read_status (dev : spi_nor_device_t) (w : SpiWorld) : Int × Nat × SpiWorld :=
  let r := spi_transaction dev.spi_master [SPI_NOR_OPCODE_READ_STATUS] 1 w
  (r.1.rv, r.1.rx 0 % 256, r.2)

/-- The function `spi_nor_write_enable`. -/
def spi_nor_write_enable (dev : spi_nor_device_t) (w : SpiWorld) : Int × SpiWorld :=
  let r := spi_transaction dev.spi_master [SPI_NOR_OPCODE_WRITE_ENABLE] 0 w
  let rv := r.1.rv
  if rv ≠ 0 then (rv, r.2)
  else
    let s := spi_nor_read_status dev r.2
    let rv := s.1
    if rv ≠ 0 then (rv, s.2.2)
    else if s.2.1 &&& SPI_NOR_STATUS_REGISTER_WEL = 0 then (EC_ERROR_UNKNOWN, s.2.2)
    else (rv, s.2.2)

/-- The `while` loop of `spi_nor_wait`, one iteration per unit of fuel; the
result is `none` when the fuel runs out before the loop ends.  `rv` and
`status_register_value` are the locals of those names at the loop test. -/
def spi_nor_wait_loop (dev : spi_nor_device_t) (timeout : Nat) :
    Nat → Int → Nat → SpiWorld → Option Int × SpiWorld
  | fuel, rv, status_register_value, w =>
    if status_register_value &&& SPI_NOR_STATUS_REGISTER_WIP = 0 then (some rv, w)
    else
      match fuel with
      | 0 => (none, w)
      | fuel + 1 =>
        let w1 := (w.emit SpiEvent.watchdog_reload).emit (SpiEvent.usleep SPI_NOR_WIP_SLEEP_USEC)
        let t := get_time w1
        if t.1 > timeout then (some EC_ERROR_TIMEOUT, t.2)
        else
          let s := spi_nor_read_status dev t.2
          if s.1 ≠ 0 then (some s.1, s.2.2)
          else spi_nor_wait_loop dev timeout fuel s.1 s.2.1 s.2.2

/-- The function `spi_nor_wait`, with at most `fuel` iterations of its loop. -/
def spi_nor_wait (dev : spi_nor_device_t) (fuel : Nat) (w : SpiWorld) :
    Option Int × SpiWorld :=
  let s := spi_nor_read_status dev w
  let rv := s.1
  if rv ≠ 0 then (some rv, s.2.2)
  else
    let t := get_time s.2.2
    let timeout := (t.1 + dev.timeout_usec) % 2 ^ 64
    spi_nor_wait_loop dev timeout fuel rv s.2.1 t.2

/-- The erase command of `spi_nor_erase` for `offset`: the opcode and the
address, of four bytes in 4-byte addressing mode and of three otherwise. -/
def erase_command (dev : spi_nor_device_t) (offset : Nat) : List Nat :=
  if dev.in_4b_addressing_mode then
    [SPI_NOR_DRIVER_SPECIFIED_OPCODE_4KIB_ERASE,
      (offset &&& 0xFF000000) >>> 24, (offset &&& 0xFF0000) >>> 16,
      (offset &&& 0xFF00) >>> 8, offset &&& 0xFF]
  else
    [SPI_NOR_DRIVER_SPECIFIED_OPCODE_4KIB_ERASE,
      (offset &&& 0xFF0000) >>> 16, (offset &&& 0xFF00) >>> 8, offset &&& 0xFF]

/-- The part of `spi_nor_erase` that runs with the mutex held: the
`while (size > 0)` loop, one iteration per unit of fuel, and the wait after
it.  The result is the value of `rv` at `err_free`, or `none` when the fuel of
this loop or of a wait ran out. -/
def spi_nor_erase_loop (dev : spi_nor_device_t) (wait_fuel : Nat) :
    Nat → Nat → Nat → SpiWorld → Option Int × SpiWorld
  | fuel, offset, size, w =>
    if size = 0 then spi_nor_wait dev wait_fuel w
    else
      match fuel with
      | 0 => (none, w)
      | fuel + 1 =>
        let r1 := spi_nor_wait dev wait_fuel w
        match r1.1 with
        | none => (none, r1.2)
        | some rv =>
          if rv ≠ 0 then (some rv, r1.2)
          else
            let r2 := spi_nor_write_enable dev r1.2
            if r2.1 ≠ 0 then (some r2.1, r2.2)
            else
              let r3 := spi_transaction dev.spi_master (erase_command dev offset) 0 r2.2
              if r3.1.rv ≠ 0 then (some r3.1.rv, r3.2)
              else
                spi_nor_erase_loop dev wait_fuel fuel ((offset + 4096) % 2 ^ 32)
                  (size - 4096) r3.2

/-- The function `spi_nor_erase`, with at most `fuel` iterations of each
loop; `offset` is a `uint32_t` and `size` a `size_t`.  The result is `none`
when the fuel ran out. -/
def spi_nor_erase (dev : spi_nor_device_t) (fuel : Nat) (offset size : Nat) (w : SpiWorld) :
    Option Int × SpiWorld :=
  if offset % 4096 ≠ 0 ∨ size % 4096 ≠ 0 ∨ size < 4096 then (some EC_ERROR_INVAL, w)
  else
    let w1 := w.emit SpiEvent.mutex_lock
    let r := spi_nor_erase_loop dev fuel fuel offset size w1
    match r.1 with
    | none => (none, r.2)
    | some rv => (some rv, r.2.emit SpiEvent.mutex_unlock)

/-- Whether a call is a `spi_transaction`. -/
def SpiEvent.is_transaction : SpiEvent → Bool
  | SpiEvent.spi_transaction _ _ _ => true
  | _ => false

/-- A serial NOR device on SPI master 0 with 3-byte addresses. -/
def demo_spi_nor_device : spi_nor_device_t := ⟨0, 1000, 0x100000, 256, false⟩

/-- A world in which every SPI transaction succeeds and returns bytes `v`,
the clock stands at 0 and no call was made. -/
def spi_world (v : Nat) : SpiWorld := ⟨fun _ => ⟨0, fun _ => v⟩, fun _ => 0, []⟩

/-- A bus on which ALERT reads the POWER_STATUS bit alone, the power-status
mask reads VBUS_PRES and POWER_STATUS reads VBUS_PRES; every transaction
succeeds. -/
def power_alert_world : World :=
  list_world [read_ok 2, read_ok 0, read_ok 4, read_ok 4] (read_ok 0)

/-- A transfer that succeeds and leaves `v` in every byte of its input buffer. -/
def xfer_ok (v : Int) : I2cResult := ⟨EC_SUCCESS, 0, fun _ => v⟩

/-- A bus on which RX_BYTE_CNT reads 200, RX_HDR reads 0 and the payload
transfer returns bytes 0xAA; every transaction succeeds. -/
def long_count_world : World :=
  list_world [read_ok 200, read_ok 0, xfer_ok 0xAA] (read_ok 0)

/-! ## `test/usb_pd.c`: the CC voltage mock -/

/-- Modelled from the spec: `usb_pd.h` is not among the sources; the power
role of a sink. -/
def PD_ROLE_SINK : Int := 0

/-- Modelled from the spec: `usb_pd.h` is not among the sources; the power
role of a source. -/
def PD_ROLE_SOURCE : Int := 1

/-- The mock `pd_adc_read` of `test/usb_pd.c`, on the array `pd_port[]`; the
third and fourth tests are those of the source, which repeat the first and the
second. -/
def pd_adc_read (pd_port : Nat → pd_port_t) (port : Nat) (cc : Int) : Int :=
  if (pd_port port).host_mode ≠ 0 ∧ (pd_port port).partner_role = PD_ROLE_SINK then
    if (pd_port port).partner_polarity = cc then 400 else 3000
  else if ¬ (pd_port port).host_mode ≠ 0 ∧ (pd_port port).partner_role = PD_ROLE_SOURCE then
    if (pd_port port).partner_polarity = cc then 1700 else 0
  else if (pd_port port).host_mode ≠ 0 ∧ (pd_port port).partner_role = PD_ROLE_SINK then
    3000
  else if ¬ (pd_port port).host_mode ≠ 0 ∧ (pd_port port).partner_role = PD_ROLE_SOURCE then
    0
  else
    0

/-- Ports in host (source) mode whose partner is a source too, with partner
polarity 0. -/
def both_sources_ports : Nat → pd_port_t :=
  fun _ => ⟨1, 0, 0, 0, 0, PD_ROLE_SOURCE, 0⟩

/-! ## `common/charge_state_v2.c`: `problem` and `charge_request` -/

/-- The `enum problem_type` of `charge_state_v2.c`. -/
inductive problem_type where
  | PR_STATIC_UPDATE
  | PR_SET_VOLTAGE
  | PR_SET_CURRENT
  | PR_SET_MODE
  | PR_SET_INPUT_CURR
  | PR_POST_INIT
  | PR_CHG_FLAGS
  | PR_BATT_FLAGS
  | PR_CUSTOM
deriving DecidableEq, Repr

/-- One call made by `charge_request` and `problem` to code outside the file. -/
inductive ChargeEvent where
  | charger_set_current (current : Int)
  | charger_set_voltage (voltage : Int)
  | charger_set_mode (mode : Int)
  | cprints_request (voltage current : Int)
  | cprints_problem (p : problem_type) (last v : Int) (t_diff : Nat)
  | get_time
deriving DecidableEq, Repr

/-- State threaded through `charge_request`: the statuses that the calls of
the charger driver still to come return (next first), the values of
`get_time().val` still to come, the calls made so far (oldest first), and the
static variables that the two functions use: `curr.ac`, `prev_volt`,
`prev_curr`, `last_prob_val[]`, `last_prob_time[]` and `problems_exist`. -/
structure ChargeWorld where
  charger : Nat → Int
  clock : Nat → Nat
  trace : List ChargeEvent
  curr_ac : Int
  prev_volt : Int
  prev_curr : Int
  last_prob_val : problem_type → Int
  last_prob_time : problem_type → Nat
  problems_exist : Int

/-- Record a call that returns nothing the file uses. -/
def ChargeWorld.emit (w : ChargeWorld) (e : ChargeEvent) : ChargeWorld :=
  { w with trace := w.trace ++ [e] }

/-- A call of the charger driver: record it and take its status off the tape. -/
def ChargeWorld.charger_call (w : ChargeWorld) (e : ChargeEvent) : Int × ChargeWorld :=
  (w.charger 0, { w with charger := fun n => w.charger (n + 1), trace := w.trace ++ [e] })

/-- The function `problem`. -/
def problem (p : problem_type) (v : Int) (w : ChargeWorld) : ChargeWorld :=
  let w1 :=
    if w.last_prob_val p ≠ v then
      let t_now := w.clock 0 % 2 ^ 64
      let w2 := { w with clock := fun n => w.clock (n + 1),
                         trace := w.trace ++ [ChargeEvent.get_time] }
      let t_diff := (t_now + 2 ^ 64 - w2.last_prob_time p % 2 ^ 64) % 2 ^ 64
      let w3 := w2.emit (ChargeEvent.cprints_problem p (w2.last_prob_val p) v t_diff)
      { w3 with last_prob_val := fun q => if q = p then v else w3.last_prob_val q,
                last_prob_time := fun q => if q = p then t_now else w3.last_prob_time q }
    else w
  { w1 with problems_exist := 1 }

/-- The function `charge_request` as built with neither
CONFIG_CHARGER_NARROW_VDC nor CONFIG_CHARGER_BD99955.  The flag
CHARGE_FLAG_INHIBIT_CHARGE is declared in `charger.h`, which is not among the
sources, and is taken as a parameter. -/
def charge_request (CHARGE_FLAG_INHIBIT_CHARGE : Int) (voltage current : Int)
    (w : ChargeWorld) : Int × ChargeWorld :=
  let vc : Int × Int := if voltage = 0 ∨ current = 0 then (0, 0) else (voltage, current)
  let voltage := vc.1
  let current := vc.2
  let w1 :=
    if w.curr_ac ≠ 0 then
      if w.prev_volt ≠ voltage ∨ w.prev_curr ≠ current then
        w.emit (ChargeEvent.cprints_request voltage current)
      else w
    else w
  let s2 : Int × ChargeWorld :=
    if current ≥ 0 then w1.charger_call (ChargeEvent.charger_set_current current)
    else (EC_SUCCESS, w1)
  let r2 := s2.1
  let w2 := if r2 ≠ EC_SUCCESS then problem problem_type.PR_SET_CURRENT r2 s2.2 else s2.2
  let s1 : Int × ChargeWorld :=
    if voltage ≥ 0 then w2.charger_call (ChargeEvent.charger_set_voltage voltage)
    else (EC_SUCCESS, w2)
  let r1 := s1.1
  let w3 := if r1 ≠ EC_SUCCESS then problem problem_type.PR_SET_VOLTAGE r1 s1.2 else s1.2
  let s3 : Int × ChargeWorld :=
    if voltage > 0 ∨ current > 0 then w3.charger_call (ChargeEvent.charger_set_mode 0)
    else w3.charger_call (ChargeEvent.charger_set_mode CHARGE_FLAG_INHIBIT_CHARGE)
  let r3 := s3.1
  let w4 := if r3 ≠ EC_SUCCESS then problem problem_type.PR_SET_MODE r3 s3.2 else s3.2
  let w5 :=
    if r1 = 0 ∧ r2 = 0 then { w4 with prev_volt := voltage, prev_curr := current } else w4
  (if r1 ≠ 0 then r1 else r2, w5)

/-- The calls of the charger driver in a trace. -/
def charger_calls : List ChargeEvent → List ChargeEvent
  | [] => []
  | ChargeEvent.charger_set_current c :: es => ChargeEvent.charger_set_current c :: charger_calls es
  | ChargeEvent.charger_set_voltage v :: es => ChargeEvent.charger_set_voltage v :: charger_calls es
  | ChargeEvent.charger_set_mode m :: es => ChargeEvent.charger_set_mode m :: charger_calls es
  | _ :: es => charger_calls es

/-- A charger whose every call succeeds, on external power, before any
request or problem. -/
def charge_world : ChargeWorld :=
  ⟨fun _ => 0, fun _ => 0, [], 1, 0, 0, fun _ => 0, fun _ => 0, 0⟩

/-! ## `common/mkbp_event.c` -/

/-- The results of a host command that `mkbp_get_next_event` returns
(`enum ec_status` of `ec_commands.h`, used by name only). -/
inductive ec_status where
  | EC_RES_SUCCESS
  | EC_RES_ERROR
  | EC_RES_UNAVAILABLE
deriving DecidableEq, Repr

/-- Modelled from the spec: `common.h` is not among the sources; the status
for a busy device. -/
def EC_ERROR_BUSY : Int := 6

/-- Modelled from the spec: `mkbp_event.h` is not among the sources; an entry
of the table `__mkbp_evt_srcs[]`.  The results of its `get_data` member are
taken off the tape of the world. -/
structure mkbp_event_source where
  event_type : Nat
deriving DecidableEq, Repr

/-- One call made by `mkbp_get_next_event` to code outside it; `get_data`
carries the type of its source and the value of `events` at the call. -/
inductive MkbpEvent where
  | get_data (event_type : Nat) (events : Nat)
  | set_host_interrupt (active : Int)
deriving DecidableEq, Repr

/-- Outcome of one call of a `get_data` member: the value returned and the
event bits that the source sent again while it ran. -/
structure GetDataResult where
  data_size : Int
  raised : Nat

/-- State threaded through `mkbp_get_next_event`: the static `events` (a
`uint32_t`) and `last`, the results of the `get_data` calls still to come (next
first), the calls made so far (oldest first), and the members `response[0]`
and `response_size` of the arguments of the host command. -/
structure MkbpWorld where
  events : Nat
  last : Nat
  get_data : Nat → GetDataResult
  trace : List MkbpEvent
  response0 : Nat
  response_size : Int

/-- The function `set_event` on the value of `events`; `event_type` is a
`uint8_t`. -/
def set_event (events event_type : Nat) : Nat :=
  (events ||| (1 <<< (event_type % 256))) % 2 ^ 32

/-- The function `clear_event` on the value of `events`. -/
def clear_event (events event_type : Nat) : Nat :=
  events &&& ((2 ^ 32 - 1) ^^^ ((1 <<< (event_type % 256)) % 2 ^ 32))

/-- The function `event_is_set`. -/
def event_is_set (events event_type : Nat) : Nat :=
  events &&& (1 <<< (event_type % 256))

/-- The `for` loop of `mkbp_get_next_event` that looks for the next event to
service: the value of `i` when it ends, from `i` with `k` values left to try. -/
def next_event_index (EC_MKBP_EVENT_COUNT events last : Nat) : Nat → Nat → Nat
  | 0, i => i
  | k + 1, i =>
    if event_is_set events ((last + i) % EC_MKBP_EVENT_COUNT) ≠ 0 then i
    else next_event_index EC_MKBP_EVENT_COUNT events last k (i + 1)

/-- The function `mkbp_get_next_event`; the `do ... while` loop runs once
and then once more per unit of fuel, and the result is `none` when the fuel
runs out.  EC_MKBP_EVENT_COUNT is declared in `ec_commands.h`, which is not
among the sources, and is taken as a parameter, as is the table
`__mkbp_evt_srcs[]` that the linker builds. -/
def mkbp_get_next_event (EC_MKBP_EVENT_COUNT : Nat) (srcs : List mkbp_event_source) :
    Nat → MkbpWorld → Option ec_status × MkbpWorld
  | fuel, w =>
    let i := next_event_index EC_MKBP_EVENT_COUNT w.events w.last EC_MKBP_EVENT_COUNT 0
    if i = EC_MKBP_EVENT_COUNT then (some ec_status.EC_RES_UNAVAILABLE, w)
    else
      let evt := (i + w.last) % EC_MKBP_EVENT_COUNT
      let w1 := { w with last := evt + 1, events := clear_event w.events evt }
      match srcs.find? (fun src => src.event_type == evt) with
      | none => (some ec_status.EC_RES_ERROR, w1)
      | some _ =>
        let r := w1.get_data 0
        let w2 := { w1 with response0 := evt % 256,
                            get_data := fun n => w1.get_data (n + 1),
                            trace := w1.trace ++ [MkbpEvent.get_data evt w1.events],
                            events := (w1.events ||| r.raised) % 2 ^ 32 }
        if r.data_size = -EC_ERROR_BUSY then
          let w3 := { w2 with events := set_event w2.events evt }
          match fuel with
          | 0 => (none, w3)
          | fuel + 1 => mkbp_get_next_event EC_MKBP_EVENT_COUNT srcs fuel w3
        else if r.data_size < 0 then (some ec_status.EC_RES_ERROR, w2)
        else
          let w4 := { w2 with response_size := 1 + r.data_size }
          let w5 :=
            if w4.events = 0 then
              { w4 with trace := w4.trace ++ [MkbpEvent.set_host_interrupt 0] }
            else w4
          (some ec_status.EC_RES_SUCCESS, w5)

/-- The world after `k` successive calls of `mkbp_get_next_event`, where
after each call the event bits `raise 0`, `raise 1`, ... are sent by the rest
of the firmware. -/
def mkbp_calls (EC_MKBP_EVENT_COUNT : Nat) (srcs : List mkbp_event_source) (fuel : Nat) :
    Nat → (Nat → Nat) → MkbpWorld → MkbpWorld
  | 0, _, w => w
  | k + 1, raise, w =>
    let w1 := (mkbp_get_next_event EC_MKBP_EVENT_COUNT srcs fuel w).2
    mkbp_calls EC_MKBP_EVENT_COUNT srcs fuel k (fun n => raise (n + 1))
      { w1 with events := (w1.events ||| raise 0) % 2 ^ 32 }

/-- A world with the event bits `events` pending, `last` at 0, sources that
return one byte of data and send nothing, and no call made. -/
def mkbp_world (events : Nat) : MkbpWorld :=
  ⟨events, 0, fun _ => ⟨1, 0⟩, [], 0, 0⟩

/-- A table with one source for each of the event types 0, 1 and 2. -/
def demo_mkbp_srcs : List mkbp_event_source := [⟨0⟩, ⟨1⟩, ⟨2⟩]

/-! ## `common/spi_nor.c`: write -/

theorem transact_trace (w : World) (e : Event) :
    (w.transact e).2.trace = w.trace ++ [e] := rfl

theorem transact_i2c (w : World) (e : Event) :
    (w.transact e).2.i2c = fun n => w.i2c (n + 1) := rfl

theorem transact_vbus (w : World) (e : Event) :
    (w.transact e).2.tcpc_vbus = w.tcpc_vbus := rfl

/-- A failed read with one try left ends the loop with the read's status. -/
theorem init_loop_fail_last (b : Board) (port fuel : Nat) (w : World)
    (h : (w.i2c 0).rv ≠ EC_SUCCESS) :
    tcpci_tcpm_init_loop b port (fuel + 1) 1 w
      = some ((w.i2c 0).rv, (w.transact (power_status_read b port)).2) := by
  simp [tcpci_tcpm_init_loop, tcpc_read, World.transact, power_status_read, h]

/-- A failed read with more tries left uses up one try, sleeps and loops. -/
theorem init_loop_fail_more (b : Board) (port fuel : Nat) (tries : Int) (w : World)
    (h : (w.i2c 0).rv ≠ EC_SUCCESS) (ht : tries - 1 ≠ 0) :
    tcpci_tcpm_init_loop b port (fuel + 1) tries w
      = tcpci_tcpm_init_loop b port fuel (tries - 1)
          (msleep 10 (w.transact (power_status_read b port)).2) := by
  simp [tcpci_tcpm_init_loop, tcpc_read, World.transact, power_status_read, h, ht]

/-- A successful read with the UNINIT bit set sleeps and loops, and uses up
no try. -/
theorem init_loop_uninit (b : Board) (port fuel : Nat) (tries : Int) (w : World)
    (h : (w.i2c 0).rv = EC_SUCCESS)
    (hu : Int.land (w.i2c 0).val TCPC_REG_POWER_STATUS_UNINIT ≠ 0) :
    tcpci_tcpm_init_loop b port (fuel + 1) tries w
      = tcpci_tcpm_init_loop b port fuel tries
          (msleep 10 (w.transact (power_status_read b port)).2) := by
  simp [tcpci_tcpm_init_loop, tcpc_read, World.transact, power_status_read, h, hu]

theorem countP_range_succ (p : Nat → Bool) (k : Nat) :
    (List.range (k + 1)).countP p
      = (if p 0 then 1 else 0) + (List.range k).countP (fun i => p (i + 1)) := by
  rw [List.range_succ_eq_map, List.countP_cons, List.countP_map, Nat.add_comm]
  rfl

/-- The loop of `tcpci_tcpm_init` when the UNINIT bit is never seen clear:
if the read at index `k` fails and `n` reads before it failed, then, started
with `n + 1` tries, the loop returns at that read. -/
theorem init_loop_returns (b : Board) (port : Nat) :
    ∀ (k n : Nat) (w : World) (fuel : Nat),
      (∀ i, i < k → (w.i2c i).rv ≠ EC_SUCCESS ∨
        Int.land (w.i2c i).val TCPC_REG_POWER_STATUS_UNINIT ≠ 0) →
      (w.i2c k).rv ≠ EC_SUCCESS →
      (List.range k).countP (fun i => decide ((w.i2c i).rv ≠ EC_SUCCESS)) = n →
      k < fuel →
      ∃ w', tcpci_tcpm_init_loop b port fuel ((n : Int) + 1) w = some ((w.i2c k).rv, w') ∧
        w'.trace = w.trace ++
          (List.replicate k [power_status_read b port, Event.msleep 10]).flatten ++
          [power_status_read b port] ∧
        w'.tcpc_vbus = w.tcpc_vbus := by
  intro k
  induction k with
  | zero =>
    intro n w fuel _ hlast hcount hfuel
    obtain ⟨f, rfl⟩ : ∃ f, fuel = f + 1 := ⟨fuel - 1, by omega⟩
    simp at hcount
    subst hcount
    refine ⟨(w.transact (power_status_read b port)).2, ?_, ?_, ?_⟩
    · simpa using init_loop_fail_last b port f w hlast
    · simp [transact_trace]
    · rfl
  | succ k ih =>
    intro n w fuel hnever hlast hcount hfuel
    obtain ⟨f, rfl⟩ : ∃ f, fuel = f + 1 := ⟨fuel - 1, by omega⟩
    rw [countP_range_succ] at hcount
    have hnever' : ∀ i, i < k →
        ((msleep 10 (w.transact (power_status_read b port)).2).i2c i).rv ≠ EC_SUCCESS ∨
        Int.land ((msleep 10 (w.transact (power_status_read b port)).2).i2c i).val
          TCPC_REG_POWER_STATUS_UNINIT ≠ 0 := fun i hi => hnever (i + 1) (by omega)
    have hlast' :
        ((msleep 10 (w.transact (power_status_read b port)).2).i2c k).rv ≠ EC_SUCCESS :=
      hlast
    by_cases h0 : (w.i2c 0).rv = EC_SUCCESS
    · have hu : Int.land (w.i2c 0).val TCPC_REG_POWER_STATUS_UNINIT ≠ 0 := by
        rcases hnever 0 (by omega) with h | h
        · exact absurd h0 h
        · exact h
      have hcount' : (List.range k).countP
          (fun i => decide (((msleep 10 (w.transact (power_status_read b port)).2).i2c i).rv
            ≠ EC_SUCCESS)) = n := by
        show (List.range k).countP (fun i => decide ((w.i2c (i + 1)).rv ≠ EC_SUCCESS)) = n
        simpa [h0] using hcount
      obtain ⟨w', hrun, htrace, hvbus⟩ :=
        ih n (msleep 10 (w.transact (power_status_read b port)).2) f hnever' hlast'
          hcount' (by omega)
      refine ⟨w', ?_, ?_, ?_⟩
      · rw [init_loop_uninit b port f _ w h0 hu]; exact hrun
      · rw [htrace]; simp [msleep, World.emit, transact_trace, List.replicate_succ]
      · rw [hvbus]; rfl
    · have hpos : 1 + (List.range k).countP
          (fun i => decide ((w.i2c (i + 1)).rv ≠ EC_SUCCESS)) = n := by
        simpa [h0] using hcount
      obtain ⟨m, rfl⟩ : ∃ m, n = m + 1 := ⟨n - 1, by omega⟩
      have hcount' : (List.range k).countP
          (fun i => decide (((msleep 10 (w.transact (power_status_read b port)).2).i2c i).rv
            ≠ EC_SUCCESS)) = m := by
        show (List.range k).countP (fun i => decide ((w.i2c (i + 1)).rv ≠ EC_SUCCESS)) = m
        omega
      obtain ⟨w', hrun, htrace, hvbus⟩ :=
        ih m (msleep 10 (w.transact (power_status_read b port)).2) f hnever' hlast'
          hcount' (by omega)
      refine ⟨w', ?_, ?_, ?_⟩
      · rw [init_loop_fail_more b port f _ w h0 (by push_cast; omega)]
        have : ((m + 1 : Nat) : Int) + 1 - 1 = (m : Int) + 1 := by push_cast; omega
        rw [this]; exact hrun
      · rw [htrace]; simp [msleep, World.emit, transact_trace, List.replicate_succ]
      · rw [hvbus]; rfl

/-- While every read succeeds with the UNINIT bit set the loop never returns. -/
theorem init_loop_stuck (b : Board) (port : Nat) (r : I2cResult)
    (h0 : r.rv = EC_SUCCESS) (hu : Int.land r.val TCPC_REG_POWER_STATUS_UNINIT ≠ 0) :
    ∀ (fuel : Nat) (tries : Int) (w : World), (∀ n, w.i2c n = r) →
      tcpci_tcpm_init_loop b port fuel tries w = none := by
  intro fuel
  induction fuel with
  | zero => intro tries w _; rfl
  | succ f ih =>
    intro tries w hw
    rw [init_loop_uninit b port f tries w (by rw [hw 0]; exact h0) (by rw [hw 0]; exact hu)]
    exact ih tries _ (fun n => hw (n + 1))

theorem retry_trace_count (rd sl : Event) (h : sl ≠ rd) (k : Nat) :
    ((List.replicate k [rd, sl]).flatten ++ [rd]).count rd = k + 1 := by
  induction k with
  | zero => simp
  | succ k ih =>
    have h2 : (sl == rd) = false := by simpa using h
    simp only [List.replicate_succ, List.flatten_cons, List.cons_append, List.nil_append,
      List.count_cons, h2, beq_self_eq_true, if_true] at ih ⊢
    simp at ih ⊢
    omega

theorem retry_trace_mem (rd sl : Event) (k : Nat) :
    ∀ e ∈ (List.replicate k [rd, sl]).flatten ++ [rd], e = rd ∨ e = sl := by
  intro e he
  simp only [List.mem_append, List.mem_flatten, List.mem_replicate, List.mem_singleton] at he
  rcases he with ⟨l, ⟨_, rfl⟩, hl⟩ | rfl
  · simpa using hl
  · exact Or.inl rfl

/-- C1 (amended): when the UNINIT bit is never seen clear and the thirtieth
failed read is the read at index `k` (29 of the reads before it failed, the
others succeeded with UNINIT set), `tcpci_tcpm_init` returns at that read with
its non-success status, after exactly `k + 1` read attempts with a 10 ms sleep
after each attempt but the last, and 30 ≤ k + 1. -/
theorem tcpci_tcpm_init_returns_at_thirtieth_failure (b : Board) (port : Nat)
    (w : World) (k fuel : Nat)
    (hnever : ∀ i, i < k → (w.i2c i).rv ≠ EC_SUCCESS ∨
      Int.land (w.i2c i).val TCPC_REG_POWER_STATUS_UNINIT ≠ 0)
    (hcount : (List.range k).countP (fun i => decide ((w.i2c i).rv ≠ EC_SUCCESS)) = 29)
    (hlast : (w.i2c k).rv ≠ EC_SUCCESS)
    (hfuel : k < fuel) :
    ∃ w' evs, tcpci_tcpm_init b port fuel w = some ((w.i2c k).rv, w') ∧
      (w.i2c k).rv ≠ EC_SUCCESS ∧
      w'.trace = w.trace ++ evs ∧
      evs = (List.replicate k [power_status_read b port, Event.msleep 10]).flatten ++
        [power_status_read b port] ∧
      evs.count (power_status_read b port) = k + 1 ∧
      30 ≤ k + 1 ∧
      w'.tcpc_vbus = w.tcpc_vbus := by
  obtain ⟨w', hrun, htrace, hvbus⟩ := init_loop_returns b port k 29 w fuel hnever hlast hcount hfuel
  refine ⟨w', _, ?_, hlast, ?_, rfl, ?_, ?_, hvbus⟩
  · simpa [tcpci_tcpm_init, TCPM_INIT_TRIES] using hrun
  · rw [htrace, List.append_assoc]
  · exact retry_trace_count _ _ (by simp [power_status_read]) k
  · have := List.countP_le_length (fun i => decide ((w.i2c i).rv ≠ EC_SUCCESS)) (l := List.range k)
    rw [hcount, List.length_range] at this
    omega

/-- C1 (witness): one read that succeeds with UNINIT set followed by thirty
failed reads; the call returns status 1 after 31 read attempts. -/
theorem tcpci_tcpm_init_returns_at_thirtieth_failure_witness :
    ∃ w' evs, tcpci_tcpm_init demo_board 0 31
        (list_world (read_uninit :: List.replicate 30 read_failure) read_failure)
        = some (1, w') ∧
      (1 : Int) ≠ EC_SUCCESS ∧
      w'.trace = [] ++ evs ∧
      evs = (List.replicate 30 [power_status_read demo_board 0, Event.msleep 10]).flatten ++
        [power_status_read demo_board 0] ∧
      evs.count (power_status_read demo_board 0) = 30 + 1 ∧
      30 ≤ 30 + 1 ∧
      w'.tcpc_vbus = fun _ => 0 :=
  tcpci_tcpm_init_returns_at_thirtieth_failure demo_board 0
    (list_world (read_uninit :: List.replicate 30 read_failure) read_failure) 30 31
    (by decide) (by decide) (by decide) (by decide)

/-- C1 (counterexample): a TCPC whose POWER_STATUS reads all succeed with the
UNINIT bit set never shows the bit clear, yet `tcpci_tcpm_init` does not return
after 30 read attempts, nor after any number of them. -/
theorem tcpci_tcpm_init_unbounded_counterexample :
    (∀ n, ((const_world read_uninit).i2c n).rv = EC_SUCCESS ∧
      Int.land ((const_world read_uninit).i2c n).val TCPC_REG_POWER_STATUS_UNINIT ≠ 0) ∧
    ¬ ∃ fuel, (tcpci_tcpm_init demo_board 0 fuel (const_world read_uninit)).isSome = true := by
  have hbit : read_uninit.rv = EC_SUCCESS ∧
      Int.land read_uninit.val TCPC_REG_POWER_STATUS_UNINIT ≠ 0 := by decide
  refine ⟨fun _ => hbit, ?_⟩
  rintro ⟨fuel, h⟩
  have := init_loop_stuck demo_board 0 read_uninit (by decide) (by decide) fuel
    TCPM_INIT_TRIES (const_world read_uninit) (fun _ => rfl)
  rw [tcpci_tcpm_init, this] at h
  simp at h

/-- C2: if the first thirty reads of POWER_STATUS all fail, `tcpci_tcpm_init`
makes exactly 30 read attempts (with a 10 ms sleep between them), returns the
status of the last one, issues no other call (so it writes no TCPC register)
and leaves `tcpc_vbus[]` unchanged. -/
theorem tcpci_tcpm_init_persistent_failure (b : Board) (port : Nat) (w : World)
    (fuel : Nat) (hfail : ∀ n, n < 30 → (w.i2c n).rv ≠ EC_SUCCESS) (hfuel : 30 ≤ fuel) :
    ∃ w' evs, tcpci_tcpm_init b port fuel w = some ((w.i2c 29).rv, w') ∧
      (w.i2c 29).rv ≠ EC_SUCCESS ∧
      w'.trace = w.trace ++ evs ∧
      evs = (List.replicate 29 [power_status_read b port, Event.msleep 10]).flatten ++
        [power_status_read b port] ∧
      evs.count (power_status_read b port) = 30 ∧
      (∀ e ∈ evs, e = power_status_read b port ∨ e = Event.msleep 10) ∧
      w'.tcpc_vbus = w.tcpc_vbus := by
  have hcount : (List.range 29).countP (fun i => decide ((w.i2c i).rv ≠ EC_SUCCESS)) = 29 := by
    have : (List.range 29).countP (fun i => decide ((w.i2c i).rv ≠ EC_SUCCESS))
        = (List.range 29).length := by
      rw [List.countP_eq_length]
      intro i hi
      have hi' : i < 29 := List.mem_range.mp hi
      simpa using hfail i (by omega)
    simpa using this
  obtain ⟨w', hrun, htrace, hvbus⟩ := init_loop_returns b port 29 29 w fuel
    (fun i hi => Or.inl (hfail i (by omega))) (hfail 29 (by omega)) hcount (by omega)
  refine ⟨w', _, ?_, hfail 29 (by omega), ?_, rfl, ?_, ?_, hvbus⟩
  · simpa [tcpci_tcpm_init, TCPM_INIT_TRIES] using hrun
  · rw [htrace, List.append_assoc]
  · exact retry_trace_count _ _ (by simp [power_status_read]) 29
  · exact retry_trace_mem _ _ 29

/-- C2 (witness): a bus on which every transaction fails with status 1. -/
theorem tcpci_tcpm_init_persistent_failure_witness :
    ∃ w' evs, tcpci_tcpm_init demo_board 1 30 (const_world read_failure) = some (1, w') ∧
      (1 : Int) ≠ EC_SUCCESS ∧
      w'.trace = [] ++ evs ∧
      evs = (List.replicate 29 [power_status_read demo_board 1, Event.msleep 10]).flatten ++
        [power_status_read demo_board 1] ∧
      evs.count (power_status_read demo_board 1) = 30 ∧
      (∀ e ∈ evs, e = power_status_read demo_board 1 ∨ e = Event.msleep 10) ∧
      w'.tcpc_vbus = fun _ => 0 :=
  tcpci_tcpm_init_persistent_failure demo_board 1 (const_world read_failure) 30
    (fun _ _ => (by decide : read_failure.rv ≠ EC_SUCCESS)) (by decide)

/-! ## Theorems: message header and message IDs -/

theorem or_shiftLeft_eq_add (a b k : Nat) (h : a < 2 ^ k) :
    a ||| (b <<< k) = a + b * 2 ^ k := by
  rw [Nat.shiftLeft_eq, Nat.or_comm, Nat.mul_comm b, ← Nat.mul_add_lt_is_or h, Nat.add_comm]

theorem and_one_eq_mod (x : Nat) : x &&& 1 = x % 2 := Nat.and_pow_two_sub_one_eq_mod x 1

theorem and_three_eq_mod (x : Nat) : x &&& 3 = x % 4 := Nat.and_pow_two_sub_one_eq_mod x 2

theorem and_seven_eq_mod (x : Nat) : x &&& 7 = x % 8 := Nat.and_pow_two_sub_one_eq_mod x 3

theorem and_fifteen_eq_mod (x : Nat) : x &&& 0xf = x % 16 :=
  Nat.and_pow_two_sub_one_eq_mod x 4

/-- The word of a header whose fields fit their widths, as a sum. -/
theorem usbpd_header_bits_eq (h : usbpd_header) (h1 : h.msg_type < 16)
    (h2 : h.reserved < 2) (h3 : h.port_role < 2) (h4 : h.spec_ver < 4)
    (h5 : h.power_role < 2) (h6 : h.msg_id < 8) (h7 : h.data_obj_num < 8) :
    h.bits = h.msg_type + h.reserved * 16 + h.port_role * 32 + h.spec_ver * 64 +
      h.power_role * 256 + h.msg_id * 512 + h.data_obj_num * 4096 +
      h.reserved2 * 32768 := by
  unfold usbpd_header.bits
  rw [or_shiftLeft_eq_add _ _ 4 (by omega), or_shiftLeft_eq_add _ _ 5 (by omega),
    or_shiftLeft_eq_add _ _ 6 (by omega), or_shiftLeft_eq_add _ _ 8 (by omega),
    or_shiftLeft_eq_add _ _ 9 (by omega), or_shiftLeft_eq_add _ _ 12 (by omega),
    or_shiftLeft_eq_add _ _ 15 (by omega)]
  norm_num

/-- The macro `PD_HEADER` fills the word of a `struct usbpd_header` whose
revision is `PD_REV20` and whose reserved bits are 0. -/
theorem PD_HEADER_eq_bits (type prole drole id cnt : Nat) :
    PD_HEADER type prole drole id cnt
      = usbpd_header.bits ⟨type, 0, drole, PD_REV20, prole, id, cnt, 0⟩ := by
  simp only [PD_HEADER, usbpd_header.bits, Nat.zero_shiftLeft, Nat.or_zero]
  rw [Nat.or_assoc type, Nat.or_comm (PD_REV20 <<< 6), ← Nat.or_assoc type]

/-- C3: for every type < 16, power and data role in {0,1}, revision < 4,
message ID < 8 and object count < 8, the header word with these fields at the
bit positions of `struct usbpd_header` fits 16 bits and decodes to exactly the
fields packed; `PD_HEADER_TYPE`, `PD_HEADER_ID` and `PD_HEADER_CNT` return the
type, ID and count packed, also on the word built by `PD_HEADER`. -/
theorem pd_header_round_trip (type prole drole rev id cnt : Nat)
    (h1 : type < 16) (h2 : prole < 2) (h3 : drole < 2) (h4 : rev < 4)
    (h5 : id < 8) (h6 : cnt < 8) :
    usbpd_header.bits ⟨type, 0, drole, rev, prole, id, cnt, 0⟩ < 2 ^ 16 ∧
    usbpd_header.ofBits (usbpd_header.bits ⟨type, 0, drole, rev, prole, id, cnt, 0⟩)
      = ⟨type, 0, drole, rev, prole, id, cnt, 0⟩ ∧
    PD_HEADER_TYPE (usbpd_header.bits ⟨type, 0, drole, rev, prole, id, cnt, 0⟩) = type ∧
    PD_HEADER_ID (usbpd_header.bits ⟨type, 0, drole, rev, prole, id, cnt, 0⟩) = id ∧
    PD_HEADER_CNT (usbpd_header.bits ⟨type, 0, drole, rev, prole, id, cnt, 0⟩) = cnt ∧
    usbpd_header.ofBits (PD_HEADER type prole drole id cnt)
      = ⟨type, 0, drole, PD_REV20, prole, id, cnt, 0⟩ ∧
    PD_HEADER_CNT (PD_HEADER type prole drole id cnt) = cnt := by
  have key : ∀ r, r < 4 →
      usbpd_header.bits ⟨type, 0, drole, r, prole, id, cnt, 0⟩
        = type + 0 * 16 + drole * 32 + r * 64 + prole * 256 + id * 512 + cnt * 4096
          + 0 * 32768 := fun r hr =>
    usbpd_header_bits_eq ⟨type, 0, drole, r, prole, id, cnt, 0⟩ h1 Nat.zero_lt_two h3 hr h2
      h5 h6
  rw [PD_HEADER_eq_bits, key rev h4, key PD_REV20 (by decide)]
  simp only [usbpd_header.ofBits, PD_HEADER_TYPE, PD_HEADER_ID, PD_HEADER_CNT, PD_REV20,
    Nat.shiftRight_eq_div_pow, and_one_eq_mod, and_three_eq_mod, and_seven_eq_mod,
    and_fifteen_eq_mod, usbpd_header.mk.injEq]
  refine ⟨?_, ⟨?_, ?_, ?_, ?_, ?_, ?_, ?_, ?_⟩, ?_, ?_, ?_, ⟨?_, ?_, ?_, ?_, ?_, ?_, ?_, ?_⟩, ?_⟩
    <;> omega

/-- C3 (witness): a source-capabilities header with type 1, both roles 1,
revision 1, message ID 5 and 3 data objects. -/
theorem pd_header_round_trip_witness :
    usbpd_header.bits ⟨1, 0, 1, 1, 1, 5, 3, 0⟩ < 2 ^ 16 ∧
    usbpd_header.ofBits (usbpd_header.bits ⟨1, 0, 1, 1, 1, 5, 3, 0⟩)
      = ⟨1, 0, 1, 1, 1, 5, 3, 0⟩ ∧
    PD_HEADER_TYPE (usbpd_header.bits ⟨1, 0, 1, 1, 1, 5, 3, 0⟩) = 1 ∧
    PD_HEADER_ID (usbpd_header.bits ⟨1, 0, 1, 1, 1, 5, 3, 0⟩) = 5 ∧
    PD_HEADER_CNT (usbpd_header.bits ⟨1, 0, 1, 1, 1, 5, 3, 0⟩) = 3 ∧
    usbpd_header.ofBits (PD_HEADER 1 1 1 5 3) = ⟨1, 0, 1, PD_REV20, 1, 5, 3, 0⟩ ∧
    PD_HEADER_CNT (PD_HEADER 1 1 1 5 3) = 3 :=
  pd_header_round_trip 1 1 1 1 5 3 (by decide) (by decide) (by decide) (by decide)
    (by decide) (by decide)

/-- C4 (the code at the failing input): from message ID 6, `inc_tx_id` and
`inc_rx_id` wrap to 0 and not to 7, so seven increments from 0 give 0 where
7 mod 8 is 7; the other direction's counter is left alone. -/
theorem inc_id_wraps_after_six :
    ((inc_tx_id 0)^[6] pd_port_zero 0).msg_tx_id = 6 ∧
    ((inc_tx_id 0)^[7] pd_port_zero 0).msg_tx_id = 0 ∧
    ((inc_rx_id 0)^[6] pd_port_zero 0).msg_rx_id = 6 ∧
    ((inc_rx_id 0)^[7] pd_port_zero 0).msg_rx_id = 0 ∧
    (7 : Int) % 8 = 7 ∧
    ((inc_tx_id 0)^[7] pd_port_zero 0).msg_rx_id = 0 ∧
    ((inc_rx_id 0)^[7] pd_port_zero 0).msg_tx_id = 0 := by
  decide

/-! ## Theorems: bit masks on `Int` -/

/-- The result of masking any `int` with a non-negative constant is a natural
number whose bits are those of both. -/
theorem int_land_natCast (x : Int) (m : Nat) :
    ∃ k : Nat, Int.land x m = k ∧ ∀ i, k.testBit i = (Int.testBit x i && m.testBit i) := by
  refine ⟨(Int.land x m).toNat, ?_, ?_⟩
  · cases x <;> simp [Int.land]
  · intro i
    have := Int.testBit_land x m i
    cases x <;> simp_all [Int.land, Int.testBit]

theorem int_land_le (x : Int) (m : Nat) : ∃ k : Nat, Int.land x m = k ∧ k ≤ m := by
  obtain ⟨k, hk, hbits⟩ := int_land_natCast x m
  refine ⟨k, hk, ?_⟩
  have : k &&& m = k := by
    apply Nat.eq_of_testBit_eq
    intro i
    rw [Nat.testBit_and, hbits i]
    cases Int.testBit x i <;> cases m.testBit i <;> rfl
  rw [← this]
  exact Nat.and_le_right

theorem nat_lor_eq_zero (a b : Nat) : a ||| b = 0 ↔ a = 0 ∧ b = 0 := by
  constructor
  · intro h
    have hbits : ∀ i, (a.testBit i || b.testBit i) = false := fun i => by
      rw [← Nat.testBit_or, h, Nat.zero_testBit]
    constructor
    · apply Nat.eq_of_testBit_eq
      intro i
      have := hbits i
      rw [Nat.zero_testBit]
      cases h1 : a.testBit i <;> simp_all
    · apply Nat.eq_of_testBit_eq
      intro i
      have := hbits i
      rw [Nat.zero_testBit]
      cases h1 : b.testBit i <;> simp_all
  · rintro ⟨rfl, rfl⟩
    rfl

/-- The C test `a | b` is zero iff both operands are. -/
theorem int_lor_eq_zero (a b : Int) : Int.lor a b = 0 ↔ a = 0 ∧ b = 0 := by
  cases a <;> cases b <;> simp [Int.lor]
  exact nat_lor_eq_zero _ _

/-! ## Theorems: `tcpci_tcpm_get_cc` -/

theorem cc_status_cc1_range (status : Int) :
    0 ≤ TCPC_REG_CC_STATUS_CC1 status ∧ TCPC_REG_CC_STATUS_CC1 status ≤ 3 := by
  obtain ⟨k, hk, hle⟩ := int_land_le status 3
  have hk' : Int.land status 3 = (k : Int) := by simpa using hk
  rw [TCPC_REG_CC_STATUS_CC1, hk']
  omega

theorem cc_status_cc2_range (status : Int) :
    0 ≤ TCPC_REG_CC_STATUS_CC2 status ∧ TCPC_REG_CC_STATUS_CC2 status ≤ 3 := by
  obtain ⟨k, hk, hle⟩ := int_land_le status 12
  have hk' : Int.land status 12 = (k : Int) := by simpa using hk
  have h2 : ((k : Int) >>> (2 : Int)) = ((k >>> 2 : Nat) : Int) :=
    Int.shiftRight_coe_nat k 2
  rw [TCPC_REG_CC_STATUS_CC2, hk', h2, Nat.shiftRight_eq_div_pow]
  omega

theorem cc_status_term_range (status : Int) :
    TCPC_REG_CC_STATUS_TERM status = 0 ∨ TCPC_REG_CC_STATUS_TERM status = 1 := by
  obtain ⟨k, hk, hle⟩ := int_land_le status 16
  have hk' : Int.land status 16 = (k : Int) := by simpa using hk
  have h2 : ((k : Int) >>> (4 : Int)) = ((k >>> 4 : Nat) : Int) :=
    Int.shiftRight_coe_nat k 4
  rw [TCPC_REG_CC_STATUS_TERM, hk', h2, Nat.shiftRight_eq_div_pow]
  omega

/-- The value reported for one CC line with 2-bit state `c` and termination
bit `t`. -/
theorem cc_line_value (c t : Int) (h0 : 0 ≤ c) (h3 : c ≤ 3) (ht : t = 0 ∨ t = 1) :
    (is_tcpc_cc_voltage_status
        (if c ≠ TYPEC_CC_VOLT_OPEN then Int.lor c (t <<< (2 : Int)) else c) ∨
      (if c ≠ TYPEC_CC_VOLT_OPEN then Int.lor c (t <<< (2 : Int)) else c) = 3) ∧
    ((if c ≠ TYPEC_CC_VOLT_OPEN then Int.lor c (t <<< (2 : Int)) else c) = 3
      ↔ c = 3 ∧ t = 0) := by
  interval_cases c <;> rcases ht with rfl | rfl <;> decide

/-- C5 (amended): after a successful read of CC_STATUS, `tcpci_tcpm_get_cc`
returns EC_SUCCESS and sets each of `*cc1` and `*cc2` to OPEN when the line's
2-bit state is 0 and otherwise to that state with the termination bit ORed in
at bit 2; the value is a member of `enum tcpc_cc_voltage_status` or 3, and it
is 3 exactly when the line's state is 3 and the termination bit is clear. -/
theorem tcpci_tcpm_get_cc_values (b : Board) (port : Nat) (cc1 cc2 : Int) (w : World)
    (hok : (w.i2c 0).rv = EC_SUCCESS) :
    (tcpci_tcpm_get_cc b port cc1 cc2 w).1 = EC_SUCCESS ∧
    (tcpci_tcpm_get_cc b port cc1 cc2 w).2.1
      = (if TCPC_REG_CC_STATUS_CC1 (w.i2c 0).val = TYPEC_CC_VOLT_OPEN then TYPEC_CC_VOLT_OPEN
         else Int.lor (TCPC_REG_CC_STATUS_CC1 (w.i2c 0).val)
           (TCPC_REG_CC_STATUS_TERM (w.i2c 0).val <<< (2 : Int))) ∧
    (tcpci_tcpm_get_cc b port cc1 cc2 w).2.2.1
      = (if TCPC_REG_CC_STATUS_CC2 (w.i2c 0).val = TYPEC_CC_VOLT_OPEN then TYPEC_CC_VOLT_OPEN
         else Int.lor (TCPC_REG_CC_STATUS_CC2 (w.i2c 0).val)
           (TCPC_REG_CC_STATUS_TERM (w.i2c 0).val <<< (2 : Int))) ∧
    (0 ≤ TCPC_REG_CC_STATUS_CC1 (w.i2c 0).val ∧ TCPC_REG_CC_STATUS_CC1 (w.i2c 0).val ≤ 3) ∧
    (0 ≤ TCPC_REG_CC_STATUS_CC2 (w.i2c 0).val ∧ TCPC_REG_CC_STATUS_CC2 (w.i2c 0).val ≤ 3) ∧
    (TCPC_REG_CC_STATUS_TERM (w.i2c 0).val = 0 ∨ TCPC_REG_CC_STATUS_TERM (w.i2c 0).val = 1) ∧
    (is_tcpc_cc_voltage_status (tcpci_tcpm_get_cc b port cc1 cc2 w).2.1 ∨
      (tcpci_tcpm_get_cc b port cc1 cc2 w).2.1 = 3) ∧
    (is_tcpc_cc_voltage_status (tcpci_tcpm_get_cc b port cc1 cc2 w).2.2.1 ∨
      (tcpci_tcpm_get_cc b port cc1 cc2 w).2.2.1 = 3) ∧
    ((tcpci_tcpm_get_cc b port cc1 cc2 w).2.1 = 3 ↔
      TCPC_REG_CC_STATUS_CC1 (w.i2c 0).val = 3 ∧ TCPC_REG_CC_STATUS_TERM (w.i2c 0).val = 0) ∧
    ((tcpci_tcpm_get_cc b port cc1 cc2 w).2.2.1 = 3 ↔
      TCPC_REG_CC_STATUS_CC2 (w.i2c 0).val = 3 ∧ TCPC_REG_CC_STATUS_TERM (w.i2c 0).val = 0) := by
  have hrv : (w.i2c 0).rv = 0 := hok
  have r1 := cc_status_cc1_range (w.i2c 0).val
  have r2 := cc_status_cc2_range (w.i2c 0).val
  have rt := cc_status_term_range (w.i2c 0).val
  have v1 := cc_line_value _ _ r1.1 r1.2 rt
  have v2 := cc_line_value _ _ r2.1 r2.2 rt
  have e1 : (tcpci_tcpm_get_cc b port cc1 cc2 w).2.1
      = (if TCPC_REG_CC_STATUS_CC1 (w.i2c 0).val ≠ TYPEC_CC_VOLT_OPEN then
          Int.lor (TCPC_REG_CC_STATUS_CC1 (w.i2c 0).val)
            (TCPC_REG_CC_STATUS_TERM (w.i2c 0).val <<< (2 : Int))
         else TCPC_REG_CC_STATUS_CC1 (w.i2c 0).val) := by
    simp [tcpci_tcpm_get_cc, tcpc_read, World.transact, hrv]
  have e2 : (tcpci_tcpm_get_cc b port cc1 cc2 w).2.2.1
      = (if TCPC_REG_CC_STATUS_CC2 (w.i2c 0).val ≠ TYPEC_CC_VOLT_OPEN then
          Int.lor (TCPC_REG_CC_STATUS_CC2 (w.i2c 0).val)
            (TCPC_REG_CC_STATUS_TERM (w.i2c 0).val <<< (2 : Int))
         else TCPC_REG_CC_STATUS_CC2 (w.i2c 0).val) := by
    simp [tcpci_tcpm_get_cc, tcpc_read, World.transact, hrv]
  refine ⟨?_, ?_, ?_, r1, r2, rt, ?_, ?_, ?_, ?_⟩
  · simp [tcpci_tcpm_get_cc, tcpc_read, World.transact, hrv, EC_SUCCESS]
  · rw [e1]; split_ifs <;> simp_all
  · rw [e2]; split_ifs <;> simp_all
  · rw [e1]; exact v1.1
  · rw [e2]; exact v2.1
  · rw [e1]; exact v1.2
  · rw [e2]; exact v2.2

/-- C5 (witness): CC_STATUS reads 0x16, so CC1 is in state 2, CC2 in state 1
and the termination bit is set; the lines are reported as 6 and 5. -/
theorem tcpci_tcpm_get_cc_values_witness :
    (tcpci_tcpm_get_cc demo_board 0 0 0 (const_world (read_ok 0x16))).1 = EC_SUCCESS ∧
    (tcpci_tcpm_get_cc demo_board 0 0 0 (const_world (read_ok 0x16))).2.1
      = TYPEC_CC_VOLT_SNK_1_5 ∧
    (tcpci_tcpm_get_cc demo_board 0 0 0 (const_world (read_ok 0x16))).2.2.1
      = TYPEC_CC_VOLT_SNK_DEF :=
  have h := tcpci_tcpm_get_cc_values demo_board 0 0 0 (const_world (read_ok 0x16)) rfl
  ⟨h.1, h.2.1.trans (by decide), h.2.2.1.trans (by decide)⟩

/-- C5 (counterexample): CC_STATUS reads 0x03 (CC1 in state 3, termination
bit clear); the read succeeds and `*cc1` is set to 3, which is no member of
`enum tcpc_cc_voltage_status`. -/
theorem tcpci_tcpm_get_cc_counterexample :
    (tcpci_tcpm_get_cc demo_board 0 0 0 (const_world (read_ok 0x03))).1 = EC_SUCCESS ∧
    (tcpci_tcpm_get_cc demo_board 0 0 0 (const_world (read_ok 0x03))).2.1 = 3 ∧
    ¬ is_tcpc_cc_voltage_status
      (tcpci_tcpm_get_cc demo_board 0 0 0 (const_world (read_ok 0x03))).2.1 := by
  decide

/-! ## Theorems: `tcpci_tcpm_transmit` -/

theorem since_of_trace_eq (w w' : World) (evs : List Event)
    (h : w'.trace = w.trace ++ evs) : w.since w' = evs := by
  simp [World.since, h]

theorem pd_header_cnt_le (header : Nat) : PD_HEADER_CNT header ≤ 7 :=
  Nat.and_le_right

/-- C6: `tcpci_tcpm_transmit` first writes TX_BYTE_CNT = 4*n + 2, with n the
header's object count (at most 7); it makes no transfer when n = 0; and when
the bus transactions succeed its calls are exactly: the TX_BYTE_CNT write, the
TX_HDR write of the header, for n > 0 the locked pair of transfers that sends
the TX_DATA offset and then the first 4*n payload bytes, and last the write of
the transmit type (with the retry count) to TRANSMIT. -/
theorem tcpci_tcpm_transmit_frame (b : Board) (port : Nat) (type : Int) (header : Nat)
    (data : Nat → Int) (w : World) :
    PD_HEADER_CNT header ≤ 7 ∧
    (w.since (tcpci_tcpm_transmit b port type header data w).2).head?
      = some (Event.i2c_write8 (b.tcpc_config port).i2c_host_port
          (b.tcpc_config port).i2c_slave_addr TCPC_REG_TX_BYTE_CNT
          (4 * (PD_HEADER_CNT header : Int) + 2)) ∧
    (PD_HEADER_CNT header = 0 →
      ∀ e ∈ w.since (tcpci_tcpm_transmit b port type header data w).2, e.is_xfer = false) ∧
    ((∀ k, k < 5 → (w.i2c k).rv = EC_SUCCESS) →
      (tcpci_tcpm_transmit b port type header data w).1 = EC_SUCCESS ∧
      w.since (tcpci_tcpm_transmit b port type header data w).2
        = [Event.i2c_write8 (b.tcpc_config port).i2c_host_port
              (b.tcpc_config port).i2c_slave_addr TCPC_REG_TX_BYTE_CNT
              (4 * (PD_HEADER_CNT header : Int) + 2),
            Event.i2c_write16 (b.tcpc_config port).i2c_host_port
              (b.tcpc_config port).i2c_slave_addr TCPC_REG_TX_HDR (header : Int)] ++
          (if 0 < PD_HEADER_CNT header then
            [Event.i2c_lock (b.tcpc_config port).i2c_host_port 1,
             Event.i2c_xfer (b.tcpc_config port).i2c_host_port
               (b.tcpc_config port).i2c_slave_addr [TCPC_REG_TX_DATA] 0
               I2cXferFlags.I2C_XFER_START,
             Event.i2c_xfer (b.tcpc_config port).i2c_host_port
               (b.tcpc_config port).i2c_slave_addr
               ((List.range (4 * PD_HEADER_CNT header)).map data) 0
               I2cXferFlags.I2C_XFER_STOP,
             Event.i2c_lock (b.tcpc_config port).i2c_host_port 0]
           else []) ++
          [Event.i2c_write8 (b.tcpc_config port).i2c_host_port
            (b.tcpc_config port).i2c_slave_addr TCPC_REG_TRANSMIT
            (TCPC_REG_TRANSMIT_SET type)]) := by
  refine ⟨pd_header_cnt_le header, ?_, ?_, ?_⟩
  · simp only [tcpci_tcpm_transmit, tcpc_write, tcpc_write16, tcpc_xfer, tcpc_lock,
      World.transact, World.emit, World.since]
    split_ifs <;> simp
  · intro h0
    simp only [tcpci_tcpm_transmit, tcpc_write, tcpc_write16, tcpc_xfer, tcpc_lock,
      World.transact, World.emit, World.since, h0]
    split_ifs with h1 h2 h3 <;> first | omega | simp [Event.is_xfer]
  · intro hok
    have h0 : (w.i2c 0).rv = 0 := hok 0 (by omega)
    have h1 : (w.i2c 1).rv = 0 := hok 1 (by omega)
    have h2 : (w.i2c 2).rv = 0 := hok 2 (by omega)
    have h3 : (w.i2c 3).rv = 0 := hok 3 (by omega)
    have h4 : (w.i2c 4).rv = 0 := hok 4 (by omega)
    have hz : Int.lor 0 0 = 0 := by decide
    by_cases hn : PD_HEADER_CNT header = 0
    · simp [tcpci_tcpm_transmit, tcpc_write, tcpc_write16, tcpc_xfer, tcpc_lock,
        World.transact, World.emit, World.since, h0, h1, h2, hz, hn, EC_SUCCESS]
    · have hpos : 0 < PD_HEADER_CNT header := Nat.pos_of_ne_zero hn
      have hcnt : (0 : Int) < 4 * (PD_HEADER_CNT header : Int) := by omega
      have htoNat : (4 * (PD_HEADER_CNT header : Int)).toNat = 4 * PD_HEADER_CNT header := by
        omega
      simp [tcpci_tcpm_transmit, tcpc_write, tcpc_write16, tcpc_xfer, tcpc_lock,
        World.transact, World.emit, World.since, h0, h1, h2, h3, h4, hz, hpos, hcnt,
        htoNat, EC_SUCCESS]

/-- C6 (witness): a header with two data objects on a bus where every
transaction succeeds; eight payload bytes go out and TRANSMIT gets 0x30. -/
theorem tcpci_tcpm_transmit_frame_witness :
    (∀ k, k < 5 → (ok_world.i2c k).rv = EC_SUCCESS) ∧
    (tcpci_tcpm_transmit demo_board 1 0 (PD_HEADER 2 0 0 3 2) ramp_payload ok_world).1
      = EC_SUCCESS ∧
    ok_world.since
        (tcpci_tcpm_transmit demo_board 1 0 (PD_HEADER 2 0 0 3 2) ramp_payload ok_world).2
      = [Event.i2c_write8 1 0x16 TCPC_REG_TX_BYTE_CNT 10,
         Event.i2c_write16 1 0x16 TCPC_REG_TX_HDR 0x2642,
         Event.i2c_lock 1 1,
         Event.i2c_xfer 1 0x16 [TCPC_REG_TX_DATA] 0 I2cXferFlags.I2C_XFER_START,
         Event.i2c_xfer 1 0x16 [0, 1, 2, 3, 4, 5, 6, 7] 0 I2cXferFlags.I2C_XFER_STOP,
         Event.i2c_lock 1 0,
         Event.i2c_write8 1 0x16 TCPC_REG_TRANSMIT 0x30] :=
  have h := (tcpci_tcpm_transmit_frame demo_board 1 0 (PD_HEADER 2 0 0 3 2) ramp_payload
    ok_world).2.2.2 (fun _ _ => rfl)
  ⟨fun _ _ => rfl, h.1, h.2.trans (by decide)⟩

/-- C7: `tcpci_tcpm_transmit` writes the TRANSMIT register iff the
TX_BYTE_CNT write, the TX_HDR write and (for a non-zero object count) both
payload transfers returned success; if one of them failed it returns a non-zero
status, and if all succeeded it returns the status of the TRANSMIT write. -/
theorem tcpci_tcpm_transmit_gated (b : Board) (port : Nat) (type : Int) (header : Nat)
    (data : Nat → Int) (w : World) :
    ((∃ e ∈ w.since (tcpci_tcpm_transmit b port type header data w).2,
        e.writes_reg TCPC_REG_TRANSMIT = true) ↔ transmit_preceding_ok w header) ∧
    (¬ transmit_preceding_ok w header →
      (tcpci_tcpm_transmit b port type header data w).1 ≠ 0) ∧
    (transmit_preceding_ok w header →
      (tcpci_tcpm_transmit b port type header data w).1
        = (w.i2c (transmit_write_index header)).rv) := by
  have hcnt : (0 : Int) < 4 * (PD_HEADER_CNT header : Int) ↔ 0 < PD_HEADER_CNT header := by
    omega
  by_cases h0 : (w.i2c 0).rv = 0 <;> by_cases h1 : (w.i2c 1).rv = 0 <;>
    by_cases hn : 0 < PD_HEADER_CNT header <;>
    by_cases h2 : (w.i2c 2).rv = 0 <;> by_cases h3 : (w.i2c 3).rv = 0 <;>
    simp [tcpci_tcpm_transmit, tcpc_write, tcpc_write16, tcpc_xfer, tcpc_lock,
      World.transact, World.emit, World.since, transmit_preceding_ok, transmit_write_index,
      Event.writes_reg, int_lor_eq_zero, hcnt, h0, h1, h2, h3, hn, EC_SUCCESS,
      TCPC_REG_TRANSMIT, TCPC_REG_TX_BYTE_CNT, TCPC_REG_TX_HDR]

/-! ## Theorems: `tcpci_tcpm_get_message` -/

/-- C8 (the code at the failing input): on a bus where every transaction fails
with status 1, `tcpci_tcpm_get_message` returns a non-success status and no
payload is read, yet its last call writes TCPC_REG_ALERT_RX_STATUS to the
ALERT register. -/
theorem tcpci_tcpm_get_message_clears_rx_status_on_failure :
    (tcpci_tcpm_get_message demo_board 1 ramp_payload (const_world read_failure)).1 = 1 ∧
    (1 : Int) ≠ EC_SUCCESS ∧
    (tcpci_tcpm_get_message demo_board 1 ramp_payload (const_world read_failure)).2.2.2.trace
      = [Event.i2c_read8 1 0x16 TCPC_REG_RX_BYTE_CNT,
         Event.i2c_read16 1 0x16 TCPC_REG_RX_HDR,
         Event.i2c_write16 1 0x16 TCPC_REG_ALERT TCPC_REG_ALERT_RX_STATUS] := by
  decide

/-! ## Theorems: `tcpci_tcpc_alert` -/

theorem alert_power_status_trace (b : Board) (port : Nat) (w : World) :
    (tcpci_tcpc_alert_power_status b port w).trace
        = w.trace ++ w.since (tcpci_tcpc_alert_power_status b port w) ∧
      ∀ e ∈ w.since (tcpci_tcpc_alert_power_status b port w),
        e.power_status_call port (b.PD_PORT_TO_TASK_ID port) := by
  unfold tcpci_tcpc_alert_power_status
  simp only [tcpc_read, tcpci_tcpm_get_power_status, World.transact, World.emit, World.since]
  split_ifs <;> simp [Event.power_status_call]

theorem trace_ite_emit (c : Prop) [Decidable c] (w : World) (e : Event) :
    (if c then w.emit e else w).trace = w.trace ++ (if c then [e] else []) := by
  split_ifs <;> simp [World.emit]

theorem trace_ite_emit_two (c : Prop) [Decidable c] (w : World) (e1 e2 : Event) :
    (if c then (w.emit e1).emit e2 else w).trace = w.trace ++ (if c then [e1, e2] else []) := by
  split_ifs <;> simp [World.emit]

theorem trace_ite_power_status (c : Prop) [Decidable c] (b : Board) (port : Nat) (w : World) :
    (if c then tcpci_tcpc_alert_power_status b port w else w).trace
      = w.trace ++ (if c then w.since (tcpci_tcpc_alert_power_status b port w) else []) := by
  split_ifs
  · exact (alert_power_status_trace b port w).1
  · simp

theorem trace_ite_write16 (c : Prop) [Decidable c] (b : Board) (port : Nat) (reg val : Int)
    (w : World) :
    (if c then (tcpc_write16 b port reg val w).2 else w).trace
      = w.trace ++ (if c then [Event.i2c_write16 (b.tcpc_config port).i2c_host_port
          (b.tcpc_config port).i2c_slave_addr reg val] else []) := by
  split_ifs <;> simp [tcpc_write16, World.transact]

/-- The calls of `tcpci_tcpc_alert`, in order: the ALERT read, the write that
clears the bits other than RX_STATUS, and the calls of each branch taken. -/
theorem tcpci_tcpc_alert_trace (b : Board) (port : Nat) (w : World) :
    ∃ pevs, (tcpci_tcpc_alert b port w).trace = w.trace ++ ([alert_read b port] ++
        (if Int.land (w.i2c 0).val (~~~TCPC_REG_ALERT_RX_STATUS) ≠ 0 then
          [Event.i2c_write16 (b.tcpc_config port).i2c_host_port
            (b.tcpc_config port).i2c_slave_addr TCPC_REG_ALERT
            (Int.land (w.i2c 0).val (~~~TCPC_REG_ALERT_RX_STATUS))] else []) ++
        (if Int.land (w.i2c 0).val TCPC_REG_ALERT_CC_STATUS ≠ 0 then
          [Event.task_set_event (b.PD_PORT_TO_TASK_ID port) PdEvent.PD_EVENT_CC 0]
          else []) ++
        pevs ++
        (if Int.land (w.i2c 0).val TCPC_REG_ALERT_RX_STATUS ≠ 0 then
          [Event.task_set_event (b.PD_PORT_TO_TASK_ID port) PdEvent.PD_EVENT_RX 0]
          else []) ++
        (if Int.land (w.i2c 0).val TCPC_REG_ALERT_RX_HARD_RST ≠ 0 then
          [Event.pd_execute_hard_reset port, Event.task_wake (b.PD_PORT_TO_TASK_ID port)]
          else []) ++
        (if Int.land (w.i2c 0).val TCPC_REG_ALERT_TX_COMPLETE ≠ 0 then
          [Event.pd_transmit_complete port
            (if Int.land (w.i2c 0).val TCPC_REG_ALERT_TX_SUCCESS ≠ 0 then
              TCPC_TX_COMPLETE_SUCCESS else TCPC_TX_COMPLETE_FAILED)] else [])) ∧
      (∀ e ∈ pevs, e.power_status_call port (b.PD_PORT_TO_TASK_ID port)) ∧
      (Int.land (w.i2c 0).val TCPC_REG_ALERT_POWER_STATUS = 0 → pevs = []) := by
  have hstatus : (tcpm_alert_status b port w).2.1 = (w.i2c 0).val := rfl
  have hread : (tcpm_alert_status b port w).2.2.trace = w.trace ++ [alert_read b port] := rfl
  unfold tcpci_tcpc_alert
  simp only [hstatus]
  rw [trace_ite_emit, trace_ite_emit_two, trace_ite_emit, trace_ite_power_status,
    trace_ite_emit, trace_ite_write16, hread]
  apply Exists.intro
  refine ⟨?h1, ?h2, ?h3⟩
  case h1 =>
    simp only [List.append_assoc]
    rfl
  case h2 =>
    intro e he
    by_cases hc : Int.land (w.i2c 0).val TCPC_REG_ALERT_POWER_STATUS ≠ 0
    · rw [if_pos hc] at he
      exact (alert_power_status_trace b port _).2 e he
    · rw [if_neg hc] at he
      exact absurd he (List.not_mem_nil e)
  case h3 =>
    intro h0
    simp [h0]



theorem int_land_lor_eq_zero (x : Int) (a b : Nat) :
    Int.land x ((a ||| b : Nat) : Int) = 0 ↔ Int.land x a = 0 ∧ Int.land x b = 0 := by
  obtain ⟨k, hk, hkb⟩ := int_land_natCast x (a ||| b)
  obtain ⟨ka, hka, hab⟩ := int_land_natCast x a
  obtain ⟨kb, hkb', hbb⟩ := int_land_natCast x b
  have hor : k = ka ||| kb := by
    apply Nat.eq_of_testBit_eq
    intro i
    rw [hkb i, Nat.testBit_or, Nat.testBit_or, hab i, hbb i]
    cases Int.testBit x i <;> simp
  rw [hk, hka, hkb', hor]
  have := nat_lor_eq_zero ka kb
  constructor
  · intro h
    have h' : ka ||| kb = 0 := by exact_mod_cast h
    exact ⟨by exact_mod_cast (this.mp h').1, by exact_mod_cast (this.mp h').2⟩
  · rintro ⟨h1, h2⟩
    have h1' : ka = 0 := by exact_mod_cast h1
    have h2' : kb = 0 := by exact_mod_cast h2
    subst h1' h2'
    rfl

/-- Some transmit-outcome bit is set iff TX_SUCCESS, TX_DISCARDED or TX_FAILED
is. -/
theorem alert_tx_complete_iff (status : Int) :
    Int.land status TCPC_REG_ALERT_TX_COMPLETE ≠ 0 ↔
      (Int.land status TCPC_REG_ALERT_TX_SUCCESS ≠ 0 ∨
       Int.land status TCPC_REG_ALERT_TX_DISCARDED ≠ 0 ∨
       Int.land status TCPC_REG_ALERT_TX_FAILED ≠ 0) := by
  have e : TCPC_REG_ALERT_TX_COMPLETE = (((0x40 ||| 0x20) ||| 0x10 : Nat) : Int) := by decide
  have es : TCPC_REG_ALERT_TX_SUCCESS = ((0x40 : Nat) : Int) := by decide
  have ed : TCPC_REG_ALERT_TX_DISCARDED = ((0x20 : Nat) : Int) := by decide
  have ef : TCPC_REG_ALERT_TX_FAILED = ((0x10 : Nat) : Int) := by decide
  rw [e, es, ed, ef, Ne, int_land_lor_eq_zero, int_land_lor_eq_zero]
  tauto

theorem transmit_complete_calls_append (l1 l2 : List Event) :
    transmit_complete_calls (l1 ++ l2)
      = transmit_complete_calls l1 ++ transmit_complete_calls l2 := by
  induction l1 with
  | nil => rfl
  | cons e es ih => cases e <;> simp [transmit_complete_calls, ih]

theorem transmit_complete_calls_power_status (port : Nat) (task : Int) (l : List Event)
    (h : ∀ e ∈ l, e.power_status_call port task) : transmit_complete_calls l = [] := by
  induction l with
  | nil => rfl
  | cons e es ih =>
    have he := h e (List.mem_cons_self e es)
    have ih' := ih (fun x hx => h x (List.mem_cons_of_mem e hx))
    cases e <;> simp_all [transmit_complete_calls, Event.power_status_call]

theorem power_status_call_targets (port : Nat) (task : Int) (e : Event)
    (h : e.power_status_call port task) : e.targets port task := by
  cases e <;> simp_all [Event.power_status_call, Event.targets]

/-- The calls of `pd_transmit_complete` that `tcpci_tcpc_alert` makes, by the
transmit-outcome bits of the ALERT value it read. -/
theorem alert_transmit_complete_calls (b : Board) (port : Nat) (w : World) :
    transmit_complete_calls (w.since (tcpci_tcpc_alert b port w))
      = (if Int.land (w.i2c 0).val TCPC_REG_ALERT_TX_SUCCESS ≠ 0 then
           [(port, TCPC_TX_COMPLETE_SUCCESS)]
         else if Int.land (w.i2c 0).val TCPC_REG_ALERT_TX_DISCARDED ≠ 0 ∨
             Int.land (w.i2c 0).val TCPC_REG_ALERT_TX_FAILED ≠ 0 then
           [(port, TCPC_TX_COMPLETE_FAILED)]
         else []) := by
  obtain ⟨pevs, htrace, hmem, _⟩ := tcpci_tcpc_alert_trace b port w
  rw [since_of_trace_eq w _ _ htrace]
  have hp := transmit_complete_calls_power_status port _ pevs hmem
  have hiff := alert_tx_complete_iff (w.i2c 0).val
  simp only [transmit_complete_calls_append, hp, alert_read]
  by_cases hs : Int.land (w.i2c 0).val TCPC_REG_ALERT_TX_SUCCESS ≠ 0
  · have hc : Int.land (w.i2c 0).val TCPC_REG_ALERT_TX_COMPLETE ≠ 0 := hiff.mpr (Or.inl hs)
    simp only [if_pos hs, if_pos hc]
    split_ifs <;> simp [transmit_complete_calls]
  · by_cases hdf : Int.land (w.i2c 0).val TCPC_REG_ALERT_TX_DISCARDED ≠ 0 ∨
        Int.land (w.i2c 0).val TCPC_REG_ALERT_TX_FAILED ≠ 0
    · have hc : Int.land (w.i2c 0).val TCPC_REG_ALERT_TX_COMPLETE ≠ 0 := hiff.mpr (Or.inr hdf)
      simp only [if_neg hs, if_pos hc, if_pos hdf]
      split_ifs <;> simp [transmit_complete_calls]
    · have hc : ¬ Int.land (w.i2c 0).val TCPC_REG_ALERT_TX_COMPLETE ≠ 0 := fun h =>
        (hiff.mp h).elim hs hdf
      simp only [if_neg hs, if_neg hc, if_neg hdf]
      split_ifs <;> simp [transmit_complete_calls]

/-- C9 (amended): `tcpci_tcpc_alert` calls `pd_transmit_complete` exactly once,
for its own port, when a transmit-outcome bit is set: with
TCPC_TX_COMPLETE_SUCCESS when TX_SUCCESS is set and with
TCPC_TX_COMPLETE_FAILED otherwise (TX_DISCARDED or TX_FAILED set, TX_SUCCESS
clear); with no such bit set it does not call it. -/
theorem tcpci_tcpc_alert_transmit_complete (b : Board) (port : Nat) (w : World) :
    transmit_complete_calls (w.since (tcpci_tcpc_alert b port w))
      = (if Int.land (w.i2c 0).val TCPC_REG_ALERT_TX_SUCCESS ≠ 0 then
           [(port, TCPC_TX_COMPLETE_SUCCESS)]
         else if Int.land (w.i2c 0).val TCPC_REG_ALERT_TX_DISCARDED ≠ 0 ∨
             Int.land (w.i2c 0).val TCPC_REG_ALERT_TX_FAILED ≠ 0 then
           [(port, TCPC_TX_COMPLETE_FAILED)]
         else []) :=
  alert_transmit_complete_calls b port w

/-- C9 (counterexample): ALERT reads 0x20, so TX_DISCARDED is set and
TX_SUCCESS is clear; the one call is `pd_transmit_complete(1,
TCPC_TX_COMPLETE_FAILED)`, not TCPC_TX_COMPLETE_DISCARDED. -/
theorem tcpci_tcpc_alert_discarded_counterexample :
    Int.land 0x20 TCPC_REG_ALERT_TX_DISCARDED ≠ 0 ∧
    Int.land 0x20 TCPC_REG_ALERT_TX_SUCCESS = 0 ∧
    transmit_complete_calls
        ((const_world (read_ok 0x20)).since
          (tcpci_tcpc_alert demo_board 1 (const_world (read_ok 0x20))))
      = [(1, TCPC_TX_COMPLETE_FAILED)] ∧
    TCPC_TX_COMPLETE_FAILED ≠ TCPC_TX_COMPLETE_DISCARDED :=
  ⟨by decide, by decide,
    (alert_transmit_complete_calls demo_board 1 (const_world (read_ok 0x20))).trans
      (by decide),
    by decide⟩

theorem mem_ite_singleton (c : Prop) [Decidable c] (a e : Event) :
    e ∈ (if c then [a] else []) ↔ c ∧ e = a := by
  split_ifs with h <;> simp [h]

theorem mem_ite_pair (c : Prop) [Decidable c] (a1 a2 e : Event) :
    e ∈ (if c then [a1, a2] else []) ↔ c ∧ (e = a1 ∨ e = a2) := by
  split_ifs with h <;> simp [h]

/-- C10: for every ALERT value read, `tcpci_tcpc_alert(port)` raises
PD_EVENT_CC iff the CC_STATUS bit is set and PD_EVENT_RX iff the RX_STATUS bit
is set, both to the task of `port` only; it calls `pd_execute_hard_reset` iff
the RX_HARD_RST bit is set, for `port` only, and then wakes the task of `port`
right after; and every call it makes that names a port or a task names `port`
or its task. -/
theorem tcpci_tcpc_alert_fan_out (b : Board) (port : Nat) (w : World) :
    (∀ t wt, Event.task_set_event t PdEvent.PD_EVENT_CC wt ∈ w.since (tcpci_tcpc_alert b port w)
      ↔ (Int.land (w.i2c 0).val TCPC_REG_ALERT_CC_STATUS ≠ 0 ∧
          t = b.PD_PORT_TO_TASK_ID port ∧ wt = 0)) ∧
    (∀ t wt, Event.task_set_event t PdEvent.PD_EVENT_RX wt ∈ w.since (tcpci_tcpc_alert b port w)
      ↔ (Int.land (w.i2c 0).val TCPC_REG_ALERT_RX_STATUS ≠ 0 ∧
          t = b.PD_PORT_TO_TASK_ID port ∧ wt = 0)) ∧
    (∀ p, Event.pd_execute_hard_reset p ∈ w.since (tcpci_tcpc_alert b port w)
      ↔ (Int.land (w.i2c 0).val TCPC_REG_ALERT_RX_HARD_RST ≠ 0 ∧ p = port)) ∧
    (Int.land (w.i2c 0).val TCPC_REG_ALERT_RX_HARD_RST ≠ 0 →
      [Event.pd_execute_hard_reset port, Event.task_wake (b.PD_PORT_TO_TASK_ID port)]
        <:+: w.since (tcpci_tcpc_alert b port w)) ∧
    (∀ e ∈ w.since (tcpci_tcpc_alert b port w),
      e.targets port (b.PD_PORT_TO_TASK_ID port)) := by
  obtain ⟨pevs, htrace, hmem, _⟩ := tcpci_tcpc_alert_trace b port w
  rw [since_of_trace_eq w _ _ htrace]
  have hcc : ∀ t ev wt, Event.task_set_event t ev wt ∈ pevs →
      ev = PdEvent.PD_EVENT_TCPC_RESET := fun t ev wt h => by
    have := hmem _ h
    simp only [Event.power_status_call] at this
    exact this.2.1
  have hhr : ∀ p, Event.pd_execute_hard_reset p ∉ pevs := fun p h => by
    have := hmem _ h
    simp only [Event.power_status_call] at this
  refine ⟨?_, ?_, ?_, ?_, ?_⟩
  · intro t wt
    simp only [List.mem_append, mem_ite_singleton, mem_ite_pair, alert_read,
      List.mem_singleton]
    constructor
    · rintro ((((((h | h) | h) | h) | h) | h) | h)
      · cases h
      · cases h.2
      · obtain ⟨hc, he⟩ := h
        cases he
        exact ⟨hc, rfl, rfl⟩
      · cases hcc _ _ _ h
      · cases h.2
      · rcases h.2 with h | h <;> cases h
      · cases h.2
    · rintro ⟨hc, rfl, rfl⟩
      exact Or.inl (Or.inl (Or.inl (Or.inl (Or.inr ⟨hc, rfl⟩))))
  · intro t wt
    simp only [List.mem_append, mem_ite_singleton, mem_ite_pair, alert_read,
      List.mem_singleton]
    constructor
    · rintro ((((((h | h) | h) | h) | h) | h) | h)
      · cases h
      · cases h.2
      · cases h.2
      · cases hcc _ _ _ h
      · obtain ⟨hc, he⟩ := h
        cases he
        exact ⟨hc, rfl, rfl⟩
      · rcases h.2 with h | h <;> cases h
      · cases h.2
    · rintro ⟨hc, rfl, rfl⟩
      exact Or.inl (Or.inl (Or.inr ⟨hc, rfl⟩))
  · intro p
    simp only [List.mem_append, mem_ite_singleton, mem_ite_pair, alert_read,
      List.mem_singleton]
    constructor
    · rintro ((((((h | h) | h) | h) | h) | h) | h)
      · cases h
      · cases h.2
      · cases h.2
      · exact absurd h (hhr p)
      · cases h.2
      · obtain ⟨hc, he | he⟩ := h
        · cases he
          exact ⟨hc, rfl⟩
        · cases he
      · cases h.2
    · rintro ⟨hc, rfl⟩
      exact Or.inl (Or.inr ⟨hc, Or.inl rfl⟩)
  · intro hc
    rw [if_pos hc]
    exact ⟨_, _, rfl⟩
  · intro e he
    simp only [List.mem_append, mem_ite_singleton, mem_ite_pair, alert_read,
      List.mem_singleton] at he
    rcases he with ((((((h | h) | h) | h) | h) | h) | h)
    · subst h; trivial
    · rw [h.2]; trivial
    · rw [h.2]; rfl
    · exact power_status_call_targets _ _ _ (hmem e h)
    · rw [h.2]; rfl
    · rcases h.2 with h | h <;> rw [h] <;> rfl
    · rw [h.2]; rfl

/-! ## Theorems: the dispatch layer of `tcpm.h` and reef's board table -/

/-- C19: if the read of CC_STATUS fails, `tcpci_tcpm_get_cc` returns that
read's status and leaves `*cc1` and `*cc2` as they were; and it returns
EC_SUCCESS iff the read succeeded. -/
theorem tcpci_tcpm_get_cc_read_failure (b : Board) (port : Nat) (cc1 cc2 : Int)
    (w : World) :
    ((w.i2c 0).rv ≠ EC_SUCCESS →
      (tcpci_tcpm_get_cc b port cc1 cc2 w).1 = (w.i2c 0).rv ∧
      (tcpci_tcpm_get_cc b port cc1 cc2 w).2.1 = cc1 ∧
      (tcpci_tcpm_get_cc b port cc1 cc2 w).2.2.1 = cc2) ∧
    ((tcpci_tcpm_get_cc b port cc1 cc2 w).1 = EC_SUCCESS ↔ (w.i2c 0).rv = EC_SUCCESS) := by
  by_cases h : (w.i2c 0).rv = 0 <;>
    simp [tcpci_tcpm_get_cc, tcpc_read, World.transact, EC_SUCCESS, h]

/-- C19 (witness): the read fails with status 1 while `*cc1` = 5 and
`*cc2` = 6; the call returns 1 and both stay. -/
theorem tcpci_tcpm_get_cc_read_failure_witness :
    (tcpci_tcpm_get_cc demo_board 0 5 6 (const_world read_failure)).1 = 1 ∧
    (tcpci_tcpm_get_cc demo_board 0 5 6 (const_world read_failure)).2.1 = 5 ∧
    (tcpci_tcpm_get_cc demo_board 0 5 6 (const_world read_failure)).2.2.1 = 6 :=
  (tcpci_tcpm_get_cc_read_failure demo_board 0 5 6 (const_world read_failure)).1 (by decide)

/-- C11: every wrapper of `tcpm.h` is the call of the same operation of
`tcpc_config[port].drv` with the same port and arguments; the I2C wrappers make
one transaction each, on the bus and at the address of `tcpc_config[port]`; and
on reef port 0 is served by the ANX74xx driver at 0x50 and port 1 by the TCPCI
driver at 0x16. -/
theorem tcpm_dispatch_is_routing (drv : Nat → tcpm_drv) (b : Board) (port : Nat)
    (anx74xx_tcpm_drv : tcpm_drv) (task : Nat → Int) (w : World) :
    (∀ fuel, tcpm_init drv port fuel w = (drv port).init port fuel w) ∧
    (∀ cc1 cc2, tcpm_get_cc drv port cc1 cc2 w = (drv port).get_cc port cc1 cc2 w) ∧
    tcpm_get_vbus_level drv port w = (drv port).get_vbus_level.map (fun f => f port w) ∧
    (∀ pull, tcpm_set_cc drv port pull w = (drv port).set_cc port pull w) ∧
    (∀ polarity, tcpm_set_polarity drv port polarity w
      = (drv port).set_polarity port polarity w) ∧
    (∀ enable, tcpm_set_vconn drv port enable w = (drv port).set_vconn port enable w) ∧
    (∀ power_role data_role, tcpm_set_msg_header drv port power_role data_role w
      = (drv port).set_msg_header port power_role data_role w) ∧
    (∀ enable, tcpm_set_rx_enable drv port enable w
      = (drv port).set_rx_enable port enable w) ∧
    (∀ payload, tcpm_get_message drv port payload w = (drv port).get_message port payload w) ∧
    (∀ type header data, tcpm_transmit drv port type header data w
      = (drv port).transmit port type header data w) ∧
    tcpc_alert drv port w = (drv port).tcpc_alert port w ∧
    (∀ reg, w.since (tcpc_read b port reg w).2.2
      = [Event.i2c_read8 (b.tcpc_config port).i2c_host_port
          (b.tcpc_config port).i2c_slave_addr reg]) ∧
    (∀ reg, w.since (tcpc_read16 b port reg w).2.2
      = [Event.i2c_read16 (b.tcpc_config port).i2c_host_port
          (b.tcpc_config port).i2c_slave_addr reg]) ∧
    (∀ reg val, w.since (tcpc_write b port reg val w).2
      = [Event.i2c_write8 (b.tcpc_config port).i2c_host_port
          (b.tcpc_config port).i2c_slave_addr reg val]) ∧
    (∀ reg val, w.since (tcpc_write16 b port reg val w).2
      = [Event.i2c_write16 (b.tcpc_config port).i2c_host_port
          (b.tcpc_config port).i2c_slave_addr reg val]) ∧
    (∀ out in_size flags, w.since (tcpc_xfer b port out in_size flags w).2.2
      = [Event.i2c_xfer (b.tcpc_config port).i2c_host_port
          (b.tcpc_config port).i2c_slave_addr out in_size flags]) ∧
    (∀ lock, w.since (tcpc_lock b port lock w)
      = [Event.i2c_lock (b.tcpc_config port).i2c_host_port lock]) ∧
    reef_tcpc_config_drv anx74xx_tcpm_drv task 0 = anx74xx_tcpm_drv ∧
    reef_tcpc_config_drv anx74xx_tcpm_drv task 1 = tcpci_tcpm_drv (reef_board task) ∧
    ((reef_board task).tcpc_config 0).i2c_host_port = NPCX_I2C_PORT0_0 ∧
    ((reef_board task).tcpc_config 0).i2c_slave_addr = 0x50 ∧
    ((reef_board task).tcpc_config 1).i2c_host_port = NPCX_I2C_PORT0_1 ∧
    ((reef_board task).tcpc_config 1).i2c_slave_addr = 0x16 ∧
    (∀ cc1 cc2, tcpm_get_cc (reef_tcpc_config_drv anx74xx_tcpm_drv task) 0 cc1 cc2 w
      = anx74xx_tcpm_drv.get_cc 0 cc1 cc2 w) ∧
    (∀ cc1 cc2, tcpm_get_cc (reef_tcpc_config_drv anx74xx_tcpm_drv task) 1 cc1 cc2 w
      = tcpci_tcpm_get_cc (reef_board task) 1 cc1 cc2 w) ∧
    (∀ cc1 cc2,
      w.since (tcpm_get_cc (reef_tcpc_config_drv anx74xx_tcpm_drv task) 1 cc1 cc2 w).2.2.2
        = [Event.i2c_read8 NPCX_I2C_PORT0_1 0x16 TCPC_REG_CC_STATUS]) := by
  refine ⟨fun _ => rfl, fun _ _ => rfl, ?_, fun _ => rfl, fun _ => rfl, fun _ => rfl,
    fun _ _ => rfl, fun _ => rfl, fun _ => rfl, fun _ _ _ => rfl, rfl, ?_, ?_, ?_, ?_, ?_, ?_,
    rfl, rfl, rfl, rfl, rfl, rfl, fun _ _ => rfl, fun _ _ => rfl, ?_⟩
  · unfold tcpm_get_vbus_level
    cases (drv port).get_vbus_level <;> rfl
  · intro reg; simp [World.since, tcpc_read, World.transact]
  · intro reg; simp [World.since, tcpc_read16, World.transact]
  · intro reg val; simp [World.since, tcpc_write, World.transact]
  · intro reg val; simp [World.since, tcpc_write16, World.transact]
  · intro out in_size flags; simp [World.since, tcpc_xfer, World.transact]
  · intro lock; simp [World.since, tcpc_lock, World.emit]
  · intro cc1 cc2
    show w.since (tcpci_tcpm_get_cc (reef_board task) 1 cc1 cc2 w).2.2.2 = _
    have hb : ((reef_board task).tcpc_config 1) = ⟨NPCX_I2C_PORT0_1, 0x16,
        tcpc_alert_polarity.TCPC_ALERT_ACTIVE_LOW⟩ := rfl
    simp only [tcpci_tcpm_get_cc, tcpc_read, World.transact, World.since, hb]
    split_ifs <;> simp

/-- C18: on reef `tcpc_get_alert_status` sets PD_STATUS_TCPC_ALERT_0 iff the
interrupt line of port 0 is at the active level of `tcpc_config[0].pol`, sets
PD_STATUS_TCPC_ALERT_1 iff the line of port 1 is at the active level of
`tcpc_config[1].pol`, and sets no other bit of the 16-bit status. -/
theorem tcpc_get_alert_status_mask (gpio_get_level : gpio_signal → Int) :
    (tcpc_get_alert_status gpio_get_level &&& PD_STATUS_TCPC_ALERT_0 ≠ 0 ↔
      alert_line_active (reef_tcpc_config 0).pol
        (gpio_get_level gpio_signal.GPIO_USB_C0_PD_INT_ODL)) ∧
    (tcpc_get_alert_status gpio_get_level &&& PD_STATUS_TCPC_ALERT_1 ≠ 0 ↔
      alert_line_active (reef_tcpc_config 1).pol
        (gpio_get_level gpio_signal.GPIO_USB_C1_PD_INT_ODL)) ∧
    tcpc_get_alert_status gpio_get_level
      &&& (0xffff ^^^ (PD_STATUS_TCPC_ALERT_0 ||| PD_STATUS_TCPC_ALERT_1)) = 0 := by
  have p0 : (reef_tcpc_config 0).pol = tcpc_alert_polarity.TCPC_ALERT_ACTIVE_HIGH := by decide
  have p1 : (reef_tcpc_config 1).pol = tcpc_alert_polarity.TCPC_ALERT_ACTIVE_LOW := by decide
  have hp : IS_PROTO ≠ 0 := by decide
  rw [p0, p1]
  by_cases h0 : gpio_get_level gpio_signal.GPIO_USB_C0_PD_INT_ODL = 0 <;>
    by_cases h1 : gpio_get_level gpio_signal.GPIO_USB_C1_PD_INT_ODL = 0 <;>
    simp [tcpc_get_alert_status, alert_line_active, hp, h0, h1] <;> decide

/-! ## Theorems: `usb_pd_policy.c` -/

/-- C12: for every port, every cnt >= 1 and every payload whose command field
is none of VDO_CMD_VERSION, VDO_CMD_READ_INFO, VDO_CMD_SEND_INFO and
VDO_CMD_PRICE_TEST, `pd_custom_vdm` returns 0 and leaves the payload,
`*rpayload`, `dp_flags[]` and `vbus_present` unchanged; all it does is read
`payload[0]`. -/
theorem pd_custom_vdm_unsupported (k : VdoCommands) (port : Nat) (cnt : Int)
    (payload : Int → Nat) (rpayload : Nat) (w : PolicyWorld) (hcnt : 1 ≤ cnt)
    (h1 : PD_VDO_CMD (payload 0) ≠ k.VDO_CMD_VERSION)
    (h2 : PD_VDO_CMD (payload 0) ≠ k.VDO_CMD_READ_INFO)
    (h3 : PD_VDO_CMD (payload 0) ≠ k.VDO_CMD_SEND_INFO)
    (h4 : PD_VDO_CMD (payload 0) ≠ k.VDO_CMD_PRICE_TEST) :
    (pd_custom_vdm k port cnt payload rpayload w).1 = 0 ∧
    (pd_custom_vdm k port cnt payload rpayload w).2.1 = payload ∧
    (pd_custom_vdm k port cnt payload rpayload w).2.2.1 = rpayload ∧
    (pd_custom_vdm k port cnt payload rpayload w).2.2.2.dp_flags = w.dp_flags ∧
    (pd_custom_vdm k port cnt payload rpayload w).2.2.2.vbus_present = w.vbus_present ∧
    (pd_custom_vdm k port cnt payload rpayload w).2.2.2.calls
      = w.calls ++ [PolicyEvent.payload_read 0] := by
  have hc : cnt ≠ 0 := by omega
  simp [pd_custom_vdm, PolicyWorld.log, hc, h1, h2, h3, h4]

/-- C12 (witness): three words whose first has the command field 31, with the
commands 10 to 13 supported. -/
theorem pd_custom_vdm_unsupported_witness :
    (pd_custom_vdm demo_vdo_commands 1 3 (const_payload 0x1f) 7 (policy_world 1)).1 = 0 ∧
    (pd_custom_vdm demo_vdo_commands 1 3 (const_payload 0x1f) 7 (policy_world 1)).2.1
      = const_payload 0x1f ∧
    (pd_custom_vdm demo_vdo_commands 1 3 (const_payload 0x1f) 7 (policy_world 1)).2.2.1 = 7 ∧
    (pd_custom_vdm demo_vdo_commands 1 3 (const_payload 0x1f) 7 (policy_world 1)).2.2.2.dp_flags
      = (policy_world 1).dp_flags ∧
    (pd_custom_vdm demo_vdo_commands 1 3 (const_payload 0x1f) 7
        (policy_world 1)).2.2.2.vbus_present = (policy_world 1).vbus_present ∧
    (pd_custom_vdm demo_vdo_commands 1 3 (const_payload 0x1f) 7 (policy_world 1)).2.2.2.calls
      = (policy_world 1).calls ++ [PolicyEvent.payload_read 0] :=
  pd_custom_vdm_unsupported demo_vdo_commands 1 3 (const_payload 0x1f) 7 (policy_world 1)
    (by decide) (by decide) (by decide) (by decide) (by decide)

/-- C13 (the code at the failing input): called with cnt == 0, `pd_custom_vdm`
returns 0 and writes nothing, but it has read `payload[0]`: the command field
is taken from the payload before cnt is tested. -/
theorem pd_custom_vdm_reads_before_check (k : VdoCommands) (port : Nat)
    (payload : Int → Nat) (rpayload : Nat) (w : PolicyWorld) :
    (pd_custom_vdm k port 0 payload rpayload w).1 = 0 ∧
    (pd_custom_vdm k port 0 payload rpayload w).2.1 = payload ∧
    (pd_custom_vdm k port 0 payload rpayload w).2.2.2.calls
      = w.calls ++ [PolicyEvent.payload_read 0] ∧
    PolicyEvent.payload_read 0 ∈ (pd_custom_vdm k port 0 payload rpayload w).2.2.2.calls := by
  simp [pd_custom_vdm, PolicyWorld.log]

/-- C14: `svdm_enter_dp_mode(port, mode_caps)` returns 0 and sets
`dp_flags[port]` to 0 (the other ports keep theirs) when mode_caps has the
MODE_DP_SNK bit; for every other mode_caps it returns -1, a negative value, and
leaves `dp_flags[]` unchanged. -/
theorem svdm_enter_dp_mode_gated (port : Nat) (mode_caps : Nat) (w : PolicyWorld) :
    (mode_caps &&& MODE_DP_SNK ≠ 0 →
      (svdm_enter_dp_mode port mode_caps w).1 = 0 ∧
      (svdm_enter_dp_mode port mode_caps w).2.dp_flags port = 0 ∧
      ∀ p, p ≠ port → (svdm_enter_dp_mode port mode_caps w).2.dp_flags p = w.dp_flags p) ∧
    (mode_caps &&& MODE_DP_SNK = 0 →
      (svdm_enter_dp_mode port mode_caps w).1 = -1 ∧
      (svdm_enter_dp_mode port mode_caps w).1 < 0 ∧
      (svdm_enter_dp_mode port mode_caps w).2.dp_flags = w.dp_flags) := by
  constructor
  · intro h
    refine ⟨by simp [svdm_enter_dp_mode, h], by simp [svdm_enter_dp_mode, svdm_safe_dp_mode, h],
      ?_⟩
    intro p hp
    simp [svdm_enter_dp_mode, svdm_safe_dp_mode, h, hp]
  · intro h
    simp [svdm_enter_dp_mode, h]

theorem int_land_lor_one_ne_zero (x : Int) : Int.land (Int.lor x 1) 1 ≠ 0 := by
  obtain ⟨k, hk, hbits⟩ := int_land_natCast (Int.lor x 1) 1
  have h0 := hbits 0
  rw [Int.testBit_lor] at h0
  have hk0 : k.testBit 0 = true := by
    rw [h0]
    have : Int.testBit 1 0 = true := by decide
    simp [this]
  have hk' : Int.land (Int.lor x 1) 1 = (k : Int) := by simpa using hk
  rw [hk']
  intro hz
  have : k = 0 := by exact_mod_cast hz
  rw [this] at hk0
  simp at hk0

/-- C15: after `svdm_exit_dp_mode(port)`, `dp_flags[port]` is 0 whatever it
was, also when `svdm_dp_post_config` had set DP_FLAGS_DP_ON, and the other
ports keep their flags; a following `svdm_dp_status(port)` writes a status word
with the DisplayPort-enabled bit (bit 3) clear; and `svdm_dp_post_config(port)`
sets DP_FLAGS_DP_ON in `dp_flags[port]` and leaves the other ports alone. -/
theorem svdm_dp_mode_state_per_port (pd_alt_mode : Int) (port : Nat) (payload : Int → Nat)
    (w : PolicyWorld) :
    (svdm_exit_dp_mode port w).dp_flags port = 0 ∧
    (svdm_exit_dp_mode port (svdm_dp_post_config port w)).dp_flags port = 0 ∧
    (∀ p, p ≠ port → (svdm_exit_dp_mode port w).dp_flags p = w.dp_flags p) ∧
    (svdm_dp_status pd_alt_mode port payload (svdm_exit_dp_mode port w)).2 1
      = VDO_DP_STATUS 0 0 0 0 0 0 0 0 ∧
    (svdm_dp_status pd_alt_mode port payload (svdm_exit_dp_mode port w)).2 1
      &&& (1 <<< 3) = 0 ∧
    Int.land ((svdm_dp_post_config port w).dp_flags port) DP_FLAGS_DP_ON ≠ 0 ∧
    (svdm_dp_post_config port w).dp_flags port = Int.lor (w.dp_flags port) DP_FLAGS_DP_ON ∧
    (∀ p, p ≠ port → (svdm_dp_post_config port w).dp_flags p = w.dp_flags p) := by
  have hz : Int.land 0 DP_FLAGS_DP_ON = 0 := by decide
  have hstatus : (svdm_dp_status pd_alt_mode port payload (svdm_exit_dp_mode port w)).2 1
      = VDO_DP_STATUS 0 0 0 0 0 0 0 0 := by
    simp [svdm_dp_status, svdm_exit_dp_mode, svdm_safe_dp_mode, hz]
  refine ⟨by simp [svdm_exit_dp_mode, svdm_safe_dp_mode],
    by simp [svdm_exit_dp_mode, svdm_safe_dp_mode], ?_, hstatus, ?_, ?_,
    by simp [svdm_dp_post_config], ?_⟩
  · intro p hp
    simp [svdm_exit_dp_mode, svdm_safe_dp_mode, hp]
  · rw [hstatus]
    decide
  · have hone : DP_FLAGS_DP_ON = 1 := by decide
    have : (svdm_dp_post_config port w).dp_flags port = Int.lor (w.dp_flags port) 1 := by
      simp [svdm_dp_post_config, hone]
    rw [this, hone]
    exact int_land_lor_one_ne_zero _
  · intro p hp
    simp [svdm_dp_post_config, hp]

/-- C16: `pd_check_power_swap(port)` returns 1 if `pd_get_dual_role()` is
PD_DRP_TOGGLE_ON and 0 otherwise, the same for every port, and
`pd_check_data_swap` returns 1 for every port and data role. -/
theorem pd_check_swap_policy (pd_get_dual_role : pd_dual_role_states) (port other : Nat)
    (data_role : Int) :
    (pd_get_dual_role = pd_dual_role_states.PD_DRP_TOGGLE_ON →
      pd_check_power_swap pd_get_dual_role port = 1) ∧
    (pd_get_dual_role ≠ pd_dual_role_states.PD_DRP_TOGGLE_ON →
      pd_check_power_swap pd_get_dual_role port = 0) ∧
    pd_check_power_swap pd_get_dual_role port = pd_check_power_swap pd_get_dual_role other ∧
    pd_check_data_swap port data_role = 1 := by
  refine ⟨?_, ?_, rfl, rfl⟩
  · intro h
    simp [pd_check_power_swap, h]
  · intro h
    simp [pd_check_power_swap, h]

/-! ## Theorems: `spi_nor_erase` -/

theorem spi_nor_write_enable_trace (dev : spi_nor_device_t) (w : SpiWorld) :
    ∃ rest, (spi_nor_write_enable dev w).2.trace = w.trace ++ rest := by
  unfold spi_nor_write_enable
  simp only [spi_nor_read_status, spi_transaction]
  split_ifs <;> exact ⟨_, by (try simp only [List.append_assoc, List.cons_append, List.singleton_append, List.nil_append]); rfl⟩

theorem spi_nor_wait_loop_trace (dev : spi_nor_device_t) (timeout : Nat) :
    ∀ (fuel : Nat) (rv : Int) (status : Nat) (w : SpiWorld),
      ∃ rest, (spi_nor_wait_loop dev timeout fuel rv status w).2.trace = w.trace ++ rest := by
  intro fuel
  induction fuel with
  | zero =>
    intro rv status w
    unfold spi_nor_wait_loop
    split_ifs <;> exact ⟨[], by simp⟩
  | succ f ih =>
    intro rv status w
    unfold spi_nor_wait_loop
    simp only [spi_nor_read_status, spi_transaction, get_time, SpiWorld.emit]
    split_ifs
    · exact ⟨[], by simp⟩
    · exact ⟨_, by (try simp only [List.append_assoc, List.cons_append, List.singleton_append, List.nil_append]); rfl⟩
    · exact ⟨_, by (try simp only [List.append_assoc, List.cons_append, List.singleton_append, List.nil_append]); rfl⟩
    · obtain ⟨rest, h⟩ := ih _ _ _
      exact ⟨_, by rw [h]; (try simp only [List.append_assoc, List.cons_append, List.singleton_append, List.nil_append]); rfl⟩

/-- Whatever the bus does, `spi_nor_wait` starts with a read of the status
register. -/
theorem spi_nor_wait_trace (dev : spi_nor_device_t) (fuel : Nat) (w : SpiWorld) :
    ∃ rest, (spi_nor_wait dev fuel w).2.trace
      = w.trace ++ SpiEvent.spi_transaction dev.spi_master [SPI_NOR_OPCODE_READ_STATUS] 1
          :: rest := by
  unfold spi_nor_wait
  simp only [spi_nor_read_status, spi_transaction, get_time]
  split_ifs
  · exact ⟨[], rfl⟩
  · obtain ⟨rest, h⟩ := spi_nor_wait_loop_trace dev _ fuel _ _ _
    exact ⟨_, by rw [h]; (try simp only [List.append_assoc, List.cons_append, List.singleton_append, List.nil_append]); rfl⟩

theorem spi_nor_erase_loop_trace (dev : spi_nor_device_t) (wait_fuel : Nat) :
    ∀ (fuel offset size : Nat) (w : SpiWorld),
      ∃ rest, (spi_nor_erase_loop dev wait_fuel fuel offset size w).2.trace
        = w.trace ++ rest := by
  intro fuel
  induction fuel with
  | zero =>
    intro offset size w
    unfold spi_nor_erase_loop
    split_ifs
    · obtain ⟨rest, h⟩ := spi_nor_wait_trace dev wait_fuel w
      exact ⟨_, h⟩
    · exact ⟨[], by simp⟩
  | succ f ih =>
    intro offset size w
    unfold spi_nor_erase_loop
    split_ifs with hs
    · obtain ⟨rest, h⟩ := spi_nor_wait_trace dev wait_fuel w
      exact ⟨_, h⟩
    · obtain ⟨r1, h1⟩ := spi_nor_wait_trace dev wait_fuel w
      obtain ⟨r2, h2⟩ := spi_nor_write_enable_trace dev (spi_nor_wait dev wait_fuel w).2
      simp only
      split
      · exact ⟨_, h1⟩
      · split_ifs
        · exact ⟨_, h1⟩
        · exact ⟨_, by rw [h2, h1]; (try simp only [List.append_assoc, List.cons_append, List.singleton_append, List.nil_append]); rfl⟩
        · exact ⟨_, by simp only [spi_transaction, h2, h1]; (try simp only [List.append_assoc, List.cons_append, List.singleton_append, List.nil_append]); rfl⟩
        · obtain ⟨r3, h3⟩ := ih ((offset + 4096) % 2 ^ 32) (size - 4096)
            (spi_transaction dev.spi_master (erase_command dev offset) 0
              (spi_nor_write_enable dev (spi_nor_wait dev wait_fuel w).2).2).2
          exact ⟨_, by rw [h3]; simp only [spi_transaction, h2, h1]; (try simp only [List.append_assoc, List.cons_append, List.singleton_append, List.nil_append]); rfl⟩

/-- With the mutex held and a size that is not zero, the first call is the read
of the status register. -/
theorem spi_nor_erase_loop_first (dev : spi_nor_device_t) (wait_fuel fuel offset size : Nat)
    (w : SpiWorld) (hs : size ≠ 0) :
    ∃ rest, (spi_nor_erase_loop dev wait_fuel (fuel + 1) offset size w).2.trace
      = w.trace ++ SpiEvent.spi_transaction dev.spi_master [SPI_NOR_OPCODE_READ_STATUS] 1
          :: rest := by
  obtain ⟨r1, h1⟩ := spi_nor_wait_trace dev wait_fuel w
  obtain ⟨r2, h2⟩ := spi_nor_write_enable_trace dev (spi_nor_wait dev wait_fuel w).2
  unfold spi_nor_erase_loop
  rw [if_neg hs]
  simp only
  split
  · exact ⟨_, h1⟩
  · split_ifs
    · exact ⟨_, h1⟩
    · exact ⟨_, by rw [h2, h1]; (try simp only [List.append_assoc, List.cons_append, List.singleton_append, List.nil_append]); rfl⟩
    · exact ⟨_, by simp only [spi_transaction, h2, h1]; (try simp only [List.append_assoc, List.cons_append, List.singleton_append, List.nil_append]); rfl⟩
    · obtain ⟨r3, h3⟩ := spi_nor_erase_loop_trace dev wait_fuel fuel
        ((offset + 4096) % 2 ^ 32) (size - 4096)
        (spi_transaction dev.spi_master (erase_command dev offset) 0
          (spi_nor_write_enable dev (spi_nor_wait dev wait_fuel w).2).2).2
      exact ⟨_, by
        rw [h3]; simp only [spi_transaction, h2, h1]; (try simp only [List.append_assoc, List.cons_append, List.singleton_append, List.nil_append]); rfl⟩

theorem spi_nor_erase_valid_trace (dev : spi_nor_device_t) (fuel offset size : Nat)
    (w : SpiWorld) (hv : ¬ (offset % 4096 ≠ 0 ∨ size % 4096 ≠ 0 ∨ size < 4096)) :
    (∃ rest, (spi_nor_erase dev fuel offset size w).2.trace
      = w.trace ++ SpiEvent.mutex_lock :: rest) ∧
    (0 < fuel → ∃ rest, (spi_nor_erase dev fuel offset size w).2.trace
      = w.trace ++ SpiEvent.mutex_lock ::
          SpiEvent.spi_transaction dev.spi_master [SPI_NOR_OPCODE_READ_STATUS] 1 :: rest) := by
  have hsize : size ≠ 0 := by omega
  constructor
  · obtain ⟨rest, h⟩ := spi_nor_erase_loop_trace dev fuel fuel offset size
      (w.emit SpiEvent.mutex_lock)
    have h' : (spi_nor_erase_loop dev fuel fuel offset size
        (w.emit SpiEvent.mutex_lock)).2.trace = w.trace ++ SpiEvent.mutex_lock :: rest := by
      rw [h]; simp [SpiWorld.emit]
    unfold spi_nor_erase
    rw [if_neg hv]
    simp only
    split
    · exact ⟨rest, h'⟩
    · exact ⟨rest ++ [SpiEvent.mutex_unlock], by
        show _ ++ [SpiEvent.mutex_unlock] = _
        rw [h']; simp⟩
  · intro hf
    obtain ⟨f, rfl⟩ : ∃ f, fuel = f + 1 := ⟨fuel - 1, by omega⟩
    obtain ⟨rest, h⟩ := spi_nor_erase_loop_first dev (f + 1) f offset size
      (w.emit SpiEvent.mutex_lock) hsize
    have h' : (spi_nor_erase_loop dev (f + 1) (f + 1) offset size
        (w.emit SpiEvent.mutex_lock)).2.trace = w.trace ++ SpiEvent.mutex_lock ::
          SpiEvent.spi_transaction dev.spi_master [SPI_NOR_OPCODE_READ_STATUS] 1 :: rest := by
      rw [h]; simp [SpiWorld.emit]
    unfold spi_nor_erase
    rw [if_neg hv]
    simp only
    split
    · exact ⟨rest, h'⟩
    · exact ⟨rest ++ [SpiEvent.mutex_unlock], by
        show _ ++ [SpiEvent.mutex_unlock] = _
        rw [h']; simp⟩

/-- On a bus that shows the device idle and sets the write enable latch, a
valid call reaches the 4 KiB erase command for `offset`. -/
theorem spi_nor_erase_reaches_command (dev : spi_nor_device_t) (fuel offset size : Nat)
    (w : SpiWorld) (hv : ¬ (offset % 4096 ≠ 0 ∨ size % 4096 ≠ 0 ∨ size < 4096))
    (hf : 0 < fuel)
    (h0 : (w.spi 0).rv = 0) (hidle : (w.spi 0).rx 0 % 256 &&& SPI_NOR_STATUS_REGISTER_WIP = 0)
    (h1 : (w.spi 1).rv = 0) (h2 : (w.spi 2).rv = 0)
    (hwel : (w.spi 2).rx 0 % 256 &&& SPI_NOR_STATUS_REGISTER_WEL ≠ 0) :
    ∃ rest, (spi_nor_erase dev fuel offset size w).2.trace
      = w.trace ++ [SpiEvent.mutex_lock,
          SpiEvent.spi_transaction dev.spi_master [SPI_NOR_OPCODE_READ_STATUS] 1,
          SpiEvent.get_time,
          SpiEvent.spi_transaction dev.spi_master [SPI_NOR_OPCODE_WRITE_ENABLE] 0,
          SpiEvent.spi_transaction dev.spi_master [SPI_NOR_OPCODE_READ_STATUS] 1,
          SpiEvent.spi_transaction dev.spi_master (erase_command dev offset) 0] ++ rest := by
  have hsize : size ≠ 0 := by omega
  obtain ⟨f, rfl⟩ : ∃ f, fuel = f + 1 := ⟨fuel - 1, by omega⟩
  have hwait : spi_nor_wait dev (f + 1) (w.emit SpiEvent.mutex_lock)
      = (some 0, { spi := fun n => w.spi (n + 1), clock := fun n => w.clock (n + 1),
                   trace := w.trace ++ [SpiEvent.mutex_lock] ++
                     [SpiEvent.spi_transaction dev.spi_master [SPI_NOR_OPCODE_READ_STATUS] 1] ++
                     [SpiEvent.get_time] }) := by
    unfold spi_nor_wait
    simp only [spi_nor_read_status, spi_transaction, get_time, SpiWorld.emit, h0, ne_eq,
      not_true_eq_false, if_false]
    unfold spi_nor_wait_loop
    rw [if_pos hidle]
  have hloop : ∃ w3 : SpiWorld,
      w3.trace = w.trace ++ [SpiEvent.mutex_lock,
          SpiEvent.spi_transaction dev.spi_master [SPI_NOR_OPCODE_READ_STATUS] 1,
          SpiEvent.get_time,
          SpiEvent.spi_transaction dev.spi_master [SPI_NOR_OPCODE_WRITE_ENABLE] 0,
          SpiEvent.spi_transaction dev.spi_master [SPI_NOR_OPCODE_READ_STATUS] 1] ∧
      spi_nor_erase_loop dev (f + 1) (f + 1) offset size (w.emit SpiEvent.mutex_lock)
        = (if (w.spi 3).rv ≠ 0 then
            (some (w.spi 3).rv,
              (spi_transaction dev.spi_master (erase_command dev offset) 0 w3).2)
           else spi_nor_erase_loop dev (f + 1) f ((offset + 4096) % 2 ^ 32) (size - 4096)
              (spi_transaction dev.spi_master (erase_command dev offset) 0 w3).2) := by
    refine ⟨{ spi := fun n => w.spi (n + 3), clock := fun n => w.clock (n + 1),
              trace := w.trace ++ [SpiEvent.mutex_lock,
                SpiEvent.spi_transaction dev.spi_master [SPI_NOR_OPCODE_READ_STATUS] 1,
                SpiEvent.get_time,
                SpiEvent.spi_transaction dev.spi_master [SPI_NOR_OPCODE_WRITE_ENABLE] 0,
                SpiEvent.spi_transaction dev.spi_master [SPI_NOR_OPCODE_READ_STATUS] 1] },
      rfl, ?_⟩
    conv_lhs => unfold spi_nor_erase_loop
    rw [if_neg hsize, hwait]
    simp [spi_nor_write_enable, spi_nor_read_status, spi_transaction, h1, h2, hwel]
  obtain ⟨w3, hw3, hl⟩ := hloop
  obtain ⟨rest, hrest⟩ := spi_nor_erase_loop_trace dev (f + 1) f ((offset + 4096) % 2 ^ 32)
    (size - 4096) (spi_transaction dev.spi_master (erase_command dev offset) 0 w3).2
  have hfinal : ∃ rest', (spi_nor_erase_loop dev (f + 1) (f + 1) offset size
      (w.emit SpiEvent.mutex_lock)).2.trace
        = w.trace ++ [SpiEvent.mutex_lock,
          SpiEvent.spi_transaction dev.spi_master [SPI_NOR_OPCODE_READ_STATUS] 1,
          SpiEvent.get_time,
          SpiEvent.spi_transaction dev.spi_master [SPI_NOR_OPCODE_WRITE_ENABLE] 0,
          SpiEvent.spi_transaction dev.spi_master [SPI_NOR_OPCODE_READ_STATUS] 1,
          SpiEvent.spi_transaction dev.spi_master (erase_command dev offset) 0] ++ rest' := by
    rw [hl]
    split_ifs
    · exact ⟨[], by simp [spi_transaction, hw3]⟩
    · exact ⟨rest, by rw [hrest]; simp [spi_transaction, hw3]⟩
  obtain ⟨rest', h'⟩ := hfinal
  unfold spi_nor_erase
  rw [if_neg hv]
  simp only
  split
  · exact ⟨rest', h'⟩
  · exact ⟨rest' ++ [SpiEvent.mutex_unlock], by
      show _ ++ [SpiEvent.mutex_unlock] = _
      rw [h']; simp⟩

/-- C20: `spi_nor_erase` returns EC_ERROR_INVAL without any call (no SPI
transaction, no mutex) iff offset is not a multiple of 4096, or size is not a
multiple of 4096, or size < 4096, so size 0 is rejected; every other input
takes the driver mutex and starts with the read of the status register, and
when the device shows idle and sets its write enable latch the 4 KiB erase
command for `offset` is sent. -/
theorem spi_nor_erase_validates (dev : spi_nor_device_t) (fuel offset size : Nat)
    (w : SpiWorld) :
    ((offset % 4096 ≠ 0 ∨ size % 4096 ≠ 0 ∨ size < 4096) →
      spi_nor_erase dev fuel offset size w = (some EC_ERROR_INVAL, w)) ∧
    (((spi_nor_erase dev fuel offset size w).1 = some EC_ERROR_INVAL ∧
        (spi_nor_erase dev fuel offset size w).2.trace = w.trace) ↔
      (offset % 4096 ≠ 0 ∨ size % 4096 ≠ 0 ∨ size < 4096)) ∧
    spi_nor_erase dev fuel offset 0 w = (some EC_ERROR_INVAL, w) ∧
    (¬ (offset % 4096 ≠ 0 ∨ size % 4096 ≠ 0 ∨ size < 4096) →
      ∃ rest, (spi_nor_erase dev fuel offset size w).2.trace
        = w.trace ++ SpiEvent.mutex_lock :: rest) ∧
    (¬ (offset % 4096 ≠ 0 ∨ size % 4096 ≠ 0 ∨ size < 4096) → 0 < fuel →
      ∃ rest, (spi_nor_erase dev fuel offset size w).2.trace
        = w.trace ++ SpiEvent.mutex_lock ::
            SpiEvent.spi_transaction dev.spi_master [SPI_NOR_OPCODE_READ_STATUS] 1 :: rest) ∧
    (¬ (offset % 4096 ≠ 0 ∨ size % 4096 ≠ 0 ∨ size < 4096) → 0 < fuel →
      (w.spi 0).rv = 0 → (w.spi 0).rx 0 % 256 &&& SPI_NOR_STATUS_REGISTER_WIP = 0 →
      (w.spi 1).rv = 0 → (w.spi 2).rv = 0 →
      (w.spi 2).rx 0 % 256 &&& SPI_NOR_STATUS_REGISTER_WEL ≠ 0 →
      ∃ rest, (spi_nor_erase dev fuel offset size w).2.trace
        = w.trace ++ [SpiEvent.mutex_lock,
            SpiEvent.spi_transaction dev.spi_master [SPI_NOR_OPCODE_READ_STATUS] 1,
            SpiEvent.get_time,
            SpiEvent.spi_transaction dev.spi_master [SPI_NOR_OPCODE_WRITE_ENABLE] 0,
            SpiEvent.spi_transaction dev.spi_master [SPI_NOR_OPCODE_READ_STATUS] 1,
            SpiEvent.spi_transaction dev.spi_master (erase_command dev offset) 0] ++ rest) := by
  have hinv : (offset % 4096 ≠ 0 ∨ size % 4096 ≠ 0 ∨ size < 4096) →
      spi_nor_erase dev fuel offset size w = (some EC_ERROR_INVAL, w) := fun h => by
    unfold spi_nor_erase
    rw [if_pos h]
  refine ⟨hinv, ?_, ?_, fun hv => (spi_nor_erase_valid_trace dev fuel offset size w hv).1,
    fun hv => (spi_nor_erase_valid_trace dev fuel offset size w hv).2,
    fun hv hf h0 hidle h1 h2 hwel =>
      spi_nor_erase_reaches_command dev fuel offset size w hv hf h0 hidle h1 h2 hwel⟩
  · constructor
    · rintro ⟨_, htrace⟩
      by_contra hv
      obtain ⟨rest, h⟩ := (spi_nor_erase_valid_trace dev fuel offset size w hv).1
      rw [h] at htrace
      have := congrArg List.length htrace
      simp at this
    · intro h
      rw [hinv h]
      exact ⟨rfl, rfl⟩
  · unfold spi_nor_erase
    rw [if_pos (Or.inr (Or.inr (by omega)))]

/-- C20 (witness): offset 4097 is rejected without a call, and the valid call
for offset 4096 and size 8192 on an idle device sends the erase command with
the address bytes 0x00, 0x10, 0x00. -/
theorem spi_nor_erase_validates_witness :
    spi_nor_erase demo_spi_nor_device 3 4097 4096 (spi_world 2)
      = (some EC_ERROR_INVAL, spi_world 2) ∧
    ∃ rest, (spi_nor_erase demo_spi_nor_device 3 4096 8192 (spi_world 2)).2.trace
      = [] ++ [SpiEvent.mutex_lock,
          SpiEvent.spi_transaction 0 [SPI_NOR_OPCODE_READ_STATUS] 1,
          SpiEvent.get_time,
          SpiEvent.spi_transaction 0 [SPI_NOR_OPCODE_WRITE_ENABLE] 0,
          SpiEvent.spi_transaction 0 [SPI_NOR_OPCODE_READ_STATUS] 1,
          SpiEvent.spi_transaction 0 [0x20, 0x00, 0x10, 0x00] 0] ++ rest :=
  ⟨(spi_nor_erase_validates demo_spi_nor_device 3 4097 4096 (spi_world 2)).1 (by decide),
   (spi_nor_erase_validates demo_spi_nor_device 3 4096 8192 (spi_world 2)).2.2.2.2.2
      (by decide) (by decide) (by decide) (by decide) (by decide) (by decide) (by decide)⟩

/-! ## Theorems: bits of `Int` values, `tcpci_tcpm_set_vconn` and the alert handler -/

theorem int_not_eq_lnot (x : Int) : ~~~x = Int.lnot x := by
  cases x <;> rfl

theorem int_testBit_not (x : Int) (i : Nat) : Int.testBit (~~~x) i = !Int.testBit x i := by
  rw [int_not_eq_lnot, Int.testBit_lnot]

/-- Two `int` values with the same bits are equal. -/
theorem int_eq_of_testBit_eq (x y : Int) (h : ∀ i, Int.testBit x i = Int.testBit y i) :
    x = y := by
  cases x with
  | ofNat m =>
    cases y with
    | ofNat n =>
      congr 1
      exact Nat.eq_of_testBit_eq h
    | negSucc n =>
      exfalso
      have h1 := h (m + n)
      have hm : m.testBit (m + n) = false :=
        Nat.testBit_lt_two_pow (lt_of_le_of_lt (Nat.le_add_right m n) (Nat.lt_two_pow _))
      have hn : n.testBit (m + n) = false :=
        Nat.testBit_lt_two_pow (lt_of_le_of_lt (Nat.le_add_left n m) (Nat.lt_two_pow _))
      simp [Int.testBit, hm, hn] at h1
  | negSucc m =>
    cases y with
    | ofNat n =>
      exfalso
      have h1 := h (m + n)
      have hm : m.testBit (m + n) = false :=
        Nat.testBit_lt_two_pow (lt_of_le_of_lt (Nat.le_add_right m n) (Nat.lt_two_pow _))
      have hn : n.testBit (m + n) = false :=
        Nat.testBit_lt_two_pow (lt_of_le_of_lt (Nat.le_add_left n m) (Nat.lt_two_pow _))
      simp [Int.testBit, hm, hn] at h1
    | negSucc n =>
      congr 1
      apply Nat.eq_of_testBit_eq
      intro i
      have h1 := h i
      simp only [Int.testBit] at h1
      cases hm : m.testBit i <;> cases hn : n.testBit i <;> simp_all

theorem int_testBit_zero (i : Nat) : Int.testBit 0 i = false := by
  show Nat.testBit 0 i = false
  exact Nat.zero_testBit i

theorem int_testBit_natCast (n i : Nat) : Int.testBit (n : Int) i = n.testBit i := rfl


theorem int_testBit_one (i : Nat) : Int.testBit 1 i = decide (i = 0) := by
  show Nat.testBit 1 i = decide (i = 0)
  cases i with
  | zero => rfl
  | succ k => simp [Nat.testBit_succ]

/-- The value `(r & ~1) | e` for `e` 0 or 1: bit 0 is `e`, the others are those of `r`. -/
theorem int_set_bit_zero (r e : Int) (he : e = 0 ∨ e = 1) (i : Nat) :
    Int.testBit (Int.lor (Int.land r (~~~1)) e) i
      = if i = 0 then decide (e = 1) else Int.testBit r i := by
  rw [Int.testBit_lor, Int.testBit_land, int_testBit_not, int_testBit_one]
  rcases he with rfl | rfl
  · rw [int_testBit_zero]
    by_cases hi : i = 0 <;> simp [hi]
  · rw [int_testBit_one]
    by_cases hi : i = 0 <;> simp [hi]

theorem power_ctrl_vconn_one : TCPC_REG_POWER_CTRL_VCONN 1 = 1 := by decide

theorem power_ctrl_vconn_enable (e : Int) (he : e = 0 ∨ e = 1) :
    TCPC_REG_POWER_CTRL_VCONN e = e := by
  rcases he with rfl | rfl <;> decide

/-- The value that `tcpci_tcpm_set_vconn` writes when it read `r`. -/
theorem set_vconn_value (r e : Int) (he : e = 0 ∨ e = 1) :
    Int.lor (Int.land r (~~~(TCPC_REG_POWER_CTRL_VCONN 1))) (TCPC_REG_POWER_CTRL_VCONN e)
      = Int.lor (Int.land r (~~~1)) e := by
  rw [power_ctrl_vconn_one, power_ctrl_vconn_enable e he]

/-- C27: `tcpci_tcpm_set_vconn` with `enable` 0 or 1.  When the read of
POWER_CONTROL succeeds with value `r`, it makes exactly that read and one write
to POWER_CONTROL; every bit of the value written other than bit 0 (VCONN
enable) is that of `r`, its VCONN field equals `enable`, its status is that of
the write, and a call that reads back the value written writes the same value
again.  When the read fails, the read is the only call and its status is
returned. -/
theorem tcpci_tcpm_set_vconn_read_modify_write (b : Board) (port : Nat) (enable : Int)
    (w : World) (henable : enable = 0 ∨ enable = 1) :
    ((w.i2c 0).rv = 0 →
      ∃ v : Int,
        w.since (tcpci_tcpm_set_vconn b port enable w).2
          = [Event.i2c_read8 (b.tcpc_config port).i2c_host_port
               (b.tcpc_config port).i2c_slave_addr TCPC_REG_POWER_CTRL,
             Event.i2c_write8 (b.tcpc_config port).i2c_host_port
               (b.tcpc_config port).i2c_slave_addr TCPC_REG_POWER_CTRL v] ∧
        (tcpci_tcpm_set_vconn b port enable w).1 = (w.i2c 1).rv ∧
        (∀ i, i ≠ 0 → Int.testBit v i = Int.testBit (w.i2c 0).val i) ∧
        TCPC_REG_POWER_CTRL_VCONN v = enable ∧
        (∀ w2 : World, (w2.i2c 0).rv = 0 → (w2.i2c 0).val = v →
          w2.since (tcpci_tcpm_set_vconn b port enable w2).2
            = [Event.i2c_read8 (b.tcpc_config port).i2c_host_port
                 (b.tcpc_config port).i2c_slave_addr TCPC_REG_POWER_CTRL,
               Event.i2c_write8 (b.tcpc_config port).i2c_host_port
                 (b.tcpc_config port).i2c_slave_addr TCPC_REG_POWER_CTRL v])) ∧
    ((w.i2c 0).rv ≠ 0 →
      w.since (tcpci_tcpm_set_vconn b port enable w).2
        = [Event.i2c_read8 (b.tcpc_config port).i2c_host_port
             (b.tcpc_config port).i2c_slave_addr TCPC_REG_POWER_CTRL] ∧
      (tcpci_tcpm_set_vconn b port enable w).1 = (w.i2c 0).rv) := by
  have hrun : ∀ w2 : World, (w2.i2c 0).rv = 0 →
      w2.since (tcpci_tcpm_set_vconn b port enable w2).2
        = [Event.i2c_read8 (b.tcpc_config port).i2c_host_port
             (b.tcpc_config port).i2c_slave_addr TCPC_REG_POWER_CTRL,
           Event.i2c_write8 (b.tcpc_config port).i2c_host_port
             (b.tcpc_config port).i2c_slave_addr TCPC_REG_POWER_CTRL
             (Int.lor (Int.land (w2.i2c 0).val (~~~1)) enable)] ∧
      (tcpci_tcpm_set_vconn b port enable w2).1 = (w2.i2c 1).rv := by
    intro w2 h0
    have hv := set_vconn_value (w2.i2c 0).val enable henable
    simp [tcpci_tcpm_set_vconn, tcpc_read, tcpc_write, World.transact, World.since, h0, hv]
  have hbits := int_set_bit_zero (w.i2c 0).val enable henable
  have hfix : Int.lor (Int.land (Int.lor (Int.land (w.i2c 0).val (~~~1)) enable) (~~~1)) enable
      = Int.lor (Int.land (w.i2c 0).val (~~~1)) enable := by
    apply int_eq_of_testBit_eq
    intro i
    rw [int_set_bit_zero _ enable henable i, hbits i]
    by_cases hi : i = 0 <;> simp [hi]
  constructor
  · intro h0
    refine ⟨Int.lor (Int.land (w.i2c 0).val (~~~1)) enable, (hrun w h0).1, (hrun w h0).2,
      ?_, ?_, ?_⟩
    · intro i hi
      rw [hbits i, if_neg hi]
    · show Int.land _ 1 = enable
      apply int_eq_of_testBit_eq
      intro i
      rw [Int.testBit_land, hbits i, int_testBit_one]
      rcases henable with rfl | rfl
      · rw [int_testBit_zero]
        by_cases hi : i = 0 <;> simp [hi]
      · rw [int_testBit_one]
        by_cases hi : i = 0 <;> simp [hi]
    · intro w2 h20 h2v
      have := (hrun w2 h20).1
      rw [h2v, hfix] at this
      exact this
  · intro h0
    simp [tcpci_tcpm_set_vconn, tcpc_read, World.transact, World.since, h0]

/-- C27 (witness): port 0 of the example board, `enable` = 1, on a bus whose
reads succeed with 0x10. -/
theorem tcpci_tcpm_set_vconn_read_modify_write_witness :
    ∃ v : Int,
      (const_world (read_ok 0x10)).since
          (tcpci_tcpm_set_vconn demo_board 0 1 (const_world (read_ok 0x10))).2
        = [Event.i2c_read8 (demo_board.tcpc_config 0).i2c_host_port
             (demo_board.tcpc_config 0).i2c_slave_addr TCPC_REG_POWER_CTRL,
           Event.i2c_write8 (demo_board.tcpc_config 0).i2c_host_port
             (demo_board.tcpc_config 0).i2c_slave_addr TCPC_REG_POWER_CTRL v] ∧
      (tcpci_tcpm_set_vconn demo_board 0 1 (const_world (read_ok 0x10))).1
        = ((const_world (read_ok 0x10)).i2c 1).rv ∧
      (∀ i, i ≠ 0 → Int.testBit v i = Int.testBit ((const_world (read_ok 0x10)).i2c 0).val i) ∧
      TCPC_REG_POWER_CTRL_VCONN v = 1 ∧
      (∀ w2 : World, (w2.i2c 0).rv = 0 → (w2.i2c 0).val = v →
        w2.since (tcpci_tcpm_set_vconn demo_board 0 1 w2).2
          = [Event.i2c_read8 (demo_board.tcpc_config 0).i2c_host_port
               (demo_board.tcpc_config 0).i2c_slave_addr TCPC_REG_POWER_CTRL,
             Event.i2c_write8 (demo_board.tcpc_config 0).i2c_host_port
               (demo_board.tcpc_config 0).i2c_slave_addr TCPC_REG_POWER_CTRL v]) :=
  (tcpci_tcpm_set_vconn_read_modify_write demo_board 0 1 (const_world (read_ok 0x10))
    (Or.inr rfl)).1 (by decide)

theorem alert_rx_status_eq : TCPC_REG_ALERT_RX_STATUS = ((4 : Nat) : Int) := by decide

theorem int_testBit_four (i : Nat) : Int.testBit ((4 : Nat) : Int) i = decide (i = 2) := by
  show Nat.testBit 4 i = decide (i = 2)
  have h : (2 ^ 2).testBit i = decide (2 = i) := Nat.testBit_two_pow
  have h4 : (2 : Nat) ^ 2 = 4 := by norm_num
  rw [h4] at h
  rw [h]
  by_cases hi : i = 2
  · subst hi; rfl
  · have hi2 : ¬ 2 = i := fun h => hi h.symm
    simp [hi, hi2]

/-- The bits of `status & ~TCPC_REG_ALERT_RX_STATUS`: bit 2 is clear and the
others are those of `status`. -/
theorem alert_without_rx_status_bits (status : Int) (i : Nat) :
    Int.testBit (Int.land status (~~~TCPC_REG_ALERT_RX_STATUS)) i
      = (decide (i ≠ 2) && Int.testBit status i) := by
  rw [Int.testBit_land, int_testBit_not, alert_rx_status_eq, int_testBit_four]
  by_cases hi : i = 2 <;> simp [hi]

theorem alert_without_rx_status_eq_zero (status : Int) :
    Int.land status (~~~TCPC_REG_ALERT_RX_STATUS) = 0
      ↔ ∀ i, i ≠ 2 → Int.testBit status i = false := by
  constructor
  · intro h i hi
    have hb := alert_without_rx_status_bits status i
    rw [h, int_testBit_zero] at hb
    simpa [hi] using hb.symm
  · intro h
    apply int_eq_of_testBit_eq
    intro i
    rw [alert_without_rx_status_bits, int_testBit_zero]
    by_cases hi : i = 2
    · simp [hi]
    · simp [hi, h i hi]

theorem power_status_call_not_write (port : Nat) (task : Int) (reg : Int) (e : Event)
    (h : e.power_status_call port task) : Event.writes_reg reg e = false := by
  cases e <;> simp_all [Event.power_status_call, Event.writes_reg]

/-- The writes to the ALERT register among the calls of `tcpci_tcpc_alert`. -/
theorem alert_writes_to_alert (b : Board) (port : Nat) (w : World) :
    (w.since (tcpci_tcpc_alert b port w)).filter (Event.writes_reg TCPC_REG_ALERT)
      = (if Int.land (w.i2c 0).val (~~~TCPC_REG_ALERT_RX_STATUS) ≠ 0 then
          [Event.i2c_write16 (b.tcpc_config port).i2c_host_port
            (b.tcpc_config port).i2c_slave_addr TCPC_REG_ALERT
            (Int.land (w.i2c 0).val (~~~TCPC_REG_ALERT_RX_STATUS))] else []) := by
  obtain ⟨pevs, htrace, hpevs, _⟩ := tcpci_tcpc_alert_trace b port w
  rw [since_of_trace_eq w _ _ htrace]
  have hp : pevs.filter (Event.writes_reg TCPC_REG_ALERT) = [] := by
    rw [List.filter_eq_nil_iff]
    intro e he
    rw [power_status_call_not_write port _ _ e (hpevs e he)]
    simp
  simp only [List.filter_append, hp, List.append_nil]
  split_ifs <;> simp [List.filter, Event.writes_reg, alert_read]

/-- C24: for every alert status that `tcpci_tcpc_alert` reads, its writes to
the ALERT register are: none when the status without the RX_STATUS bit is zero,
and otherwise the single write of the status without the RX_STATUS bit.  That
value has bit 2 (RX_STATUS) clear and every other bit as in the status, and it
is zero exactly when no bit of the status other than RX_STATUS is set. -/
theorem tcpci_tcpc_alert_never_clears_rx_status (b : Board) (port : Nat) (w : World) :
    (w.since (tcpci_tcpc_alert b port w)).filter (Event.writes_reg TCPC_REG_ALERT)
      = (if Int.land (w.i2c 0).val (~~~TCPC_REG_ALERT_RX_STATUS) ≠ 0 then
          [Event.i2c_write16 (b.tcpc_config port).i2c_host_port
            (b.tcpc_config port).i2c_slave_addr TCPC_REG_ALERT
            (Int.land (w.i2c 0).val (~~~TCPC_REG_ALERT_RX_STATUS))] else []) ∧
    (∀ i, Int.testBit (Int.land (w.i2c 0).val (~~~TCPC_REG_ALERT_RX_STATUS)) i
      = (decide (i ≠ 2) && Int.testBit (w.i2c 0).val i)) ∧
    Int.land (Int.land (w.i2c 0).val (~~~TCPC_REG_ALERT_RX_STATUS)) TCPC_REG_ALERT_RX_STATUS
      = 0 ∧
    ((∀ i, i ≠ 2 → Int.testBit (w.i2c 0).val i = false) ↔
      (w.since (tcpci_tcpc_alert b port w)).filter (Event.writes_reg TCPC_REG_ALERT) = []) := by
  refine ⟨alert_writes_to_alert b port w, alert_without_rx_status_bits _, ?_, ?_⟩
  · apply int_eq_of_testBit_eq
    intro i
    rw [Int.testBit_land, alert_without_rx_status_bits, alert_rx_status_eq, int_testBit_four,
      int_testBit_zero]
    by_cases hi : i = 2 <;> simp [hi]
  · rw [alert_writes_to_alert, ← alert_without_rx_status_eq_zero]
    by_cases h : Int.land (w.i2c 0).val (~~~TCPC_REG_ALERT_RX_STATUS) = 0 <;> simp [h]

theorem int_testBit_two (i : Nat) : Int.testBit ((2 : Nat) : Int) i = decide (i = 1) := by
  show Nat.testBit 2 i = decide (i = 1)
  have h : (2 ^ 1).testBit i = decide (1 = i) := Nat.testBit_two_pow
  have h2 : (2 : Nat) ^ 1 = 2 := by norm_num
  rw [h2] at h
  rw [h]
  by_cases hi : i = 1
  · subst hi; rfl
  · have hi2 : ¬ 1 = i := fun h => hi h.symm
    simp [hi, hi2]

theorem alert_power_status_eq : TCPC_REG_ALERT_POWER_STATUS = ((2 : Nat) : Int) := by decide

/-- A status with the POWER_STATUS bit set is not zero once RX_STATUS is
removed, so the alert handler writes it back. -/
theorem alert_power_status_written (status : Int)
    (h : Int.land status TCPC_REG_ALERT_POWER_STATUS ≠ 0) :
    Int.land status (~~~TCPC_REG_ALERT_RX_STATUS) ≠ 0 := by
  intro h0
  apply h
  apply int_eq_of_testBit_eq
  intro i
  rw [Int.testBit_land, alert_power_status_eq, int_testBit_two, int_testBit_zero]
  by_cases hi : i = 1
  · have := (alert_without_rx_status_eq_zero status).mp h0 1 (by decide)
    simp [hi, this]
  · simp [hi]

theorem vbus_ite_emit (c : Prop) [Decidable c] (w : World) (e : Event) :
    (if c then w.emit e else w).tcpc_vbus = w.tcpc_vbus := by
  split_ifs <;> simp [World.emit]

theorem i2c_ite_emit (c : Prop) [Decidable c] (w : World) (e : Event) :
    (if c then w.emit e else w).i2c = w.i2c := by
  split_ifs <;> simp [World.emit]

theorem vbus_ite_emit_two (c : Prop) [Decidable c] (w : World) (e1 e2 : Event) :
    (if c then (w.emit e1).emit e2 else w).tcpc_vbus = w.tcpc_vbus := by
  split_ifs <;> simp [World.emit]

theorem vbus_ite_write16 (c : Prop) [Decidable c] (b : Board) (port : Nat) (reg val : Int)
    (w : World) :
    (if c then (tcpc_write16 b port reg val w).2 else w).tcpc_vbus = w.tcpc_vbus := by
  split_ifs <;> simp [tcpc_write16, World.transact]

/-- The cached VBUS levels after the power-status branch of the alert handler. -/
theorem power_status_branch_vbus (b : Board) (port : Nat) (w : World) :
    (tcpci_tcpc_alert_power_status b port w).tcpc_vbus
      = if (w.i2c 0).val = TCPC_REG_POWER_STATUS_MASK_ALL then w.tcpc_vbus
        else fun p => if p = port then
            (if Int.land (w.i2c 1).val TCPC_REG_POWER_STATUS_VBUS_PRES ≠ 0 then 1 else 0)
          else w.tcpc_vbus p := by
  unfold tcpci_tcpc_alert_power_status
  simp only [tcpc_read, tcpci_tcpm_get_power_status, World.transact, World.emit]
  split_ifs <;> rfl

/-- The cached VBUS levels after `tcpci_tcpc_alert`: the ALERT read is the
first transaction, the ALERT write the second, the read of the power-status
mask the third and the read of POWER_STATUS the fourth. -/
theorem alert_vbus (b : Board) (port : Nat) (w : World) :
    (tcpci_tcpc_alert b port w).tcpc_vbus
      = if Int.land (w.i2c 0).val TCPC_REG_ALERT_POWER_STATUS ≠ 0 then
          (if (w.i2c 2).val = TCPC_REG_POWER_STATUS_MASK_ALL then w.tcpc_vbus
           else fun p => if p = port then
               (if Int.land (w.i2c 3).val TCPC_REG_POWER_STATUS_VBUS_PRES ≠ 0 then 1 else 0)
             else w.tcpc_vbus p)
        else w.tcpc_vbus := by
  have hstatus : (tcpm_alert_status b port w).2.1 = (w.i2c 0).val := rfl
  have hvbus : (tcpm_alert_status b port w).2.2.tcpc_vbus = w.tcpc_vbus := rfl
  have hi2c : (tcpm_alert_status b port w).2.2.i2c = fun n => w.i2c (n + 1) := rfl
  unfold tcpci_tcpc_alert
  simp only [hstatus]
  rw [vbus_ite_emit, vbus_ite_emit_two, vbus_ite_emit]
  by_cases hps : Int.land (w.i2c 0).val TCPC_REG_ALERT_POWER_STATUS ≠ 0
  · rw [if_pos hps, if_pos hps, power_status_branch_vbus, i2c_ite_emit, vbus_ite_emit,
      if_pos (alert_power_status_written _ hps)]
    simp only [tcpc_write16, World.transact, hi2c, hvbus]
  · rw [if_neg hps, if_neg hps, vbus_ite_emit, vbus_ite_write16, hvbus]

/-- The task event of the power-status branch when the mask reads MASK_ALL. -/
theorem alert_power_status_reset (b : Board) (port : Nat) (w : World)
    (h : (w.i2c 0).val = TCPC_REG_POWER_STATUS_MASK_ALL) :
    w.since (tcpci_tcpc_alert_power_status b port w)
      = [Event.i2c_read8 (b.tcpc_config port).i2c_host_port
           (b.tcpc_config port).i2c_slave_addr TCPC_REG_POWER_STATUS_MASK,
         Event.task_set_event (b.PD_PORT_TO_TASK_ID port) PdEvent.PD_EVENT_TCPC_RESET 0] := by
  unfold tcpci_tcpc_alert_power_status
  simp [tcpc_read, World.transact, World.emit, World.since, h]

/-- The calls of `tcpci_tcpc_alert` when the POWER_STATUS bit is set and the
mask register reads MASK_ALL include the TCPC reset event for the port's task. -/
theorem alert_reset_event (b : Board) (port : Nat) (w : World)
    (hps : Int.land (w.i2c 0).val TCPC_REG_ALERT_POWER_STATUS ≠ 0)
    (hmask : (w.i2c 2).val = TCPC_REG_POWER_STATUS_MASK_ALL) :
    Event.task_set_event (b.PD_PORT_TO_TASK_ID port) PdEvent.PD_EVENT_TCPC_RESET 0
      ∈ w.since (tcpci_tcpc_alert b port w) := by
  have hstatus : (tcpm_alert_status b port w).2.1 = (w.i2c 0).val := rfl
  have hread : (tcpm_alert_status b port w).2.2.trace = w.trace ++ [alert_read b port] := rfl
  have hi2c : (tcpm_alert_status b port w).2.2.i2c = fun n => w.i2c (n + 1) := rfl
  have htrace : ∃ evs, (tcpci_tcpc_alert b port w).trace = w.trace ++ evs ∧
      Event.task_set_event (b.PD_PORT_TO_TASK_ID port) PdEvent.PD_EVENT_TCPC_RESET 0 ∈ evs := by
    unfold tcpci_tcpc_alert
    simp only [hstatus]
    rw [trace_ite_emit, trace_ite_emit_two, trace_ite_emit, trace_ite_power_status,
      trace_ite_emit, trace_ite_write16, hread, if_pos hps, alert_power_status_reset]
    · apply Exists.intro
      refine ⟨?h1, ?h2⟩
      case h1 =>
        simp only [List.append_assoc]
        rfl
      case h2 => simp
    · rw [i2c_ite_emit, if_pos (alert_power_status_written _ hps)]
      simpa [tcpc_write16, World.transact, hi2c] using hmask
  obtain ⟨evs, h, hmem⟩ := htrace
  rw [since_of_trace_eq w _ _ h]
  exact hmem

/-- C25: the power-status part of `tcpci_tcpc_alert`, where the ALERT read is
the first I2C transaction, the read of the power-status mask the third and the
read of POWER_STATUS the fourth.  With the POWER_STATUS alert bit set and the
mask reading TCPC_REG_POWER_STATUS_MASK_ALL, the handler raises
PD_EVENT_TCPC_RESET for the port's task and every cached VBUS level stays; with
the bit set and any other mask value, the level that
`tcpci_tcpm_get_vbus_level` returns for the port is 1 if the VBUS_PRES bit of
the POWER_STATUS value is set and 0 otherwise; the level of every other port
always stays; and with the bit clear every level stays. -/
theorem tcpci_tcpc_alert_power_status_vbus (b : Board) (port : Nat) (w : World) :
    (Int.land (w.i2c 0).val TCPC_REG_ALERT_POWER_STATUS ≠ 0 →
      (w.i2c 2).val = TCPC_REG_POWER_STATUS_MASK_ALL →
        Event.task_set_event (b.PD_PORT_TO_TASK_ID port) PdEvent.PD_EVENT_TCPC_RESET 0
          ∈ w.since (tcpci_tcpc_alert b port w) ∧
        ∀ p, tcpci_tcpm_get_vbus_level p (tcpci_tcpc_alert b port w)
          = tcpci_tcpm_get_vbus_level p w) ∧
    (Int.land (w.i2c 0).val TCPC_REG_ALERT_POWER_STATUS ≠ 0 →
      (w.i2c 2).val ≠ TCPC_REG_POWER_STATUS_MASK_ALL →
        tcpci_tcpm_get_vbus_level port (tcpci_tcpc_alert b port w)
          = if Int.land (w.i2c 3).val TCPC_REG_POWER_STATUS_VBUS_PRES ≠ 0 then 1 else 0) ∧
    (∀ p, p ≠ port →
      tcpci_tcpm_get_vbus_level p (tcpci_tcpc_alert b port w)
        = tcpci_tcpm_get_vbus_level p w) ∧
    (Int.land (w.i2c 0).val TCPC_REG_ALERT_POWER_STATUS = 0 →
      ∀ p, tcpci_tcpm_get_vbus_level p (tcpci_tcpc_alert b port w)
        = tcpci_tcpm_get_vbus_level p w) := by
  have hv := alert_vbus b port w
  refine ⟨?_, ?_, ?_, ?_⟩
  · intro hps hmask
    refine ⟨alert_reset_event b port w hps hmask, fun p => ?_⟩
    show (tcpci_tcpc_alert b port w).tcpc_vbus p = w.tcpc_vbus p
    rw [hv, if_pos hps, if_pos hmask]
  · intro hps hmask
    show (tcpci_tcpc_alert b port w).tcpc_vbus port = _
    rw [hv, if_pos hps, if_neg hmask]
    simp
  · intro p hp
    show (tcpci_tcpc_alert b port w).tcpc_vbus p = w.tcpc_vbus p
    rw [hv]
    split_ifs <;> simp [hp]
  · intro hps p
    show (tcpci_tcpc_alert b port w).tcpc_vbus p = w.tcpc_vbus p
    rw [hv, if_neg (by simpa using hps)]

/-- C25 (witness): port 1 of the example board, with the POWER_STATUS alert
bit set, a mask that reads VBUS_PRES and a POWER_STATUS value with VBUS_PRES
set. -/
theorem tcpci_tcpc_alert_power_status_vbus_witness :
    tcpci_tcpm_get_vbus_level 1 (tcpci_tcpc_alert demo_board 1 power_alert_world)
      = if Int.land (power_alert_world.i2c 3).val TCPC_REG_POWER_STATUS_VBUS_PRES ≠ 0
        then 1 else 0 :=
  (tcpci_tcpc_alert_power_status_vbus demo_board 1 power_alert_world).2.1
    (by decide) (by decide)

/-! ## Theorems: the payload transfer of `tcpci_tcpm_get_message` -/

/-- C28 (counterexample): RX_BYTE_CNT reads 200 on port 0 of the example board.
`tcpci_tcpm_get_message` asks for a transfer of 200 bytes into the payload
buffer and byte 100 of the buffer, beyond the 28 bytes of seven data objects,
is overwritten. -/
theorem tcpci_tcpm_get_message_unbounded_counterexample :
    (tcpci_tcpm_get_message demo_board 0 ramp_payload long_count_world).2.2.2.trace
      = [Event.i2c_read8 0 0x50 TCPC_REG_RX_BYTE_CNT,
         Event.i2c_read16 0 0x50 TCPC_REG_RX_HDR,
         Event.i2c_lock 0 1,
         Event.i2c_xfer 0 0x50 [TCPC_REG_RX_DATA] 200 I2cXferFlags.I2C_XFER_SINGLE,
         Event.i2c_lock 0 0,
         Event.i2c_write16 0 0x50 TCPC_REG_ALERT TCPC_REG_ALERT_RX_STATUS] ∧
    (tcpci_tcpm_get_message demo_board 0 ramp_payload long_count_world).2.1 100 = 0xAA ∧
    ramp_payload 100 = 100 ∧
    (28 : Int) < 200 := by
  decide

/-- C28 (amended): `tcpci_tcpm_get_message`, where the RX_BYTE_CNT read is the
first I2C transaction, the RX_HDR read the second and the payload transfer the
third.  When both reads succeed and the count read is positive, the function
makes exactly one transfer, of as many bytes as the count read, and the payload
buffer holds the bytes of that transfer below the count and is unchanged from
the count on (so nothing from offset 28 on changes when the count is at most
28).  When a read failed or the count is not positive, it makes no transfer and
the payload buffer is unchanged. -/
theorem tcpci_tcpm_get_message_transfers_byte_count (b : Board) (port : Nat)
    (payload : Nat → Int) (w : World) :
    ((w.i2c 0).rv = EC_SUCCESS ∧ (w.i2c 1).rv = EC_SUCCESS ∧ (w.i2c 0).val > 0 →
      (w.since (tcpci_tcpm_get_message b port payload w).2.2.2).filter Event.is_xfer
        = [Event.i2c_xfer (b.tcpc_config port).i2c_host_port
             (b.tcpc_config port).i2c_slave_addr [TCPC_REG_RX_DATA] (w.i2c 0).val
             I2cXferFlags.I2C_XFER_SINGLE] ∧
      (∀ i : Nat, (i : Int) < (w.i2c 0).val →
        (tcpci_tcpm_get_message b port payload w).2.1 i = (w.i2c 2).data i) ∧
      (∀ i : Nat, (w.i2c 0).val ≤ (i : Int) →
        (tcpci_tcpm_get_message b port payload w).2.1 i = payload i) ∧
      ((w.i2c 0).val ≤ 28 → ∀ i : Nat, 28 ≤ i →
        (tcpci_tcpm_get_message b port payload w).2.1 i = payload i)) ∧
    ((w.i2c 0).rv ≠ EC_SUCCESS ∨ (w.i2c 1).rv ≠ EC_SUCCESS ∨ (w.i2c 0).val ≤ 0 →
      (w.since (tcpci_tcpm_get_message b port payload w).2.2.2).filter Event.is_xfer = [] ∧
      (tcpci_tcpm_get_message b port payload w).2.1 = payload) := by
  constructor
  · rintro ⟨h0, h1, hcnt⟩
    have hrv : Int.lor (w.i2c 0).rv (w.i2c 1).rv = EC_SUCCESS := by
      rw [h0, h1]; decide
    have hpay : (tcpci_tcpm_get_message b port payload w).2.1
        = fun i : Nat => if (i : Int) < (w.i2c 0).val then (w.i2c 2).data i else payload i := by
      simp [tcpci_tcpm_get_message, tcpc_read, tcpc_read16, tcpc_xfer, tcpc_lock,
        World.transact, World.emit, hrv, hcnt]
    refine ⟨?_, ?_, ?_, ?_⟩
    · simp [tcpci_tcpm_get_message, tcpc_read, tcpc_read16, tcpc_xfer, tcpc_lock, tcpc_write16,
        World.transact, World.emit, World.since, hrv, hcnt, Event.is_xfer, List.filter]
    · intro i hi
      rw [hpay]
      simp [hi]
    · intro i hi
      rw [hpay]
      simp [not_lt.mpr hi]
    · intro h28 i hi
      rw [hpay]
      have : ¬ ((i : Int) < (w.i2c 0).val) := by omega
      simp [this]
  · intro h
    have hcond : ¬ (Int.lor (w.i2c 0).rv (w.i2c 1).rv = EC_SUCCESS ∧ (w.i2c 0).val > 0) := by
      rintro ⟨hrv, hcnt⟩
      have := (int_lor_eq_zero _ _).mp hrv
      rcases h with h | h | h
      · exact h this.1
      · exact h this.2
      · omega
    constructor
    · simp [tcpci_tcpm_get_message, tcpc_read, tcpc_read16, tcpc_write16,
        World.transact, World.since, hcond, Event.is_xfer, List.filter]
    · simp [tcpci_tcpm_get_message, tcpc_read, tcpc_read16, World.transact, hcond]

/-- C28 (witness): a count of 8 on port 0 of the example board, with a
transfer that returns bytes 0xAA. -/
theorem tcpci_tcpm_get_message_transfers_byte_count_witness :
    (((list_world [read_ok 8, read_ok 0, xfer_ok 0xAA] (read_ok 0)).since (tcpci_tcpm_get_message demo_board 0 ramp_payload
        (list_world [read_ok 8, read_ok 0, xfer_ok 0xAA] (read_ok 0))).2.2.2).filter
          Event.is_xfer
        = [Event.i2c_xfer (demo_board.tcpc_config 0).i2c_host_port
             (demo_board.tcpc_config 0).i2c_slave_addr [TCPC_REG_RX_DATA]
             ((list_world [read_ok 8, read_ok 0, xfer_ok 0xAA] (read_ok 0)).i2c 0).val
             I2cXferFlags.I2C_XFER_SINGLE]) :=
  ((tcpci_tcpm_get_message_transfers_byte_count demo_board 0 ramp_payload
    (list_world [read_ok 8, read_ok 0, xfer_ok 0xAA] (read_ok 0))).1
      ⟨by decide, by decide, by decide⟩).1

/-! ## Theorems: the CC voltage mock of `test/usb_pd.c` -/

/-- The values of `pd_adc_read` by pairing: a source facing a sink, a sink
facing a source, and every other pairing. -/
theorem pd_adc_read_pairings (pd_port : Nat → pd_port_t) (port : Nat) (cc : Int) :
    ((pd_port port).host_mode ≠ 0 → (pd_port port).partner_role = PD_ROLE_SINK →
      pd_adc_read pd_port port cc
        = if (pd_port port).partner_polarity = cc then 400 else 3000) ∧
    ((pd_port port).host_mode = 0 → (pd_port port).partner_role = PD_ROLE_SOURCE →
      pd_adc_read pd_port port cc
        = if (pd_port port).partner_polarity = cc then 1700 else 0) ∧
    ((pd_port port).host_mode ≠ 0 → (pd_port port).partner_role ≠ PD_ROLE_SINK →
      pd_adc_read pd_port port cc = 0) ∧
    ((pd_port port).host_mode = 0 → (pd_port port).partner_role ≠ PD_ROLE_SOURCE →
      pd_adc_read pd_port port cc = 0) := by
  refine ⟨?_, ?_, ?_, ?_⟩ <;> intro h1 h2 <;> simp [pd_adc_read, h1, h2]

/-- C26 (the code at the failing input): with `host_mode` set and a partner in
the source role, `pd_adc_read` returns 0 on both CC lines, while the branch
commented "both sources" returns 3000. -/
theorem pd_adc_read_both_sources :
    (both_sources_ports 0).host_mode ≠ 0 ∧
    (both_sources_ports 0).partner_role = PD_ROLE_SOURCE ∧
    pd_adc_read both_sources_ports 0 0 = 0 ∧
    pd_adc_read both_sources_ports 0 1 = 0 := by
  decide

/-! ## Theorems: `charge_request` -/

theorem charger_calls_append (l1 l2 : List ChargeEvent) :
    charger_calls (l1 ++ l2) = charger_calls l1 ++ charger_calls l2 := by
  induction l1 with
  | nil => rfl
  | cons e es ih => cases e <;> simp [charger_calls, ih]

theorem problem_trace (p : problem_type) (v : Int) (w : ChargeWorld) :
    ∃ evs, (problem p v w).trace = w.trace ++ evs ∧ charger_calls evs = [] ∧
      (problem p v w).charger = w.charger := by
  unfold problem
  by_cases h : w.last_prob_val p ≠ v
  · refine ⟨[ChargeEvent.get_time, ChargeEvent.cprints_problem p (w.last_prob_val p) v
      ((w.clock 0 % 2 ^ 64 + 2 ^ 64 - w.last_prob_time p % 2 ^ 64) % 2 ^ 64)], ?_, rfl, ?_⟩
    · simp [h, ChargeWorld.emit]
    · simp [h, ChargeWorld.emit]
  · refine ⟨[], ?_, rfl, ?_⟩
    · simp [h]
    · simp [h]

/-- C23 (the code at the failing input): with both arguments -1, whatever
the value of CHARGE_FLAG_INHIBIT_CHARGE, `charge_request` makes one call of the
charger driver, `charger_set_mode(CHARGE_FLAG_INHIBIT_CHARGE)`: neither setting
is written and the inhibit mode is set, not cleared. -/
theorem charge_request_both_negative (CHARGE_FLAG_INHIBIT_CHARGE : Int) :
    charger_calls (charge_request CHARGE_FLAG_INHIBIT_CHARGE (-1) (-1) charge_world).2.trace
      = [ChargeEvent.charger_set_mode CHARGE_FLAG_INHIBIT_CHARGE] ∧
    (charge_request CHARGE_FLAG_INHIBIT_CHARGE (-1) (-1) charge_world).1 = EC_SUCCESS := by
  constructor
  · simp [charge_request, charge_world, ChargeWorld.charger_call, ChargeWorld.emit,
      charger_calls, EC_SUCCESS]
  · simp [charge_request, charge_world, ChargeWorld.charger_call, EC_SUCCESS]

/-- The calls of the charger driver for three other requests: a zero argument
writes both settings as 0 and sets the inhibit mode; two positive arguments
write both settings and clear it; a negative current is not written. -/
theorem charge_request_examples (CHARGE_FLAG_INHIBIT_CHARGE : Int) :
    charger_calls (charge_request CHARGE_FLAG_INHIBIT_CHARGE 0 500 charge_world).2.trace
      = [ChargeEvent.charger_set_current 0, ChargeEvent.charger_set_voltage 0,
         ChargeEvent.charger_set_mode CHARGE_FLAG_INHIBIT_CHARGE] ∧
    charger_calls (charge_request CHARGE_FLAG_INHIBIT_CHARGE 8000 500 charge_world).2.trace
      = [ChargeEvent.charger_set_current 500, ChargeEvent.charger_set_voltage 8000,
         ChargeEvent.charger_set_mode 0] ∧
    charger_calls (charge_request CHARGE_FLAG_INHIBIT_CHARGE 8000 (-1) charge_world).2.trace
      = [ChargeEvent.charger_set_voltage 8000, ChargeEvent.charger_set_mode 0] := by
  refine ⟨?_, ?_, ?_⟩ <;>
    simp [charge_request, charge_world, ChargeWorld.charger_call, ChargeWorld.emit,
      charger_calls, EC_SUCCESS]

/-! ## Theorems: `mkbp_get_next_event` -/

theorem event_is_set_iff (events t : Nat) (ht : t < 32) :
    event_is_set events t ≠ 0 ↔ events.testBit t = true := by
  have h256 : t % 256 = t := Nat.mod_eq_of_lt (by omega)
  unfold event_is_set
  rw [h256, Nat.one_shiftLeft, Nat.and_two_pow]
  cases h : events.testBit t
  · simp
  · simp

theorem clear_event_testBit (events evt t : Nat) (hevt : evt < 32) (ht : t < 32) :
    (clear_event events evt).testBit t = (events.testBit t && decide (t ≠ evt)) := by
  have h256 : evt % 256 = evt := Nat.mod_eq_of_lt (by omega)
  unfold clear_event
  rw [h256, Nat.one_shiftLeft, Nat.testBit_and, Nat.testBit_xor, Nat.testBit_two_pow_sub_one,
    Nat.testBit_mod_two_pow, Nat.testBit_two_pow]
  by_cases h : t = evt
  · subst h
    simp [ht]
  · have h' : ¬ evt = t := fun e => h e.symm
    simp [ht, h, h']

theorem set_event_testBit (events evt t : Nat) (hevt : evt < 32) (ht : t < 32) :
    (set_event events evt).testBit t = (events.testBit t || decide (t = evt)) := by
  have h256 : evt % 256 = evt := Nat.mod_eq_of_lt (by omega)
  unfold set_event
  rw [h256, Nat.one_shiftLeft, Nat.testBit_mod_two_pow, Nat.testBit_or, Nat.testBit_two_pow]
  by_cases h : t = evt
  · subst h
    simp [ht]
  · have h' : ¬ evt = t := fun e => h e.symm
    simp [ht, h, h']

theorem raise_testBit (events raised t : Nat) (ht : t < 32) :
    ((events ||| raised) % 2 ^ 32).testBit t = (events.testBit t || raised.testBit t) := by
  rw [Nat.testBit_mod_two_pow, Nat.testBit_or]
  simp [ht]

/-- What the `for` loop finds: the first index from `i` on whose event type
is pending, or the bound when there is none. -/
theorem next_event_index_spec (N events last : Nat) :
    ∀ k i, i ≤ next_event_index N events last k i ∧
      next_event_index N events last k i ≤ i + k ∧
      (next_event_index N events last k i < i + k →
        event_is_set events ((last + next_event_index N events last k i) % N) ≠ 0) ∧
      ∀ j, i ≤ j → j < next_event_index N events last k i →
        event_is_set events ((last + j) % N) = 0 := by
  intro k
  induction k with
  | zero =>
    intro i
    simp [next_event_index]
    intro j h1 h2
    omega
  | succ k ih =>
    intro i
    unfold next_event_index
    by_cases h : event_is_set events ((last + i) % N) ≠ 0
    · rw [if_pos h]
      refine ⟨le_refl _, by omega, fun _ => h, ?_⟩
      intro j h1 h2
      omega
    · rw [if_neg h]
      obtain ⟨h1, h2, h3, h4⟩ := ih (i + 1)
      refine ⟨by omega, by omega, ?_, ?_⟩
      · intro hlt
        exact h3 (by omega)
      · intro j hj1 hj2
        by_cases hji : j = i
        · subst hji
          simpa using h
        · exact h4 j (by omega) hj2

/-- Every event type below the count is met within one turn from `last`. -/
theorem cyclic_reach (N last t : Nat) (ht : t < N) :
    ∃ d, d < N ∧ (last + d) % N = t := by
  have hN : 0 < N := by omega
  have hm : last % N < N := Nat.mod_lt _ hN
  refine ⟨(t + N - last % N) % N, Nat.mod_lt _ hN, ?_⟩
  have hsum : last % N + (t + N - last % N) = t + N := by omega
  calc (last + (t + N - last % N) % N) % N
      = (last % N + (t + N - last % N) % N % N) % N := Nat.add_mod _ _ _
    _ = (last % N % N + (t + N - last % N) % N) % N := by rw [Nat.mod_mod, Nat.mod_mod]
    _ = (last % N + (t + N - last % N)) % N := (Nat.add_mod _ _ _).symm
    _ = t := by rw [hsum, Nat.add_mod_right, Nat.mod_eq_of_lt ht]

/-- The `for` loop ends at the bound exactly when no event type below the
count is pending. -/
theorem next_event_index_eq_count (N events last : Nat) (hN : 0 < N) :
    next_event_index N events last N 0 = N ↔ ∀ t, t < N → event_is_set events t = 0 := by
  obtain ⟨_, h2, h3, h4⟩ := next_event_index_spec N events last N 0
  constructor
  · intro h t ht
    obtain ⟨d, hd, hdt⟩ := cyclic_reach N last t ht
    have := h4 d (Nat.zero_le d) (by omega)
    rwa [hdt] at this
  · intro h
    by_contra hne
    have hlt : next_event_index N events last N 0 < 0 + N := by omega
    exact h3 hlt (h _ (Nat.mod_lt _ hN))

/-- With nothing pending `mkbp_get_next_event` returns EC_RES_UNAVAILABLE at
once and changes nothing. -/
theorem mkbp_get_next_event_idle (N : Nat) (srcs : List mkbp_event_source) (fuel : Nat)
    (w : MkbpWorld) (hN : 0 < N) (h : ∀ t, t < N → event_is_set w.events t = 0) :
    mkbp_get_next_event N srcs fuel w = (some ec_status.EC_RES_UNAVAILABLE, w) := by
  unfold mkbp_get_next_event
  simp only [(next_event_index_eq_count N w.events w.last hN).mpr h, if_true]

/-- One pass of the loop body when an event is pending and the source, if
any, is not busy. -/
theorem mkbp_get_next_event_step (N : Nat) (srcs : List mkbp_event_source) (fuel : Nat)
    (w : MkbpWorld) (hN : 0 < N) (hN32 : N ≤ 32)
    (hi : next_event_index N w.events w.last N 0 ≠ N)
    (hb : (w.get_data 0).data_size ≠ -EC_ERROR_BUSY) :
    (mkbp_get_next_event N srcs fuel w).1 ≠ none ∧
    (mkbp_get_next_event N srcs fuel w).1 ≠ some ec_status.EC_RES_UNAVAILABLE ∧
    (mkbp_get_next_event N srcs fuel w).2.last
      = (next_event_index N w.events w.last N 0 + w.last) % N + 1 ∧
    (∃ c, (mkbp_get_next_event N srcs fuel w).2.get_data = fun n => w.get_data (n + c)) ∧
    (∃ evs, (mkbp_get_next_event N srcs fuel w).2.trace = w.trace ++ evs ∧
      ((∃ s ∈ srcs, s.event_type = (next_event_index N w.events w.last N 0 + w.last) % N) →
        ∃ rest, evs = MkbpEvent.get_data
          ((next_event_index N w.events w.last N 0 + w.last) % N)
          (clear_event w.events ((next_event_index N w.events w.last N 0 + w.last) % N))
            :: rest)) ∧
    (∀ t, t < 32 → t ≠ (next_event_index N w.events w.last N 0 + w.last) % N →
      w.events.testBit t = true →
      (mkbp_get_next_event N srcs fuel w).2.events.testBit t = true) := by
  have hevt : (next_event_index N w.events w.last N 0 + w.last) % N < 32 :=
    lt_of_lt_of_le (Nat.mod_lt _ hN) hN32
  unfold mkbp_get_next_event
  simp only [hi, if_false]
  cases hfind : List.find?
      (fun src => src.event_type == (next_event_index N w.events w.last N 0 + w.last) % N) srcs with
  | none =>
    refine ⟨by simp, by simp, rfl, ⟨0, rfl⟩, ⟨[], by simp, ?_⟩, ?_⟩
    · rintro ⟨s, hs, hst⟩
      have := List.find?_eq_none.mp hfind s hs
      simp [hst] at this
    · intro t ht hne hbit
      simp only []
      rw [clear_event_testBit _ _ _ hevt ht, hbit]
      simp [hne]
  | some src =>
    simp only [hb, if_false]
    by_cases hneg : (w.get_data 0).data_size < 0
    · simp only [hneg, if_true]
      refine ⟨by simp, by simp, trivial, ⟨1, rfl⟩, ⟨_, rfl, fun _ => ⟨[], rfl⟩⟩, ?_⟩
      intro t ht hne hbit
      rw [raise_testBit _ _ _ ht, clear_event_testBit _ _ _ hevt ht, hbit]
      simp [hne]
    · simp only [hneg, if_false]
      refine ⟨by simp, by simp, ?_, ?_, ?_, ?_⟩
      · split_ifs <;> rfl
      · refine ⟨1, ?_⟩
        split_ifs <;> rfl
      · split_ifs
        · exact ⟨_, by simp only [List.append_assoc]; rfl, fun _ => ⟨_, rfl⟩⟩
        · exact ⟨_, rfl, fun _ => ⟨[], rfl⟩⟩
      · intro t ht hne hbit
        have : ((clear_event w.events
            ((next_event_index N w.events w.last N 0 + w.last) % N) |||
              (w.get_data 0).raised) % 2 ^ 32).testBit t = true := by
          rw [raise_testBit _ _ _ ht, clear_event_testBit _ _ _ hevt ht, hbit]
          simp [hne]
        split_ifs <;> exact this

theorem next_event_index_ne_count (N events last t : Nat) (hN : 0 < N) (ht : t < N)
    (hp : event_is_set events t ≠ 0) : next_event_index N events last N 0 ≠ N := by
  intro h
  exact hp ((next_event_index_eq_count N events last hN).mp h t ht)

/-- While an event type below the count is pending, `mkbp_get_next_event`
does not return EC_RES_UNAVAILABLE, however long a source stays busy. -/
theorem mkbp_get_next_event_pending (N : Nat) (srcs : List mkbp_event_source)
    (hN : 0 < N) (hN32 : N ≤ 32) :
    ∀ fuel w, (∃ t, t < N ∧ event_is_set w.events t ≠ 0) →
      (mkbp_get_next_event N srcs fuel w).1 ≠ some ec_status.EC_RES_UNAVAILABLE := by
  intro fuel
  induction fuel with
  | zero =>
    intro w hp
    obtain ⟨t, ht, hpt⟩ := hp
    have hi := next_event_index_ne_count N w.events w.last t hN ht hpt
    by_cases hb : (w.get_data 0).data_size ≠ -EC_ERROR_BUSY
    · exact (mkbp_get_next_event_step N srcs 0 w hN hN32 hi hb).2.1
    · have hb' : (w.get_data 0).data_size = -EC_ERROR_BUSY := not_not.mp hb
      unfold mkbp_get_next_event
      simp only [hi, if_false]
      cases hfind : List.find?
        (fun src => src.event_type == (next_event_index N w.events w.last N 0 + w.last) % N)
        srcs with
      | none => simp
      | some src => simp [hb']
  | succ fuel ih =>
    intro w hp
    obtain ⟨t, ht, hpt⟩ := hp
    have hi := next_event_index_ne_count N w.events w.last t hN ht hpt
    by_cases hb : (w.get_data 0).data_size ≠ -EC_ERROR_BUSY
    · exact (mkbp_get_next_event_step N srcs (fuel + 1) w hN hN32 hi hb).2.1
    · have hb' : (w.get_data 0).data_size = -EC_ERROR_BUSY := not_not.mp hb
      have hevt : (next_event_index N w.events w.last N 0 + w.last) % N < N := Nat.mod_lt _ hN
      unfold mkbp_get_next_event
      simp only [hi, if_false]
      cases hfind : List.find?
        (fun src => src.event_type == (next_event_index N w.events w.last N 0 + w.last) % N)
        srcs with
      | none => simp
      | some src =>
        simp only [hb', if_true]
        apply ih
        refine ⟨_, hevt, ?_⟩
        rw [event_is_set_iff _ _ (by omega)]
        simp only []
        rw [set_event_testBit _ _ _ (by omega) (by omega)]
        simp

theorem mkbp_calls_succ (N : Nat) (srcs : List mkbp_event_source) (fuel k : Nat)
    (raise : Nat → Nat) (w : MkbpWorld) :
    mkbp_calls N srcs fuel (k + 1) raise w
      = mkbp_calls N srcs fuel k (fun n => raise (n + 1))
          { (mkbp_get_next_event N srcs fuel w).2 with
            events := ((mkbp_get_next_event N srcs fuel w).2.events ||| raise 0) % 2 ^ 32 } :=
  rfl

/-- Round robin: a pending event type that sits `d` places after `last` in
cyclic order, and has a source, is serviced by one of the next `d + 1` calls
when no source reports busy. -/
theorem mkbp_calls_service (N : Nat) (srcs : List mkbp_event_source) (fuel : Nat)
    (hN : 0 < N) (hN32 : N ≤ 32) (t : Nat) (ht : t < N)
    (hsrc : ∃ s ∈ srcs, s.event_type = t) :
    ∀ d w raise, (∀ n, (w.get_data n).data_size ≠ -EC_ERROR_BUSY) → d < N →
      (w.last + d) % N = t → w.events.testBit t = true →
      ∃ k, 1 ≤ k ∧ k ≤ d + 1 ∧ ∃ ev pre post,
        (mkbp_calls N srcs fuel k raise w).trace
          = w.trace ++ (pre ++ MkbpEvent.get_data t ev :: post) := by
  intro d
  induction d using Nat.strong_induction_on with
  | _ d ih =>
    intro w raise hbusy hd hdt hbit
    have ht32 : t < 32 := by omega
    have hpt : event_is_set w.events t ≠ 0 := (event_is_set_iff _ _ ht32).mpr hbit
    have hi := next_event_index_ne_count N w.events w.last t hN ht hpt
    obtain ⟨_, hle, _, hmin⟩ := next_event_index_spec N w.events w.last N 0
    have hid : next_event_index N w.events w.last N 0 ≤ d := by
      by_contra hlt
      have := hmin d (Nat.zero_le d) (by omega)
      rw [hdt] at this
      exact hpt this
    obtain ⟨_, _, hlast, ⟨c, hget⟩, ⟨evs, htrace, hfirst⟩, hkeep⟩ :=
      mkbp_get_next_event_step N srcs fuel w hN hN32 hi (hbusy 0)
    by_cases hevt : (next_event_index N w.events w.last N 0 + w.last) % N = t
    · refine ⟨1, le_refl 1, by omega, ?_⟩
      obtain ⟨rest, hrest⟩ := hfirst (by rw [hevt]; exact hsrc)
      refine ⟨clear_event w.events t, [], rest, ?_⟩
      show (mkbp_get_next_event N srcs fuel w).2.trace = _
      rw [htrace, hrest, hevt]
      rfl
    · have hlt : next_event_index N w.events w.last N 0 < d := by
        rcases Nat.lt_or_ge (next_event_index N w.events w.last N 0) d with h | h
        · exact h
        · exfalso
          apply hevt
          have : next_event_index N w.events w.last N 0 = d := by omega
          rw [this, Nat.add_comm]
          exact hdt
      have hd' : d - next_event_index N w.events w.last N 0 - 1 < d := by omega
      have hstep := ih (d - next_event_index N w.events w.last N 0 - 1) hd'
        { (mkbp_get_next_event N srcs fuel w).2 with
          events := ((mkbp_get_next_event N srcs fuel w).2.events ||| raise 0) % 2 ^ 32 }
        (fun n => raise (n + 1))
        (by
          intro n
          show ((mkbp_get_next_event N srcs fuel w).2.get_data n).data_size ≠ _
          rw [hget]
          exact hbusy _)
        (by omega)
        (by
          show ((mkbp_get_next_event N srcs fuel w).2.last
            + (d - next_event_index N w.events w.last N 0 - 1)) % N = t
          rw [hlast]
          have h1 : (next_event_index N w.events w.last N 0 + w.last) % N + 1
              + (d - next_event_index N w.events w.last N 0 - 1)
              = (next_event_index N w.events w.last N 0 + w.last) % N
                + (d - next_event_index N w.events w.last N 0) := by omega
          have h2 : next_event_index N w.events w.last N 0 + w.last
              + (d - next_event_index N w.events w.last N 0) = w.last + d := by omega
          rw [h1, Nat.add_mod, Nat.mod_mod, ← Nat.add_mod, h2]
          exact hdt)
        (by
          show (((mkbp_get_next_event N srcs fuel w).2.events ||| raise 0) % 2 ^ 32).testBit t
            = true
          rw [raise_testBit _ _ _ ht32, hkeep t ht32 (fun h => hevt h.symm) hbit]
          rfl)
      obtain ⟨k, hk1, hk, ev, pre, post, hk_trace⟩ := hstep
      refine ⟨k + 1, by omega, by omega, ev, evs ++ pre, post, ?_⟩
      rw [mkbp_calls_succ, hk_trace]
      show (mkbp_get_next_event N srcs fuel w).2.trace ++ _ = _
      rw [htrace]
      simp only [List.append_assoc]

theorem clear_event_not_set (events evt : Nat) (hevt : evt < 32) :
    event_is_set (clear_event events evt) evt = 0 := by
  by_contra h
  have := (event_is_set_iff _ _ hevt).mp h
  rw [clear_event_testBit _ _ _ hevt hevt] at this
  simp at this

/-- The calls of `mkbp_get_next_event`: every `get_data` call is for an event
type below the count whose bit is clear in `events` at the call, and when an
event is pending and the type found has a source, the first call is the
`get_data` of that type. -/
theorem mkbp_get_next_event_trace (N : Nat) (srcs : List mkbp_event_source)
    (hN : 0 < N) (hN32 : N ≤ 32) :
    ∀ fuel w, ∃ evs, (mkbp_get_next_event N srcs fuel w).2.trace = w.trace ++ evs ∧
      (∀ evt ev, MkbpEvent.get_data evt ev ∈ evs → evt < N ∧ event_is_set ev evt = 0) ∧
      (next_event_index N w.events w.last N 0 ≠ N →
        (∃ s ∈ srcs, s.event_type = (next_event_index N w.events w.last N 0 + w.last) % N) →
        ∃ rest, evs = MkbpEvent.get_data
          ((next_event_index N w.events w.last N 0 + w.last) % N)
          (clear_event w.events ((next_event_index N w.events w.last N 0 + w.last) % N))
            :: rest) := by
  intro fuel
  induction fuel with
  | zero =>
    intro w
    have hevt : (next_event_index N w.events w.last N 0 + w.last) % N < N := Nat.mod_lt _ hN
    have hclr := clear_event_not_set w.events
      ((next_event_index N w.events w.last N 0 + w.last) % N) (by omega)
    have hmem : ∀ evt ev, MkbpEvent.get_data evt ev ∈
        [MkbpEvent.get_data ((next_event_index N w.events w.last N 0 + w.last) % N)
          (clear_event w.events ((next_event_index N w.events w.last N 0 + w.last) % N))] →
        evt < N ∧ event_is_set ev evt = 0 := by
      intro evt ev h
      simp only [List.mem_singleton, MkbpEvent.get_data.injEq] at h
      rw [h.1, h.2]
      exact ⟨hevt, hclr⟩
    unfold mkbp_get_next_event
    by_cases hi : next_event_index N w.events w.last N 0 = N
    · simp only [hi, if_true]
      exact ⟨[], by simp, by simp, fun h => absurd rfl h⟩
    · simp only [hi, if_false]
      cases hfind : List.find?
        (fun src => src.event_type == (next_event_index N w.events w.last N 0 + w.last) % N)
        srcs with
      | none =>
        refine ⟨[], by simp, by simp, ?_⟩
        rintro _ ⟨s, hs, hst⟩
        have := List.find?_eq_none.mp hfind s hs
        simp [hst] at this
      | some src =>
        simp only []
        by_cases hb : (w.get_data 0).data_size = -EC_ERROR_BUSY
        · simp only [hb, if_true]
          exact ⟨_, rfl, hmem, fun _ _ => ⟨[], rfl⟩⟩
        · simp only [hb, if_false]
          by_cases hneg : (w.get_data 0).data_size < 0
          · simp only [hneg, if_true]
            exact ⟨_, rfl, hmem, fun _ _ => ⟨[], rfl⟩⟩
          · simp only [hneg, if_false]
            split_ifs
            · refine ⟨[MkbpEvent.get_data _ _, MkbpEvent.set_host_interrupt 0], by simp, ?_,
                fun _ _ => ⟨_, rfl⟩⟩
              intro evt ev hm
              apply hmem evt ev
              simpa using hm
            · exact ⟨_, rfl, hmem, fun _ _ => ⟨[], rfl⟩⟩
  | succ fuel ih =>
    intro w
    have hevt : (next_event_index N w.events w.last N 0 + w.last) % N < N := Nat.mod_lt _ hN
    have hclr := clear_event_not_set w.events
      ((next_event_index N w.events w.last N 0 + w.last) % N) (by omega)
    have hmem : ∀ evt ev, MkbpEvent.get_data evt ev ∈
        [MkbpEvent.get_data ((next_event_index N w.events w.last N 0 + w.last) % N)
          (clear_event w.events ((next_event_index N w.events w.last N 0 + w.last) % N))] →
        evt < N ∧ event_is_set ev evt = 0 := by
      intro evt ev h
      simp only [List.mem_singleton, MkbpEvent.get_data.injEq] at h
      rw [h.1, h.2]
      exact ⟨hevt, hclr⟩
    unfold mkbp_get_next_event
    by_cases hi : next_event_index N w.events w.last N 0 = N
    · simp only [hi, if_true]
      exact ⟨[], by simp, by simp, fun h => absurd rfl h⟩
    · simp only [hi, if_false]
      cases hfind : List.find?
        (fun src => src.event_type == (next_event_index N w.events w.last N 0 + w.last) % N)
        srcs with
      | none =>
        refine ⟨[], by simp, by simp, ?_⟩
        rintro _ ⟨s, hs, hst⟩
        have := List.find?_eq_none.mp hfind s hs
        simp [hst] at this
      | some src =>
        simp only []
        by_cases hb : (w.get_data 0).data_size = -EC_ERROR_BUSY
        · simp only [hb, if_true]
          obtain ⟨evs, h1, h2, _⟩ := ih
            { last := (next_event_index N w.events w.last N 0 + w.last) % N + 1,
              events := set_event
                ((clear_event w.events ((next_event_index N w.events w.last N 0 + w.last) % N)
                  ||| (w.get_data 0).raised) % 2 ^ 32)
                ((next_event_index N w.events w.last N 0 + w.last) % N),
              get_data := fun n => w.get_data (n + 1),
              trace := w.trace ++ [MkbpEvent.get_data
                ((next_event_index N w.events w.last N 0 + w.last) % N)
                (clear_event w.events
                  ((next_event_index N w.events w.last N 0 + w.last) % N))],
              response0 := (next_event_index N w.events w.last N 0 + w.last) % N % 256,
              response_size := w.response_size }
          refine ⟨_ :: evs, ?_, ?_, fun _ _ => ⟨evs, rfl⟩⟩
          · rw [h1]
            simp
          · intro evt ev hm
            rcases List.mem_cons.mp hm with h | h
            · exact hmem evt ev (by rw [h]; simp)
            · exact h2 evt ev h
        · simp only [hb, if_false]
          by_cases hneg : (w.get_data 0).data_size < 0
          · simp only [hneg, if_true]
            exact ⟨_, rfl, hmem, fun _ _ => ⟨[], rfl⟩⟩
          · simp only [hneg, if_false]
            split_ifs
            · refine ⟨[MkbpEvent.get_data _ _, MkbpEvent.set_host_interrupt 0], by simp, ?_,
                fun _ _ => ⟨_, rfl⟩⟩
              intro evt ev hm
              apply hmem evt ev
              simpa using hm
            · exact ⟨_, rfl, hmem, fun _ _ => ⟨[], rfl⟩⟩

/-- C22: `mkbp_get_next_event` with an event count between 1 and 32.
(1) It returns EC_RES_UNAVAILABLE exactly when no event type below the count is
pending.  (2) When one is pending, the type it picks first is the first pending
one in cyclic order from `last`; every `get_data` call it makes is for a type
whose bit is clear in `events` at the call, and when the type picked has a
source the first call is the `get_data` of that type with the bit cleared; and
when that source is not busy the function returns with `last` one past the
type picked, so that the next search starts at the type after it.  (3) When no
source reports busy, an event type that is pending and has a source is
serviced by one of the next EC_MKBP_EVENT_COUNT calls, whatever events are
sent between the calls. -/
theorem mkbp_get_next_event_round_robin (N : Nat) (srcs : List mkbp_event_source)
    (fuel : Nat) (w : MkbpWorld) (hN : 0 < N) (hN32 : N ≤ 32) :
    ((mkbp_get_next_event N srcs fuel w).1 = some ec_status.EC_RES_UNAVAILABLE ↔
      ∀ t, t < N → event_is_set w.events t = 0) ∧
    ((∃ t, t < N ∧ event_is_set w.events t ≠ 0) →
      ∃ i, i < N ∧ event_is_set w.events ((w.last + i) % N) ≠ 0 ∧
        (∀ j, j < i → event_is_set w.events ((w.last + j) % N) = 0) ∧
        (∃ evs, (mkbp_get_next_event N srcs fuel w).2.trace = w.trace ++ evs ∧
          (∀ evt ev, MkbpEvent.get_data evt ev ∈ evs → evt < N ∧ event_is_set ev evt = 0) ∧
          ((∃ s ∈ srcs, s.event_type = (w.last + i) % N) →
            ∃ rest, evs = MkbpEvent.get_data ((w.last + i) % N)
              (clear_event w.events ((w.last + i) % N)) :: rest)) ∧
        ((w.get_data 0).data_size ≠ -EC_ERROR_BUSY →
          (mkbp_get_next_event N srcs fuel w).1 ≠ none ∧
          (mkbp_get_next_event N srcs fuel w).2.last = (w.last + i) % N + 1)) ∧
    ((∀ n, (w.get_data n).data_size ≠ -EC_ERROR_BUSY) →
      ∀ t raise, t < N → event_is_set w.events t ≠ 0 → (∃ s ∈ srcs, s.event_type = t) →
        ∃ k, 1 ≤ k ∧ k ≤ N ∧ ∃ ev pre post,
          (mkbp_calls N srcs fuel k raise w).trace
            = w.trace ++ (pre ++ MkbpEvent.get_data t ev :: post)) := by
  refine ⟨?_, ?_, ?_⟩
  · constructor
    · intro h
      by_contra hne
      have hex : ∃ t, t < N ∧ event_is_set w.events t ≠ 0 := by
        by_contra hno
        apply hne
        intro t ht
        by_contra hset
        exact hno ⟨t, ht, hset⟩
      exact mkbp_get_next_event_pending N srcs hN hN32 fuel w hex h
    · intro h
      rw [mkbp_get_next_event_idle N srcs fuel w hN h]
  · rintro ⟨t, ht, hpt⟩
    have hi := next_event_index_ne_count N w.events w.last t hN ht hpt
    obtain ⟨_, hle, hset, hmin⟩ := next_event_index_spec N w.events w.last N 0
    have hlt : next_event_index N w.events w.last N 0 < N := by omega
    have hcomm : (next_event_index N w.events w.last N 0 + w.last) % N
        = (w.last + next_event_index N w.events w.last N 0) % N := by rw [Nat.add_comm]
    refine ⟨next_event_index N w.events w.last N 0, hlt, hset (by omega),
      fun j hj => hmin j (Nat.zero_le j) hj, ?_, ?_⟩
    · obtain ⟨evs, h1, h2, h3⟩ := mkbp_get_next_event_trace N srcs hN hN32 fuel w
      refine ⟨evs, h1, h2, ?_⟩
      intro hs
      rw [← hcomm]
      exact h3 hi (by rw [hcomm]; exact hs)
    · intro hb
      obtain ⟨h1, _, h3, _⟩ := mkbp_get_next_event_step N srcs fuel w hN hN32 hi hb
      exact ⟨h1, by rw [h3, hcomm]⟩
  · intro hbusy t raise ht hpt hsrc
    obtain ⟨d, hd, hdt⟩ := cyclic_reach N w.last t ht
    have hbit := (event_is_set_iff w.events t (by omega)).mp hpt
    obtain ⟨k, hk1, hk, h⟩ :=
      mkbp_calls_service N srcs fuel hN hN32 t ht hsrc d w raise hbusy hd hdt hbit
    exact ⟨k, hk1, by omega, h⟩

/-- C22 (witness): three event types with a source each, types 1 and 2
pending and `last` at 0; the call does not return EC_RES_UNAVAILABLE. -/
theorem mkbp_get_next_event_round_robin_witness :
    (0 < 3 ∧ 3 ≤ 32) ∧
    ((mkbp_get_next_event 3 demo_mkbp_srcs 0 (mkbp_world 6)).1
        = some ec_status.EC_RES_UNAVAILABLE ↔
      ∀ t, t < 3 → event_is_set (mkbp_world 6).events t = 0) :=
  ⟨⟨by decide, by decide⟩,
    (mkbp_get_next_event_round_robin 3 demo_mkbp_srcs 0 (mkbp_world 6)
      (by decide) (by decide)).1⟩

/-! ## Theorems: `spi_nor_write` -/

end UsbPd
